import Mathlib

/-! Order pages of the storefront: list filter, detail normalizer, cancel and checkout.

A shallow embedding of the data shaping code and the handlers of
`src/pages/OrdersPage.jsx`, `src/pages/OrderDetailsPage.jsx`, `src/pages/OrderPage.jsx` and
`src/components/ProductCard.jsx`.  Backend payloads are JSON values, so the JavaScript
fragment needed is small: property reads, truthiness, `||`, `===`, `Number(...)`, `*`,
object spread, `Array.prototype.filter` / `map` / `find`,
`String.prototype.toLowerCase` / `includes`.

Host functions whose tables are not part of the repository (case mapping, numeric literal
parsing, number printing, the wall clock, rounding) are fields of `Host` and `NumHost`;
every theorem holds for all hosts unless it names one.  Handlers return the state after
they settle together with the effects they request.
-/

namespace XeComm

/-! ## JavaScript values -/

/-- Number values: `NaN`, the two infinities, negative zero, and finite values (`fin 0` is
positive zero).  IEEE doubles are a subset of the finite values. -/
inductive JSNum where
  | nan
  | posInf
  | negInf
  | negZero
  | fin (q : ℚ)
deriving DecidableEq

/-- JSON-shaped values as the pages receive them; `undefined` is what reading an absent
property yields.  An object is the list of its own enumerable properties; a read takes the
first entry for a key.  Strings are sequences of code points. -/
inductive JSValue where
  | undefined
  | null
  | bool (b : Bool)
  | num (n : JSNum)
  | str (s : String)
  | arr (items : List JSValue)
  | obj (fields : List (String × JSValue))

/-- Exceptions the modelled fragment can raise. -/
inductive JSError where
  | typeError
deriving DecidableEq

/-- Result of awaiting a call of the backend collaborator. -/
inductive Outcome where
  | resolved (result : JSValue)
  | rejected

/-- Host functions used by the pages.  `clock k` is the string returned by the read number
`k` of `new Date().toISOString()`. -/
structure Host where
  toLowerCase : String → String
  stringToNumber : String → JSNum
  numberToString : JSNum → String
  clock : Nat → String

/-- Numbers that `ToBoolean` sends to `false`: both zeros and `NaN`. -/
def JSNum.isFalsy : JSNum → Bool
  | .nan => true
  | .negZero => true
  | .fin q => decide (q = 0)
  | _ => false

namespace JSValue

/-- The two values on which a property read raises. -/
def isNullish : JSValue → Bool
  | undefined => true
  | null => true
  | _ => false

/-- `ToBoolean`. -/
def truthy : JSValue → Bool
  | undefined => false
  | null => false
  | bool b => b
  | num n => !n.isFalsy
  | str s => decide (s ≠ "")
  | arr _ => true
  | obj _ => true

/-- The expression `a || b` for an operand `b` without effects. -/
def orElse (a b : JSValue) : JSValue :=
  if a.truthy then a else b

/-- First entry for key `k` in a property list. -/
def lookupField : List (String × JSValue) → String → Option JSValue
  | [], _ => none
  | (k, v) :: rest, key => if k = key then some v else lookupField rest key

/-- Definition of property `k` in an object under construction: an existing key keeps its
position and takes the new value, a new key is appended. -/
def setField : List (String × JSValue) → String → JSValue → List (String × JSValue)
  | [], key, v => [(key, v)]
  | (k, w) :: rest, key, v =>
      if k = key then (key, v) :: rest else (k, w) :: setField rest key v

/-- Index keyed entries `"0"`, `"1"`, ... of an array or string, starting at index `i`. -/
def indexed : Nat → List JSValue → List (String × JSValue)
  | _, [] => []
  | i, x :: rest => (toString i, x) :: indexed (i + 1) rest

/-- Own enumerable properties, that is what `{...v}` copies: the fields of an object, the
index entries of an array or of a string, nothing for the other primitives.  A string is
indexed by code point here and by UTF-16 code unit in ECMAScript; the two agree on the
Basic Multilingual Plane. -/
def ownEnumerable : JSValue → List (String × JSValue)
  | obj fields => fields
  | arr items => indexed 0 items
  | str s => indexed 0 (s.data.map (fun c => str (String.singleton c)))
  | _ => []

/-- Read of property `k` on a value that is not nullish.  Own properties and `length` are
modelled; the property names read by the pages are never members of a builtin prototype.
On `undefined` and `null`, where the read itself raises (see `getProp`), the value is
`undefined`. -/
def getOwn (v : JSValue) (k : String) : JSValue :=
  match v with
  | arr items =>
      if k = "length" then num (.fin items.length)
      else (lookupField (ownEnumerable v) k).getD undefined
  | str s =>
      if k = "length" then num (.fin s.length)
      else (lookupField (ownEnumerable v) k).getD undefined
  | _ => (lookupField (ownEnumerable v) k).getD undefined

/-- The expression `v.k`: a `TypeError` on `undefined` and `null`. -/
def getProp (v : JSValue) (k : String) : Except JSError JSValue :=
  if v.isNullish then .error .typeError else .ok (v.getOwn k)

/-- Strict equality `v === s` against a string. -/
def strictEqStr (v : JSValue) (s : String) : Bool :=
  match v with
  | str t => decide (t = s)
  | _ => false

mutual
/-- `ToString` on JSON-shaped values.  A plain object prints as `[object Object]` unless
it has an own `toString` property, which JSON can only make non-callable: then
`OrdinaryToPrimitive` finds no usable method and raises. -/
def toStr (host : Host) : JSValue → Except JSError String
  | undefined => .ok "undefined"
  | null => .ok "null"
  | bool true => .ok "true"
  | bool false => .ok "false"
  | num n => .ok (host.numberToString n)
  | str s => .ok s
  | arr items => joinItems host items
  | obj fields =>
      if (lookupField fields "toString").isSome then .error .typeError
      else .ok "[object Object]"
termination_by structural v => v
/-- `Array.prototype.join` with the default separator: `undefined` and `null` entries
print as the empty string. -/
def joinItems (host : Host) : List JSValue → Except JSError String
  | [] => .ok ""
  | x :: rest =>
      match (if x.isNullish then .ok "" else toStr host x), joinItems host rest with
      | .ok a, .ok b => .ok (if rest.isEmpty then a else a ++ "," ++ b)
      | .error e, _ => .error e
      | _, .error e => .error e
termination_by structural xs => xs
end

/-- `Number(v)`, that is `ToNumber`: objects and arrays go through `ToPrimitive`, whose
`valueOf` step returns the object itself, so the string conversion decides. -/
def toNumber (host : Host) : JSValue → Except JSError JSNum
  | undefined => .ok .nan
  | null => .ok (.fin 0)
  | bool true => .ok (.fin 1)
  | bool false => .ok (.fin 0)
  | num n => .ok n
  | str s => .ok (host.stringToNumber s)
  | v => (toStr host v).map host.stringToNumber

/-- The method call `v.toLowerCase()`: only strings have the method. -/
def callToLowerCase (host : Host) : JSValue → Except JSError String
  | str s => .ok (host.toLowerCase s)
  | _ => .error .typeError

end JSValue

/-- `s.includes(t)`: `t` occurs in `s` at some position. -/
def includes (s t : String) : Bool :=
  s.data.tails.any (fun suffix => t.data.isPrefixOf suffix)

/-! ## OrdersPage.jsx -/

/-- Callback of `orders.filter` in `OrdersPage`.  The reads `order.order_id.toLowerCase()`
and `order.address_line.toLowerCase()` raise on a value that is not a string; the second
one is only evaluated when the identifier does not match (`||` short circuit). -/
def orderMatches (host : Host) (searchTerm filterStatus : String) (order : JSValue) :
    Except JSError Bool := do
  let orderId ← order.getProp "order_id"
  let idLower ← orderId.callToLowerCase host
  let matchesSearch ←
    if includes idLower (host.toLowerCase searchTerm) then pure true
    else do
      let addressLine ← order.getProp "address_line"
      let lineLower ← addressLine.callToLowerCase host
      pure (includes lineLower (host.toLowerCase searchTerm))
  let matchesFilter :=
    decide (filterStatus = "all") || (order.getOwn "order_status").strictEqStr filterStatus
  pure (matchesSearch && matchesFilter)

/-- The list `filteredOrders` of `OrdersPage`: `Array.prototype.filter` visits the orders
front to back, keeps those for which the callback is true, and raises as soon as the
callback raises. -/
def filteredOrders (host : Host) (orders : List JSValue) (searchTerm filterStatus : String) :
    Except JSError (List JSValue) :=
  match orders with
  | [] => pure []
  | order :: rest => do
      let keep ← orderMatches host searchTerm filterStatus order
      let kept ← filteredOrders host rest searchTerm filterStatus
      pure (if keep then order :: kept else kept)

/-- Local state of `OrdersPage` (the `useState` cells) plus the log of `navigate` calls. -/
structure OrdersPageState where
  orders : JSValue
  loading : Bool
  error : JSValue
  searchTerm : String
  filterStatus : String
  expandedOrder : JSValue
  navigations : List String

/-- State of `OrdersPage` on mount. -/
def OrdersPageState.initial : OrdersPageState :=
  { orders := .arr [], loading := true, error := .null, searchTerm := "",
    filterStatus := "all", expandedOrder := .null, navigations := [] }

/-- The effect body `fetchOrders` of `OrdersPage`, given what `await getOrders()` produced.
The received list is stored as is. -/
def fetchOrders (outcome : Outcome) (s : OrdersPageState) : OrdersPageState :=
  let s1 := { s with loading := true }
  let caught := { s1 with error := .str "Failed to fetch orders. Please try again later." }
  let s2 :=
    match outcome with
    | .rejected => caught
    | .resolved result =>
        match result.getProp "success" with
        | .error _ => caught
        | .ok success =>
            if success.truthy then { s1 with orders := result.getOwn "orders" }
            else
              let s3 := { s1 with error := result.getOwn "message" }
              if (result.getOwn "redirectToLogin").truthy then
                { s3 with navigations := s3.navigations ++ ["/login"] }
              else s3
  { s2 with loading := false }

/-- The `filteredOrders` constant as a render of `OrdersPage` computes it from the state:
`orders.filter` is a `TypeError` when `orders` is not an array. -/
def OrdersPageState.filtered (host : Host) (s : OrdersPageState) :
    Except JSError (List JSValue) :=
  match s.orders with
  | .arr orders => filteredOrders host orders s.searchTerm s.filterStatus
  | _ => .error .typeError

/-! ## OrderDetailsPage.jsx -/

/-- Callback of `itemsData.map`: `{...item, price: Number(item.price) || 0, ...}`.  The
spread accepts every value; the first property read raises on `null` and `undefined`. -/
def normalizeItem (host : Host) (item : JSValue) : Except JSError JSValue := do
  let spread := item.ownEnumerable
  let rawPrice ← item.getProp "price"
  let price ← rawPrice.toNumber host
  let quantity ← (item.getOwn "quantity").toNumber host
  pure (.obj
    (JSValue.setField
      (JSValue.setField
        (JSValue.setField
          (JSValue.setField
            (JSValue.setField spread
              "price" ((JSValue.num price).orElse (.num (.fin 0))))
            "quantity" ((JSValue.num quantity).orElse (.num (.fin 1))))
          "productName" ((item.getOwn "productName").orElse (.str "Unnamed Product")))
        "description" ((item.getOwn "description").orElse (.str "No description available")))
      "images" ((item.getOwn "images").orElse (.arr []))))

/-- The call `itemsData.map(...)` on an array. -/
def normalizeItems (host : Host) : List JSValue → Except JSError (List JSValue)
  | [] => pure []
  | item :: rest => do
      let first ← normalizeItem host item
      let others ← normalizeItems host rest
      pure (first :: others)

/-- The expression `raw || new Date().toISOString()` when `k` clock reads happened before:
the clock is read only when `raw` is falsy. -/
def orNow (host : Host) (raw : JSValue) (k : Nat) : JSValue × Nat :=
  if raw.truthy then (raw, k) else (.str (host.clock k), k + 1)

/-- Callback of `trackingData.map`, with the number of clock reads threaded. -/
def normalizeTrack (host : Host) (k : Nat) (track : JSValue) : Except JSError (JSValue × Nat) := do
  let spread := track.ownEnumerable
  let rawStatus ← track.getProp "status"
  let updateTime := orNow host (track.getOwn "update_time") k
  pure (.obj
    (JSValue.setField
      (JSValue.setField
        (JSValue.setField spread
          "status" (rawStatus.orElse (.str "Pending")))
        "update_time" updateTime.1)
      "notes" ((track.getOwn "notes").orElse (.str "Status update"))),
    updateTime.2)

/-- The call `trackingData.map(...)` on an array. -/
def normalizeTracking (host : Host) : Nat → List JSValue → Except JSError (List JSValue × Nat)
  | k, [] => pure ([], k)
  | k, track :: rest => do
      let first ← normalizeTrack host k track
      let others ← normalizeTracking host first.2 rest
      pure (first.1 :: others.1, others.2)

/-- The object `normalizedAddress` built from `orderData`. -/
def normalizedAddress (orderData : JSValue) : JSValue :=
  .obj [
    ("line", (orderData.getOwn "address_line").orElse (.str "Not specified")),
    ("city", (orderData.getOwn "city").orElse (.str "")),
    ("state", (orderData.getOwn "state").orElse (.str "")),
    ("country", (orderData.getOwn "country").orElse (.str "")),
    ("zip_code", (orderData.getOwn "zip_code").orElse (.str "")),
    ("phone", (orderData.getOwn "phone").orElse (.str "Not provided"))]

/-- The method call `v.map(callback)`: a `TypeError` unless `v` is an array. -/
def asArray : JSValue → Except JSError (List JSValue)
  | .arr items => .ok items
  | _ => .error .typeError

/-- Success branch of `fetchOrderDetails`: from `payload = result.order` and the route
parameter `orderId` to the argument of `setOrder`, in evaluation order.  `k` counts the
clock reads made before. -/
def normalizeOrderDetails (host : Host) (orderId : String) (payload : JSValue) (k : Nat) :
    Except JSError (JSValue × Nat) := do
  let rawOrder ← payload.getProp "order"
  let orderData := rawOrder.orElse (.obj [])
  let itemsData := (payload.getOwn "items").orElse (.arr [])
  let trackingData := (payload.getOwn "tracking").orElse (.arr [])
  let address := normalizedAddress orderData
  let createdAt := orNow host (orderData.getOwn "created_at") k
  let rawItems ← asArray itemsData
  let items ← normalizeItems host rawItems
  let rawTracking ← asArray trackingData
  let tracking ← normalizeTracking host createdAt.2 rawTracking
  pure (.obj [
    ("order_id", (orderData.getOwn "order_id").orElse (.str orderId)),
    ("total_amount", (orderData.getOwn "total_amount").orElse (.num (.fin 0))),
    ("payment_method", (orderData.getOwn "payment_method").orElse (.str "Not specified")),
    ("payment_status", (orderData.getOwn "payment_status").orElse (.str "Pending")),
    ("order_status", (orderData.getOwn "order_status").orElse (.str "Pending")),
    ("created_at", createdAt.1),
    ("address", address),
    ("items", .arr items),
    ("tracking", .arr tracking.1)],
    tracking.2)

/-- Local state of `OrderDetailsPage` (the `useState` cells). -/
structure DetailsPageState where
  order : JSValue
  loading : Bool
  error : JSValue
  message : JSValue
  activeTab : String

/-- State of `OrderDetailsPage` on mount. -/
def DetailsPageState.initial : DetailsPageState :=
  { order := .null, loading := true, error := .null, message := .null, activeTab := "details" }

/-- The effect body `fetchOrderDetails`, given what `await getOrderDetails(orderId)`
produced.  Every exception raised inside `try`, also one raised while the order is being
normalized, is caught and becomes the error state. -/
def fetchOrderDetails (host : Host) (orderId : String) (k : Nat) (outcome : Outcome)
    (s : DetailsPageState) : DetailsPageState :=
  let s1 := { s with loading := true }
  let caught := { s1 with error := .str "An error occurred while loading order details" }
  let s2 :=
    match outcome with
    | .rejected => caught
    | .resolved result =>
        match result.getProp "success" with
        | .error _ => caught
        | .ok success =>
            if success.truthy then
              match normalizeOrderDetails host orderId (result.getOwn "order") k with
              | .error _ => caught
              | .ok normalized => { s1 with order := normalized.1 }
            else
              { s1 with error :=
                  (result.getOwn "message").orElse (.str "Failed to load order details") }
  { s2 with loading := false }

/-- The handler `handleCancelOrder`, given the answer to `window.confirm` and what
`await cancelOrder(orderId)` produced.  The handler has no `try`: a rejection or a raise
leaves the state as it was. -/
def handleCancelOrder (confirmed : Bool) (outcome : Outcome) (s : DetailsPageState) :
    DetailsPageState :=
  if confirmed then
    match outcome with
    | .rejected => s
    | .resolved result =>
        match result.getProp "success" with
        | .error _ => s
        | .ok success =>
            if success.truthy then
              { s with
                message := .obj [("type", .str "success"),
                  ("text", .str "Order cancelled successfully")],
                order := .obj (JSValue.setField s.order.ownEnumerable
                  "order_status" (.str "Cancelled")) }
            else
              { s with
                message := .obj [("type", .str "error"),
                  ("text", (result.getOwn "message").orElse (.str "Failed to cancel order"))] }
  else s

/-! ## Vocabulary of the specification -/

/-- Text of property `k` of `v` when it is a string, the empty string otherwise. -/
def textOf (v : JSValue) (k : String) : String :=
  match v.getOwn k with
  | .str s => s
  | _ => ""

/-- Order summaries as the list filter reads them: identifier and address line are
strings. -/
def IsOrderSummary (order : JSValue) : Prop :=
  ∃ id line, order.getOwn "order_id" = .str id ∧ order.getOwn "address_line" = .str line

/-- Equality of a value with a string is decidable. -/
instance decEqStr (v : JSValue) (s : String) : Decidable (v = .str s) :=
  match v with
  | .str t => if h : t = s then isTrue (by rw [h]) else isFalse (fun e => h (JSValue.str.inj e))
  | .undefined => isFalse (fun e => JSValue.noConfusion e)
  | .null => isFalse (fun e => JSValue.noConfusion e)
  | .bool _ => isFalse (fun e => JSValue.noConfusion e)
  | .num _ => isFalse (fun e => JSValue.noConfusion e)
  | .arr _ => isFalse (fun e => JSValue.noConfusion e)
  | .obj _ => isFalse (fun e => JSValue.noConfusion e)

/-- Selection rule of the order list filter in the words of the specification: the lower
cased identifier or the lower cased address line contains the lower cased term, and the
selector is `all` or equals the status of the order. -/
def SelectedBySpec (host : Host) (term status : String) (order : JSValue) : Prop :=
  ((host.toLowerCase term).data <:+: (host.toLowerCase (textOf order "order_id")).data ∨
    (host.toLowerCase term).data <:+: (host.toLowerCase (textOf order "address_line")).data) ∧
  (status = "all" ∨ order.getOwn "order_status" = .str status)

instance decSelectedBySpec (host : Host) (term status : String) (order : JSValue) :
    Decidable (SelectedBySpec host term status order) := by
  unfold SelectedBySpec
  infer_instance

/-- The callback of the list filter as a total test: true exactly when it returns true. -/
def keeps (host : Host) (searchTerm filterStatus : String) (order : JSValue) : Bool :=
  match orderMatches host searchTerm filterStatus order with
  | .ok true => true
  | _ => false

/-! ## Inputs the detail normalizer accepts, and what it makes of them -/

mutual
/-- Values whose string conversion cannot raise: no object with an own `toString` entry,
directly or inside arrays. -/
def JSValue.printable : JSValue → Bool
  | .arr items => printableItems items
  | .obj fields => !(JSValue.lookupField fields "toString").isSome
  | _ => true
termination_by structural v => v
/-- All entries of an array are printable. -/
def printableItems : List JSValue → Bool
  | [] => true
  | x :: rest => x.printable && printableItems rest
termination_by structural xs => xs
end

/-- Line items on which the item callback cannot raise: not `null` or `undefined`, with a
printable price and quantity. -/
def itemOK (item : JSValue) : Bool :=
  !item.isNullish && (item.getOwn "price").printable && (item.getOwn "quantity").printable

/-- Tracking events on which the tracking callback cannot raise: not `null` or
`undefined`. -/
def trackOK (track : JSValue) : Bool :=
  !track.isNullish

/-- The value `v || []` is an array all of whose entries pass `entryOK`: `v` is missing
(falsy) or such an array. -/
def listOK (entryOK : JSValue → Bool) (v : JSValue) : Bool :=
  match v.orElse (.arr []) with
  | .arr items => items.all entryOK
  | _ => false

/-- Payloads on which the detail normalizer cannot raise. -/
def payloadOK (payload : JSValue) : Bool :=
  !payload.isNullish && listOK itemOK (payload.getOwn "items") &&
    listOK trackOK (payload.getOwn "tracking")

/-- The value `out` is `raw` with default `dflt`: a truthy raw value is kept, a missing one
(`undefined`, `null`) or another falsy one gives the default. -/
def Defaulted (raw dflt out : JSValue) : Prop :=
  (raw.truthy = true → out = raw) ∧ (raw.truthy = false → out = dflt)

/-- Keys that the item callback writes after the spread. -/
def itemKeys : List String :=
  ["price", "quantity", "productName", "description", "images"]

/-- Keys that the tracking callback writes after the spread. -/
def trackKeys : List String :=
  ["status", "update_time", "notes"]

/-- What the item callback makes of a raw line item: price and quantity are the numeric
coercions unless those are falsy (`NaN` or a zero), then 0 and 1; name, description and
images are defaulted; every other own property is carried over. -/
def ItemNormalized (host : Host) (raw out : JSValue) : Prop :=
  (∃ p, (raw.getOwn "price").toNumber host = .ok p ∧
      out.getOwn "price" = .num (if p.isFalsy then .fin 0 else p)) ∧
  (∃ q, (raw.getOwn "quantity").toNumber host = .ok q ∧
      out.getOwn "quantity" = .num (if q.isFalsy then .fin 1 else q)) ∧
  Defaulted (raw.getOwn "productName") (.str "Unnamed Product") (out.getOwn "productName") ∧
  Defaulted (raw.getOwn "description") (.str "No description available")
    (out.getOwn "description") ∧
  Defaulted (raw.getOwn "images") (.arr []) (out.getOwn "images") ∧
  ∀ key, key ∉ itemKeys →
    JSValue.lookupField out.ownEnumerable key = JSValue.lookupField raw.ownEnumerable key

/-- The sentence of the specification on quantity: the normalized quantity is the numeric
coercion of the raw quantity, and 1 when the raw quantity is missing or not numeric. -/
def QuantityAsSpecified (host : Host) (raw out : JSValue) : Prop :=
  ∃ q, (raw.getOwn "quantity").toNumber host = .ok q ∧
    out.getOwn "quantity" = .num (if q = .nan then .fin 1 else q)

/-- What the tracking callback makes of a raw event when the clock reads number `lo` up to
`hi - 1` happen during the map: each of the three fields is defaulted on its own, every
other own property is carried over. -/
def TrackNormalized (host : Host) (lo hi : Nat) (raw out : JSValue) : Prop :=
  Defaulted (raw.getOwn "status") (.str "Pending") (out.getOwn "status") ∧
  ((raw.getOwn "update_time").truthy = true →
    out.getOwn "update_time" = raw.getOwn "update_time") ∧
  ((raw.getOwn "update_time").truthy = false →
    ∃ j, lo ≤ j ∧ j < hi ∧ out.getOwn "update_time" = .str (host.clock j)) ∧
  Defaulted (raw.getOwn "notes") (.str "Status update") (out.getOwn "notes") ∧
  ∀ key, key ∉ trackKeys →
    JSValue.lookupField out.ownEnumerable key = JSValue.lookupField raw.ownEnumerable key

/-- Field `key` of the order object of a payload; `undefined` when the order object or the
field is missing. -/
def rawOrderField (payload : JSValue) (key : String) : JSValue :=
  (payload.getOwn "order").getOwn key

/-- Order level fields and their documented defaults, for route parameter `orderId` and a
clock that was read `k` times before. -/
def orderFieldDefaults (host : Host) (orderId : String) (k : Nat) : List (String × JSValue) :=
  [("total_amount", .num (.fin 0)),
   ("order_status", .str "Pending"),
   ("payment_status", .str "Pending"),
   ("payment_method", .str "Not specified"),
   ("created_at", .str (host.clock k)),
   ("order_id", .str orderId)]

/-- Address fields: name in the normalized address, name in the raw order object, and
documented default. -/
def addressFieldDefaults : List (String × String × JSValue) :=
  [("line", "address_line", .str "Not specified"),
   ("phone", "phone", .str "Not provided"),
   ("city", "city", .str ""),
   ("state", "state", .str ""),
   ("country", "country", .str ""),
   ("zip_code", "zip_code", .str "")]

/-- Order level fields of the normalized order that the detail page reads. -/
def orderKeys : List String :=
  ["order_id", "total_amount", "payment_method", "payment_status", "order_status",
    "created_at", "address"]

/-- Fields of the normalized address. -/
def addressKeys : List String :=
  ["line", "city", "state", "country", "zip_code", "phone"]

/-! ## A sample host and sample data

Used to evaluate the definitions at concrete inputs.  The sample host agrees with
ECMAScript on ASCII text, on strings of ASCII decimal digits and on integers below `10^21`;
the theorems that name it only feed it such inputs. -/

/-- Lower casing of the ASCII letters. -/
def asciiLower (s : String) : String :=
  ⟨s.data.map Char.toLower⟩

/-- Numeric value of a string of decimal digits (0 for the empty string), `NaN` for other
strings. -/
def digitsToNumber (s : String) : JSNum :=
  if s.data.all Char.isDigit then
    .fin ((s.data.foldl (fun n c => 10 * n + (c.toNat - 48)) 0 : Nat) : ℚ)
  else .nan

/-- Printing of the special values and of integers. -/
def printNumber : JSNum → String
  | .nan => "NaN"
  | .posInf => "Infinity"
  | .negInf => "-Infinity"
  | .negZero => "0"
  | .fin q => toString q.num

/-- The sample host; its clock advances by one millisecond per read. -/
def sampleHost : Host :=
  { toLowerCase := asciiLower,
    stringToNumber := digitsToNumber,
    numberToString := printNumber,
    clock := fun k => "2024-01-01T00:00:00.00" ++ toString (k % 10) ++ "Z" }

/-- Three order summaries. -/
def sampleOrders : List JSValue :=
  [.obj [("order_id", .str "ORD-A1"), ("address_line", .str "12 Hill Road"),
      ("order_status", .str "Pending")],
   .obj [("order_id", .str "ORD-B2"), ("address_line", .str "7 Lake View"),
      ("order_status", .str "Shipped")],
   .obj [("order_id", .str "ORD-C3"), ("address_line", .str "3 Hill Top"),
      ("order_status", .str "Pending")]]

/-- A line item with quantity zero. -/
def zeroQuantityItem : JSValue :=
  .obj [("productName", .str "Desk lamp"), ("price", .num (.fin 40)),
    ("quantity", .num (.fin 0))]

/-- Two raw line items, the second one with most fields missing. -/
def sampleItems : List JSValue :=
  [.obj [("productName", .str "Desk lamp"), ("price", .str "40"), ("quantity", .num (.fin 2)),
      ("sku", .str "DL-1")],
   .obj [("price", .null)]]

/-- Two raw tracking events, the second one without time and notes. -/
def sampleTracking : List JSValue :=
  [.obj [("status", .str "Shipped"), ("update_time", .str "2024-02-01T10:00:00.000Z"),
      ("notes", .str "Left the warehouse"), ("courier", .str "BlueDart")],
   .obj [("status", .str "Delivered")]]

/-- A payload whose order object lacks most fields. -/
def samplePayload : JSValue :=
  .obj [("order", .obj [("order_status", .str "Shipped"), ("city", .str "Pune")]),
    ("items", .arr sampleItems), ("tracking", .arr sampleTracking)]

/-- A payload whose items list has a `null` entry. -/
def nullItemPayload : JSValue :=
  .obj [("order", .obj [("order_id", .str "ORD-A1"), ("order_status", .str "Pending")]),
    ("items", .arr [.null]), ("tracking", .arr [])]

/-- A successful `getOrderDetails` result carrying `samplePayload`. -/
def sampleResult : JSValue :=
  .obj [("success", .bool true), ("order", samplePayload)]

/-- A successful `getOrderDetails` result carrying `nullItemPayload`. -/
def nullItemResult : JSValue :=
  .obj [("success", .bool true), ("order", nullItemPayload)]

/-- A successful `getOrders` result with one order that has no address line. -/
def noAddressResult : JSValue :=
  .obj [("success", .bool true),
    ("orders", .arr [.obj [("order_id", .str "ORD-A1"), ("address_line", .null),
      ("order_status", .str "Pending")]])]

/-- What the detail normalizer returns for `samplePayload` on route `ORD-A1` with a clock
that was not read before. -/
def sampleNormalized : JSValue :=
  .obj [("order_id", .str "ORD-A1"), ("total_amount", .num (.fin 0)),
    ("payment_method", .str "Not specified"), ("payment_status", .str "Pending"),
    ("order_status", .str "Shipped"), ("created_at", .str "2024-01-01T00:00:00.000Z"),
    ("address", .obj [("line", .str "Not specified"), ("city", .str "Pune"),
      ("state", .str ""), ("country", .str ""), ("zip_code", .str ""),
      ("phone", .str "Not provided")]),
    ("items", .arr [
      .obj [("productName", .str "Desk lamp"), ("price", .num (.fin 40)),
        ("quantity", .num (.fin 2)), ("sku", .str "DL-1"),
        ("description", .str "No description available"), ("images", .arr [])],
      .obj [("price", .num (.fin 0)), ("quantity", .num (.fin 1)),
        ("productName", .str "Unnamed Product"),
        ("description", .str "No description available"), ("images", .arr [])]]),
    ("tracking", .arr [
      .obj [("status", .str "Shipped"), ("update_time", .str "2024-02-01T10:00:00.000Z"),
        ("notes", .str "Left the warehouse"), ("courier", .str "BlueDart")],
      .obj [("status", .str "Delivered"), ("update_time", .str "2024-01-01T00:00:00.001Z"),
        ("notes", .str "Status update")]])]

/-- A detail page that shows a pending order. -/
def pendingState : DetailsPageState :=
  { order := .obj [("order_id", .str "ORD-A1"), ("total_amount", .num (.fin 80)),
      ("order_status", .str "Pending"), ("items", .arr []), ("tracking", .arr [])],
    loading := false, error := .null, message := .null, activeTab := "tracking" }

/-! ## Vocabulary of the specification: search -/

/-- The term occurs in the text as a substring, case insensitively: the lower cased text
contains the lower cased term. -/
def OccursIn (host : Host) (term text : String) : Prop :=
  (host.toLowerCase term).data <:+: (host.toLowerCase text).data

/-- Two strings differ at most in letter case: they have the same lower case form. -/
def SameUpToCase (host : Host) (a b : String) : Prop :=
  host.toLowerCase a = host.toLowerCase b

/-! ## Views, effects and local events of the two order pages -/

/-- Side effects that a handler or an effect body requests, in program order.  The
function valued `handler` entry of the payment options is not part of `options`; it is
modelled by `paymentHandler`. -/
inductive Effect where
  | backendCall (name : String) (argument : JSValue)
  | navigate (path : String)
  | confirm (text : String)
  | clearMessageAfter (delayMs : Nat)
  | navigateAfter (path : String) (delayMs : Nat)
  | openPaymentWidget (options : JSValue)

/-- The effect is a call of the backend collaborator. -/
def Effect.isBackendCall : Effect → Bool
  | .backendCall _ _ => true
  | _ => false

/-- The effect is a `setTimeout` that clears the message. -/
def Effect.isClearMessage : Effect → Bool
  | .clearMessageAfter _ => true
  | _ => false

/-- The four things a page can render. -/
inductive PageView where
  | spinner
  | errorView
  | notFound
  | ready
deriving DecidableEq

/-- Which `return` of the render of `OrderDetailsPage` is reached: `if (loading)`,
`if (error)`, `if (!order)`, and after them the order markup (`ready`).  Only the choice
of the branch is modelled: the expressions inside the order markup are evaluated after it
and can raise on their own, as `order.order_id.substring` does when the identifier is not
a string. -/
def DetailsPageState.view (s : DetailsPageState) : PageView :=
  if s.loading then .spinner
  else if s.error.truthy then .errorView
  else if !s.order.truthy then .notFound
  else .ready

/-- Branch taken by the render of `OrdersPage`.  The constant `filteredOrders` is computed
before the branches, so a render raises when the filter raises; the status chip counts
read `o.order_status` on the same entries and cannot raise once the filter has passed. -/
def OrdersPageState.view (host : Host) (s : OrdersPageState) : Except JSError PageView := do
  let _ ← s.filtered host
  pure (if s.loading then .spinner else if s.error.truthy then .errorView else .ready)

/-- The fetch of the detail page fails: the call rejects, its result cannot be read or
reports failure, or normalizing the order raises. -/
def detailsFetchFails (host : Host) (orderId : String) (k : Nat) : Outcome → Bool
  | .rejected => true
  | .resolved result =>
      result.isNullish || !(result.getOwn "success").truthy ||
        (match normalizeOrderDetails host orderId (result.getOwn "order") k with
          | .ok _ => false
          | .error _ => true)

/-- The fetch of the list page throws: the call rejects or its result cannot be read. -/
def ordersFetchThrows : Outcome → Bool
  | .rejected => true
  | .resolved result => result.isNullish

/-- One run of the fetch effect of the detail page: route parameter, clock reads made
before, and what the call produced. -/
structure DetailsFetch where
  orderId : String
  clockReads : Nat
  outcome : Outcome

/-- State of the detail page after the given fetches, each settled before the next one
starts. -/
def DetailsPageState.afterFetches (host : Host) (s : DetailsPageState)
    (fetches : List DetailsFetch) : DetailsPageState :=
  fetches.foldl (fun st f => fetchOrderDetails host f.orderId f.clockReads f.outcome st) s

/-- Local events of `OrdersPage`: typing in the search box, choosing a status chip,
pressing the chevron of an order. -/
inductive OrdersPageEvent where
  | searchTyped (value : String)
  | filterChosen (value : String)
  | expandToggled (orderId : String)

/-- The function `toggleOrderExpand`: `setExpandedOrder(expandedOrder === orderId ? null :
orderId)`, called with the identifier of a rendered order, which is a string. -/
def toggleOrderExpand (orderId : String) (s : OrdersPageState) : OrdersPageState :=
  { s with expandedOrder := if s.expandedOrder.strictEqStr orderId then .null else .str orderId }

/-- The handlers of the local events of `OrdersPage` with the effects they request.  The
fetch effect depends on `[user, navigate, getOrders]`, none of which is a state cell, so a
state update does not run it again. -/
def OrdersPageState.handle (event : OrdersPageEvent) (s : OrdersPageState) :
    OrdersPageState × List Effect :=
  match event with
  | .searchTyped value => ({ s with searchTerm := value }, [])
  | .filterChosen value => ({ s with filterStatus := value }, [])
  | .expandToggled orderId => (toggleOrderExpand orderId s, [])

/-- The handler of a tab button of `OrderDetailsPage`: `setActiveTab(tab)`.  The fetch
effect depends on `[orderId, getOrderDetails]` and does not run again. -/
def DetailsPageState.handleTab (tab : String) (s : DetailsPageState) :
    DetailsPageState × List Effect :=
  ({ s with activeTab := tab }, [])

/-- A `getOrders` / `getOrderDetails` result that reports failure without a message. -/
def failureWithoutMessage : JSValue :=
  .obj [("success", .bool false)]

/-- A first fetch that rejects, then a fetch for another order that succeeds. -/
def rejectedThenLoaded : List DetailsFetch :=
  [{ orderId := "ORD-Z9", clockReads := 0, outcome := .rejected },
   { orderId := "ORD-A1", clockReads := 0, outcome := .resolved sampleResult }]

/-! ## Arithmetic and line totals -/

/-- Host arithmetic.  `round q` is the double nearest to the exact non-zero result `q`
(an infinity on overflow, a zero on underflow); `toFixed n digits` is
`Number.prototype.toFixed`. -/
structure NumHost where
  round : ℚ → JSNum
  toFixed : JSNum → Nat → String

/-- Positive or negative zero. -/
def JSNum.isZero : JSNum → Bool
  | .negZero => true
  | .fin q => decide (q = 0)
  | _ => false

/-- Positive or negative infinity. -/
def JSNum.isInfinite : JSNum → Bool
  | .posInf => true
  | .negInf => true
  | _ => false

/-- The sign bit. -/
def JSNum.isNegative : JSNum → Bool
  | .negInf => true
  | .negZero => true
  | .fin q => decide (q < 0)
  | _ => false

/-- The value is `NaN`. -/
def JSNum.isNaN : JSNum → Bool
  | .nan => true
  | _ => false

/-- The operator `*` on numbers: `NaN` is absorbing, infinity times zero is `NaN`, the
sign is the exclusive or of the signs, and a product of two finite non-zero values is the
exact product rounded by the host. -/
def JSNum.mul (arith : NumHost) (a b : JSNum) : JSNum :=
  if a.isNaN || b.isNaN then .nan
  else if (a.isInfinite && b.isZero) || (a.isZero && b.isInfinite) then .nan
  else if a.isInfinite || b.isInfinite then
    (if a.isNegative != b.isNegative then .negInf else .posInf)
  else if a.isZero || b.isZero then
    (if a.isNegative != b.isNegative then .negZero else .fin 0)
  else
    match a, b with
    | .fin x, .fin y => arith.round (x * y)
    | _, _ => .nan

/-- The expression `item.price * item.quantity` of an item row of `OrderDetailsPage`. -/
def lineTotal (host : Host) (arith : NumHost) (item : JSValue) : Except JSError JSNum := do
  let price ← item.getProp "price"
  let p ← price.toNumber host
  let q ← (item.getOwn "quantity").toNumber host
  pure (JSNum.mul arith p q)

/-- The function `formatCurrency`: the rupee sign followed by
`(Number(value) || 0).toFixed(2)`. -/
def formatCurrency (host : Host) (arith : NumHost) (value : JSValue) :
    Except JSError String := do
  let n ← value.toNumber host
  pure ("₹" ++ arith.toFixed (if n.isFalsy then .fin 0 else n) 2)

/-- The text of the line total cell: `formatCurrency(item.price * item.quantity)`. -/
def lineTotalShown (host : Host) (arith : NumHost) (item : JSValue) :
    Except JSError String := do
  let total ← lineTotal host arith item
  formatCurrency host arith (.num total)

/-- The items of the example in the specification. -/
def exampleItems : List JSValue :=
  [.obj [("price", .num (.fin 10)), ("quantity", .num (.fin 2))],
   .obj [("price", .num (.fin 5)), ("quantity", .num (.fin 1))]]

/-- Decimal digits of `n`, padded with zeros on the left to `width` characters. -/
def padDigits (width n : Nat) : String :=
  ⟨List.replicate (width - (toString n).length) '0'⟩ ++ toString n

/-- Fixed point printing for the sample host: the magnitude is rounded half up to `digits`
decimals. -/
def sampleToFixed (n : JSNum) (digits : Nat) : String :=
  match n with
  | .nan => "NaN"
  | .posInf => "Infinity"
  | .negInf => "-Infinity"
  | .negZero => if digits = 0 then "0" else "0." ++ padDigits digits 0
  | .fin q =>
      let scaled := (2 * q.num.natAbs * 10 ^ digits + q.den) / (2 * q.den)
      (if decide (q < 0) then "-" else "") ++ toString (scaled / 10 ^ digits) ++
        (if digits = 0 then "" else "." ++ padDigits digits (scaled % 10 ^ digits))

/-- Sample arithmetic: exact products, which is what IEEE rounding gives whenever the
exact product is a double, as for the small integers used here. -/
def sampleArith : NumHost :=
  { round := fun q => .fin q, toFixed := sampleToFixed }

/-! ## ProductCard.jsx -/

/-- Object spread into an object under construction: for every own enumerable key of the
source, in the order of the source, the property is defined on the target with the value
that a read of the source gives.  A key that the target already has keeps its position,
keys new to the target are appended. -/
def mergeFields (base extra : List (String × JSValue)) : List (String × JSValue) :=
  extra.foldl
    (fun acc entry =>
      JSValue.setField acc entry.1 ((JSValue.lookupField extra entry.1).getD .undefined))
    base

/-- The object `safeProduct` of `ProductCard`: the five defaults, then `...product`.  The
parameter default `product = {}` replaces `undefined` only. -/
def safeProduct (product : JSValue) : JSValue :=
  let prop := match product with
    | .undefined => JSValue.obj []
    | other => other
  .obj (mergeFields
    [("images", .arr []), ("productName", .str "Untitled Product"), ("price", .num (.fin 0)),
      ("quantity", .num (.fin 0)), ("productId", .str "")]
    prop.ownEnumerable)

/-- The method call `v.toFixed(2)`: only numbers have the method. -/
def callToFixed2 (arith : NumHost) : JSValue → Except JSError String
  | .num n => .ok (arith.toFixed n 2)
  | _ => .error .typeError

/-- The price text of `ProductCard`: the rupee sign and `safeProduct.price.toFixed(2)`. -/
def productPriceText (arith : NumHost) (product : JSValue) : Except JSError String :=
  (callToFixed2 arith ((safeProduct product).getOwn "price")).map (fun text => "₹" ++ text)

/-- The link target of `ProductCard`: the template literal with `safeProduct.productId`. -/
def productLink (host : Host) (product : JSValue) : Except JSError String :=
  (((safeProduct product).getOwn "productId").toStr host).map (fun id => "/product/" ++ id)

/-- A product whose price is explicitly `null`. -/
def nullPriceProduct : JSValue :=
  .obj [("productId", .str "p-17"), ("productName", .str "Desk lamp"), ("price", .null),
    ("quantity", .num (.fin 3))]

/-! ## OrderPage.jsx -/

/-- Result of awaiting a backend call whose rejection value is read by the caller. -/
inductive CallOutcome where
  | resolved (result : JSValue)
  | rejected (error : JSValue)

/-- Equality of numbers as `===` sees it: `NaN` differs from everything, the two zeros are
equal. -/
def JSNum.strictEq (a b : JSNum) : Bool :=
  if a.isNaN || b.isNaN then false
  else if a.isZero && b.isZero then true
  else decide (a = b)

/-- The operator `===`.  Primitives are compared by value.  Objects and arrays are
compared by identity, which this value model does not track: two such operands compare
unequal here; the operands in the pages are identifiers, which are primitives. -/
def JSValue.strictEq : JSValue → JSValue → Bool
  | .undefined, .undefined => true
  | .null, .null => true
  | .bool a, .bool b => a == b
  | .num a, .num b => a.strictEq b
  | .str a, .str b => decide (a = b)
  | _, _ => false

/-- The call `list.find(test)`: the first entry that passes, `undefined` when none does;
raises when the test raises on an entry before that. -/
def findFirst (test : JSValue → Except JSError Bool) : List JSValue → Except JSError JSValue
  | [] => .ok .undefined
  | x :: rest =>
      match test x with
      | .error e => .error e
      | .ok true => .ok x
      | .ok false => findFirst test rest

/-- The expression `v?.k`: `undefined` on `undefined` and `null`. -/
def JSValue.getOptional (v : JSValue) (k : String) : JSValue :=
  if v.isNullish then .undefined else v.getOwn k

/-- Local state of `OrderPage` (the `useState` cells). -/
structure OrderPageState where
  loading : Bool
  error : JSValue
  selectedAddress : JSValue
  paymentMethod : String
  isAddressModalOpen : Bool
  editingAddress : JSValue
  message : JSValue
  isPlacingOrder : Bool

/-- State of `OrderPage` on mount. -/
def OrderPageState.initial : OrderPageState :=
  { loading := true, error := .null, selectedAddress := .null, paymentMethod := "Razorpay",
    isAddressModalOpen := false, editingAddress := .null, message := .null,
    isPlacingOrder := false }

/-- An inline message `{ type, text }`. -/
def inlineMessage (type : String) (text : JSValue) : JSValue :=
  .obj [("type", .str type), ("text", text)]

/-- The mount effect of `OrderPage` for the context values `user`, `cartItems` and
`addresses`.  Without a user it navigates to the login page and returns before
`setLoading(false)`. -/
def orderPageEffect (user cartItems addresses : JSValue) (s : OrderPageState) :
    Except JSError (OrderPageState × List Effect) :=
  if !user.truthy then .ok (s, [.navigate "/login"])
  else do
    let length ← cartItems.getProp "length"
    if length.strictEq (.num (.fin 0)) then
      pure ({ s with error := .str "Your cart is empty", loading := false },
        [.navigate "/cart"])
    else
      let list ← asArray addresses
      let defaultAddress ←
        findFirst (fun addr => (addr.getProp "is_default").map JSValue.truthy) list
      pure ({ s with
          selectedAddress := (defaultAddress.orElse (addresses.getOwn "0")).orElse .null,
          loading := false }, [])

/-- The handler `handleDeleteAddress`, given whether the `useContext` call inside the
handler yields `deleteAddress` (React raises on a hook call outside a render) and what the
call produced.  Whatever happens inside `try`, `finally` schedules the message to be
cleared after 3000 ms. -/
def handleDeleteAddress (hookYields : Bool) (addresses addressId : JSValue)
    (outcome : Outcome) (s : OrderPageState) : OrderPageState × List Effect :=
  let failed : OrderPageState :=
    { s with message := inlineMessage "error" (.str "Failed to delete address") }
  let call := Effect.backendCall "deleteAddress" addressId
  let timer := Effect.clearMessageAfter 3000
  if !hookYields then (failed, [timer])
  else
    match outcome with
    | .rejected => (failed, [call, timer])
    | .resolved result =>
        match result.getProp "success" with
        | .error _ => (failed, [call, timer])
        | .ok success =>
            if success.truthy then
              let s1 := { s with message := inlineMessage "success" (result.getOwn "message") }
              if (s.selectedAddress.getOptional "address_id").strictEq addressId then
                match (asArray addresses).bind
                    (findFirst (fun addr =>
                      (addr.getProp "address_id").map (fun id => !id.strictEq addressId))) with
                | .error _ => (failed, [call, timer])
                | .ok found => ({ s1 with selectedAddress := found.orElse .null }, [call, timer])
              else (s1, [call, timer])
            else
              ({ s with message := inlineMessage "error" (result.getOwn "message") },
                [call, timer])

/-- The operator `*` on values: both operands are coerced to numbers first. -/
def jsMultiply (host : Host) (arith : NumHost) (a b : JSValue) : Except JSError JSNum := do
  let x ← a.toNumber host
  let y ← b.toNumber host
  pure (JSNum.mul arith x y)

/-- The data entries of the `options` object that `handlePlaceOrder` passes to the payment
widget; `razorpayKey` is the build time constant `REACT_APP_RAZORPAY_KEY_ID`. -/
def paymentOptions (host : Host) (arith : NumHost) (razorpayKey user result : JSValue) :
    Except JSError JSValue := do
  let order ← result.getProp "order"
  let amount ← order.getProp "amount"
  let scaled ← jsMultiply host arith amount (.num (.fin 100))
  let firstName ← user.getProp "first_name"
  pure (.obj [
    ("key", razorpayKey),
    ("amount", .num scaled),
    ("currency", order.getOwn "currency"),
    ("name", .str "E-Shop"),
    ("description", .str "Order Payment"),
    ("order_id", order.getOwn "razorpay_order_id"),
    ("prefill", .obj [("name", firstName), ("email", user.getOwn "email"),
      ("contact", user.getOwn "phone")]),
    ("theme", .obj [("color", .str "#4F46E5")])])

/-- The handler `handlePlaceOrder`, given what `await createOrder(orderData)` produced and
whether the payment widget constructor is loaded.  Exceptions raised inside `try` reach
the `catch` block, whose text is `err.response?.data?.message` or a fixed one; `finally`
resets `isPlacingOrder`. -/
def handlePlaceOrder (host : Host) (arith : NumHost) (razorpayKey : JSValue)
    (widgetLoaded : Bool) (user : JSValue) (outcome : CallOutcome) (s : OrderPageState) :
    OrderPageState × List Effect :=
  if !s.selectedAddress.truthy then
    ({ s with message := inlineMessage "error" (.str "Please select or add an address") },
      [.clearMessageAfter 3000])
  else
    let s1 := { s with isPlacingOrder := true, message := .null }
    let orderData := JSValue.obj [("address_id", s.selectedAddress.getOwn "address_id"),
      ("payment_method", .str s.paymentMethod)]
    let call := Effect.backendCall "createOrder" orderData
    let settle (st : OrderPageState) (effects : List Effect) : OrderPageState × List Effect :=
      ({ st with isPlacingOrder := false }, call :: effects)
    let caught : OrderPageState :=
      { s1 with message :=
          inlineMessage "error" (.str "Failed to place order. Please try again.") }
    match outcome with
    | .rejected err =>
        if err.isNullish then settle s1 []
        else
          let text := (((err.getOwn "response").getOptional "data").getOptional "message").orElse
            (.str "Failed to place order. Please try again.")
          settle { s1 with message := inlineMessage "error" text } []
    | .resolved result =>
        match result.getProp "success" with
        | .error _ => settle caught []
        | .ok success =>
            if !success.truthy then
              let text := (result.getOwn "message").orElse (.str "Failed to place order")
              settle { s1 with message := inlineMessage "error" text } []
            else if s.paymentMethod = "COD" then
              let placed := inlineMessage "success" (.str "Order placed successfully!")
              settle { s1 with message := placed } [.navigateAfter "/orders" 2000]
            else
              match paymentOptions host arith razorpayKey user result with
              | .error _ => settle caught []
              | .ok options =>
                  if widgetLoaded then settle s1 [.openPaymentWidget options]
                  else settle caught []

/-- The argument of `verifyPayment` built by the widget callback. -/
def verifyArgument (result response : JSValue) : Except JSError JSValue := do
  let order ← result.getProp "order"
  let orderId ← order.getProp "order_id"
  let razorpayOrderId ← response.getProp "razorpay_order_id"
  pure (.obj [("order_id", orderId), ("razorpay_order_id", razorpayOrderId),
    ("razorpay_payment_id", response.getOwn "razorpay_payment_id"),
    ("razorpay_signature", response.getOwn "razorpay_signature")])

/-- The callback `handler` of the payment options, given the widget response and what
`await verifyPayment(...)` produced. -/
def paymentHandler (result response : JSValue) (outcome : Outcome) (s : OrderPageState) :
    OrderPageState × List Effect :=
  let failed : OrderPageState :=
    { s with message := inlineMessage "error" (.str "Failed to verify payment") }
  match verifyArgument result response with
  | .error _ => (failed, [])
  | .ok argument =>
      let call := Effect.backendCall "verifyPayment" argument
      match outcome with
      | .rejected => (failed, [call])
      | .resolved verifyResult =>
          match verifyResult.getProp "success" with
          | .error _ => (failed, [call])
          | .ok success =>
              if success.truthy then
                ({ s with message :=
                    inlineMessage "success" (.str "Payment successful! Order placed.") },
                  [call, .navigateAfter "/orders" 2000])
              else
                ({ s with message := inlineMessage "error" (verifyResult.getOwn "message") },
                  [call])

/-- The handler `handleCancelOrder` of the detail page together with the effects it
requests: the confirmation dialog and, once confirmed, the `cancelOrder` call. -/
def handleCancelOrderRun (orderId : String) (confirmed : Bool) (outcome : Outcome)
    (s : DetailsPageState) : DetailsPageState × List Effect :=
  (handleCancelOrder confirmed outcome s,
    .confirm "Are you sure you want to cancel this order?" ::
      (if confirmed then [.backendCall "cancelOrder" (.str orderId)] else []))

/-- The value is an object (a record as the backend sends it). -/
def IsRecord (v : JSValue) : Prop :=
  ∃ fields, v = .obj fields

/-- Default address in the words of the specification: the first address with `is_default`
set if one exists, otherwise the first address of the list, otherwise `null`. -/
def defaultSelection (addresses : List JSValue) : JSValue :=
  match addresses.find? (fun addr => (addr.getOwn "is_default").truthy) with
  | some addr => addr
  | none =>
      match addresses with
      | first :: _ => first
      | [] => .null

/-- Three addresses, the second one marked as default. -/
def sampleAddresses : List JSValue :=
  [.obj [("address_id", .num (.fin 1)), ("is_default", .num (.fin 0))],
   .obj [("address_id", .num (.fin 2)), ("is_default", .num (.fin 1))],
   .obj [("address_id", .num (.fin 3)), ("is_default", .num (.fin 1))]]

/-- A signed-in user. -/
def sampleUser : JSValue :=
  .obj [("first_name", .str "Asha"), ("email", .str "asha@example.com"),
    ("phone", .str "9000000000")]

/-- A cart with one item. -/
def sampleCart : JSValue :=
  .arr [.obj [("cartId", .num (.fin 7)), ("price", .str "40"), ("quantity", .num (.fin 2))]]

/-- An order page with the second sample address selected. -/
def readyOrderPage : OrderPageState :=
  { OrderPageState.initial with
    loading := false,
    selectedAddress := .obj [("address_id", .num (.fin 2)), ("is_default", .num (.fin 1))] }

/-- The deletion of an address fails: the hook call or the backend call raises, the result
cannot be read, or it reports failure. -/
def deleteFails (hookYields : Bool) (outcome : Outcome) : Bool :=
  !hookYields ||
    (match outcome with
      | .rejected => true
      | .resolved result => result.isNullish || !(result.getOwn "success").truthy)

/-! ## A host whose clock stands still -/

/-- The sample host with a clock that returns the same instant at every read. -/
def frozenHost : Host :=
  { sampleHost with clock := fun _ => "2024-01-01T00:00:00.000Z" }

/-- What the item callback makes of `sampleItems`. -/
def sampleItemsNormalized : List JSValue :=
  [.obj [("productName", .str "Desk lamp"), ("price", .num (.fin 40)),
      ("quantity", .num (.fin 2)), ("sku", .str "DL-1"),
      ("description", .str "No description available"), ("images", .arr [])],
   .obj [("price", .num (.fin 0)), ("quantity", .num (.fin 1)),
      ("productName", .str "Unnamed Product"),
      ("description", .str "No description available"), ("images", .arr [])]]

/-- What the tracking callback makes of `sampleTracking` under the frozen clock. -/
def sampleTrackingNormalized : List JSValue :=
  [.obj [("status", .str "Shipped"), ("update_time", .str "2024-02-01T10:00:00.000Z"),
      ("notes", .str "Left the warehouse"), ("courier", .str "BlueDart")],
   .obj [("status", .str "Delivered"), ("update_time", .str "2024-01-01T00:00:00.000Z"),
      ("notes", .str "Status update")]]


/-! ## Line items with extreme quantities -/

/-- A raw line item with price 0 whose quantity is the double `Infinity`, which is what
`JSON.parse` makes of the numeral `1e999`. -/
def infiniteQuantityItem : JSValue :=
  .obj [("productName", .str "Desk lamp"), ("price", .num (.fin 0)),
    ("quantity", .num .posInf)]

/-- A raw line item whose quantity is the empty string and whose price is not numeric. -/
def blankQuantityItem : JSValue :=
  .obj [("productName", .str "Desk lamp"), ("price", .str "n/a"), ("quantity", .str "")]


/-! ## OrderDetailsPage.jsx: the cancel button -/

/-- The value is a string. -/
def JSValue.isStr : JSValue → Bool
  | .str _ => true
  | _ => false

/-- The value is a number. -/
def JSValue.isNum : JSValue → Bool
  | .num _ => true
  | _ => false

/-- A line item of the documented types: name and description are strings, price and
quantity are numbers, `images` is an array of strings. -/
def typedLineItem (item : JSValue) : Bool :=
  match item with
  | .obj _ =>
      (item.getOwn "productName").isStr && (item.getOwn "description").isStr &&
        (item.getOwn "price").isNum && (item.getOwn "quantity").isNum &&
        (match item.getOwn "images" with
          | .arr urls => urls.all JSValue.isStr
          | _ => false)
  | _ => false

/-- A tracking event of the documented types: status, time and notes are strings. -/
def typedTrack (track : JSValue) : Bool :=
  match track with
  | .obj _ =>
      (track.getOwn "status").isStr && (track.getOwn "update_time").isStr &&
        (track.getOwn "notes").isStr
  | _ => false

/-- An address of the documented types: the six fields are strings. -/
def typedAddress (address : JSValue) : Bool :=
  match address with
  | .obj _ =>
      (address.getOwn "line").isStr && (address.getOwn "city").isStr &&
        (address.getOwn "state").isStr && (address.getOwn "country").isStr &&
        (address.getOwn "zip_code").isStr && (address.getOwn "phone").isStr
  | _ => false

/-- An order detail of the documented types, which is what the order markup of
`OrderDetailsPage` expects: identifier, status, time and payment method are strings (the
markup calls `substring` and `toLowerCase` on them and formats the time), the total is a
number, `items` and `tracking` are arrays of typed entries, the address is typed. -/
def typedOrderDetail (order : JSValue) : Bool :=
  match order with
  | .obj _ =>
      (order.getOwn "order_id").isStr && (order.getOwn "order_status").isStr &&
        (order.getOwn "created_at").isStr && (order.getOwn "total_amount").isNum &&
        (order.getOwn "payment_method").isStr &&
        (match order.getOwn "items" with
          | .arr items => items.all typedLineItem
          | _ => false) &&
        (match order.getOwn "tracking" with
          | .arr tracking => tracking.all typedTrack
          | _ => false) &&
        typedAddress (order.getOwn "address")
  | _ => false

/-- The message cell is `null` or a message with a string type and a string text. -/
def typedMessage (message : JSValue) : Bool :=
  match message with
  | .null => true
  | .obj _ => (message.getOwn "type").isStr && (message.getOwn "text").isStr
  | _ => false

/-- The guard of the cancel button in the order markup:
`['Pending', 'Confirmed'].includes(order.order_status)`. -/
def cancelGuard (order : JSValue) : Bool :=
  ["Pending", "Confirmed"].any (fun label => (order.getOwn "order_status").strictEqStr label)

/-- Whether the page shows the cancel button.  `some false`: it does not, because the
render returns the spinner, the error view or the not-found view, or because the guard of
the button is false (then no button is part of the markup, whether or not the rest of the
markup evaluates).  `some true`: the render reaches the order markup, the guard holds, and
order and message are of the documented types, on which every expression of the markup
evaluates.  `none`: the guard holds on an order or message outside those types, where an
expression of the markup can raise (`order.order_id.substring` on a number, for one) and
then nothing is shown; those states are left undecided. -/
def cancelOffered (s : DetailsPageState) : Option Bool :=
  if s.loading || s.error.truthy || !s.order.truthy then some false
  else if !cancelGuard s.order then some false
  else if typedOrderDetail s.order && typedMessage s.message then some true
  else none

/-- The expression `orderData.order_status` of the fetch, where `orderData` is
`result.order.order || \x7b\x7d`. -/
def fetchedStatus (result : JSValue) : JSValue :=
  (((result.getOwn "order").getOwn "order").orElse (.obj [])).getOwn "order_status"

/-- What can happen on the detail page once it is mounted: a tab is chosen, the cancel
handler runs, the message is closed, the share handler falls back to the clipboard, the
fetch effect runs again. -/
inductive DetailsEvent where
  | tabChosen (tab : String)
  | cancelPressed (confirmed : Bool) (outcome : Outcome)
  | messageClosed
  | linkCopied
  | refetched (fetch : DetailsFetch)

/-- The state update of one event. -/
def DetailsPageState.step (host : Host) (s : DetailsPageState) :
    DetailsEvent → DetailsPageState
  | .tabChosen tab => (s.handleTab tab).1
  | .cancelPressed confirmed outcome => handleCancelOrder confirmed outcome s
  | .messageClosed => { s with message := .null }
  | .linkCopied =>
      { s with message := .obj [("type", .str "success"),
          ("text", .str "Order link copied to clipboard!")] }
  | .refetched f => fetchOrderDetails host f.orderId f.clockReads f.outcome s

/-- State after the given events, in order. -/
def DetailsPageState.run (host : Host) (s : DetailsPageState) (events : List DetailsEvent) :
    DetailsPageState :=
  events.foldl (DetailsPageState.step host) s

/-- The backend does not contradict the cancellation: a fetch that runs again either fails
or returns the order with status `Cancelled`.  Other events do not consult the backend on
the status. -/
def DetailsEvent.reportsCancelled (host : Host) : DetailsEvent → Bool
  | .refetched f =>
      detailsFetchFails host f.orderId f.clockReads f.outcome ||
        (match f.outcome with
          | .resolved result => (fetchedStatus result).strictEqStr "Cancelled"
          | .rejected => true)
  | _ => true

/-- A `getOrderDetails` result for an order that the backend holds as cancelled. -/
def cancelledResult : JSValue :=
  .obj [("success", .bool true),
    ("order", .obj [("order", .obj [("order_id", .str "ORD-A1"),
      ("order_status", .str "Cancelled")])])]

/-- A `getOrderDetails` result for a pending order. -/
def pendingResult : JSValue :=
  .obj [("success", .bool true),
    ("order", .obj [("order", .obj [("order_id", .str "ORD-A1"),
      ("order_status", .str "Pending"), ("total_amount", .num (.fin 80))])])]

/-- A `getOrderDetails` result for another order, which is confirmed. -/
def confirmedResult : JSValue :=
  .obj [("success", .bool true),
    ("order", .obj [("order", .obj [("order_id", .str "ORD-B2"),
      ("order_status", .str "Confirmed"), ("total_amount", .num (.fin 25))])])]

/-- The detail page after its first fetch, showing the pending order `ORD-A1`. -/
def pendingPage : DetailsPageState :=
  fetchOrderDetails sampleHost "ORD-A1" 0 (.resolved pendingResult) DetailsPageState.initial

/-- The route changes to the order `ORD-B2` and the fetch effect runs again. -/
def routeChanged : List DetailsEvent :=
  [.refetched { orderId := "ORD-B2", clockReads := 1, outcome := .resolved confirmedResult }]

/-- Events after a cancellation: a tab change, a second run of the cancel handler, closing
the message, and a fetch that runs again. -/
def eventsAfterCancel : List DetailsEvent :=
  [.tabChosen "invoice",
   .cancelPressed true (.resolved (.obj [("success", .bool false)])),
   .messageClosed,
   .refetched { orderId := "ORD-A1", clockReads := 0, outcome := .resolved cancelledResult },
   .linkCopied]


/-! ## OrderPage.jsx: what a run of `handlePlaceOrder` requests -/

/-- The effect opens the payment widget. -/
def Effect.opensWidget : Effect → Bool
  | .openPaymentWidget _ => true
  | _ => false

/-- The effect is a call of the backend function `name`. -/
def Effect.isCallOf (name : String) : Effect → Bool
  | .backendCall called _ => decide (called = name)
  | _ => false

/-- The argument `orderData` of `createOrder`. -/
def orderDataOf (s : OrderPageState) : JSValue :=
  .obj [("address_id", s.selectedAddress.getOwn "address_id"),
    ("payment_method", .str s.paymentMethod)]

/-- A `createOrder` result for an order of 499 rupees. -/
def createdResult : JSValue :=
  .obj [("success", .bool true),
    ("order", .obj [("order_id", .str "ORD-N1"), ("amount", .num (.fin 499)),
      ("currency", .str "INR"), ("razorpay_order_id", .str "order_R1")])]

/-- What the payment widget passes to its callback. -/
def widgetResponse : JSValue :=
  .obj [("razorpay_order_id", .str "order_R1"), ("razorpay_payment_id", .str "pay_P1"),
    ("razorpay_signature", .str "sig")]


/-! ## OrdersPage.jsx: the status chips -/

/-- The expression `orders.filter(o => o.order_status === status).length` of a status
chip: the read `o.order_status` raises on a `null` or `undefined` entry. -/
def statusCount (orders : List JSValue) (status : String) : Except JSError Nat :=
  match orders with
  | [] => pure 0
  | order :: rest => do
      let orderStatus ← order.getProp "order_status"
      let others ← statusCount rest status
      pure (if orderStatus.strictEqStr status then others + 1 else others)

/-- The array `statusFilters` of `OrdersPage`, reduced to the `value` and `count` of each
chip, in the order of the source. -/
def statusFilters (orders : List JSValue) : Except JSError (List (String × Nat)) := do
  let pending ← statusCount orders "Pending"
  let shipped ← statusCount orders "Shipped"
  let delivered ← statusCount orders "Delivered"
  let cancelled ← statusCount orders "Cancelled"
  pure [("all", orders.length), ("Pending", pending), ("Shipped", shipped),
    ("Delivered", delivered), ("Cancelled", cancelled)]


/-! ## OrderPage.jsx: the cart total -/

/-- Host functions that only the cart total uses.  `parseFloat text` is the global
function applied to a string; `roundSum r` is the double that `+` returns for two finite
non-zero doubles whose exact sum `r` is not zero. -/
structure CartHost where
  parseFloat : String → JSNum
  roundSum : ℚ → JSNum

/-- The operator `+` on numbers: `NaN` is absorbing, opposite infinities give `NaN`, a
zero leaves the other operand as it is, two zeros give `-0` only when both are `-0`, an
exact sum of zero gives `+0`, and any other sum is rounded by the host. -/
def JSNum.add (cart : CartHost) (a b : JSNum) : JSNum :=
  if a.isNaN || b.isNaN then .nan
  else if a.isInfinite && b.isInfinite then
    (if a.isNegative != b.isNegative then .nan else a)
  else if a.isInfinite then a
  else if b.isInfinite then b
  else if a.isZero && b.isZero then
    (if a.isNegative && b.isNegative then .negZero else .fin 0)
  else if a.isZero then b
  else if b.isZero then a
  else
    match a, b with
    | .fin x, .fin y => if x + y = 0 then .fin 0 else cart.roundSum (x + y)
    | _, _ => .nan

/-- The call `parseFloat(v)`: the argument is converted to a string first. -/
def callParseFloat (host : Host) (cart : CartHost) (v : JSValue) : Except JSError JSNum := do
  let text ← v.toStr host
  pure (cart.parseFloat text)

/-- The value of the expression `parseFloat(item.price) * item.quantity`, which the row
of a cart item in `OrderPage` prints as its line total. -/
def cartLineValue (host : Host) (arith : NumHost) (cart : CartHost) (item : JSValue) :
    Except JSError JSNum := do
  let price ← item.getProp "price"
  let parsed ← callParseFloat host cart price
  let quantity ← (item.getOwn "quantity").toNumber host
  pure (JSNum.mul arith parsed quantity)

/-- The values of `parseFloat(item.price) * item.quantity` for the items of the cart,
front to back. -/
def cartLineValues (host : Host) (arith : NumHost) (cart : CartHost) :
    List JSValue → Except JSError (List JSNum)
  | [] => pure []
  | item :: rest => do
      let value ← cartLineValue host arith cart item
      let others ← cartLineValues host arith cart rest
      pure (value :: others)

/-- The callback of `cartItems.reduce` in `calculateTotal`:
`total + (parseFloat(item.price) || 0) * item.quantity`. -/
def totalStep (host : Host) (arith : NumHost) (cart : CartHost) (total : JSNum)
    (item : JSValue) : Except JSError JSNum := do
  let price ← item.getProp "price"
  let parsed ← callParseFloat host cart price
  let factor := if parsed.isFalsy then JSNum.fin 0 else parsed
  let quantity ← (item.getOwn "quantity").toNumber host
  pure (JSNum.add cart total (JSNum.mul arith factor quantity))

/-- The call `list.reduce(callback, total)`: front to back, raising as soon as the
callback raises. -/
def reduceTotal (host : Host) (arith : NumHost) (cart : CartHost) :
    JSNum → List JSValue → Except JSError JSNum
  | total, [] => pure total
  | total, item :: rest => do
      let next ← totalStep host arith cart total item
      reduceTotal host arith cart next rest

/-- The function `calculateTotal` of `OrderPage`: the reduce from 0 over `cartItems`, then
`toFixed(2)`.  The method call `cartItems.reduce` raises unless `cartItems` is an array. -/
def calculateTotal (host : Host) (arith : NumHost) (cart : CartHost) (cartItems : JSValue) :
    Except JSError String := do
  let items ← asArray cartItems
  let total ← reduceTotal host arith cart (.fin 0) items
  pure (arith.toFixed total 2)

/-- The sum over the items of their line totals, in the words of the specification: the
line totals added up in cart order, starting from 0. -/
def sumOfLineTotals (cart : CartHost) (values : List JSNum) : JSNum :=
  values.foldl (JSNum.add cart) (.fin 0)

/-- The price of the item parses to a number: `parseFloat(item.price)` returns a value
that is not `NaN`. -/
def priceParses (host : Host) (cart : CartHost) (item : JSValue) : Bool :=
  match item.getProp "price" with
  | .error _ => false
  | .ok price =>
      match callParseFloat host cart price with
      | .ok parsed => !parsed.isNaN
      | .error _ => false

/-- The price of the item does not parse: `parseFloat(item.price)` returns `NaN`. -/
def priceUnparsed (host : Host) (cart : CartHost) (item : JSValue) : Bool :=
  match item.getProp "price" with
  | .error _ => false
  | .ok price =>
      match callParseFloat host cart price with
      | .ok parsed => parsed.isNaN
      | .error _ => false

/-- The quantity of the item is a finite number: its numeric value is neither `NaN` nor an
infinity. -/
def quantityFinite (host : Host) (item : JSValue) : Bool :=
  match (item.getOwn "quantity").toNumber host with
  | .ok q => !q.isNaN && !q.isInfinite
  | .error _ => false

/-- Sample `parseFloat`: the number written by the leading decimal digits, `NaN` when the
string does not start with a digit.  It agrees with ECMAScript on strings without sign,
decimal point, exponent or leading white space. -/
def sampleParseFloat (text : String) : JSNum :=
  if (text.data.takeWhile Char.isDigit).isEmpty then .nan
  else .fin (((text.data.takeWhile Char.isDigit).foldl
    (fun n c => 10 * n + (c.toNat - 48)) 0 : Nat) : ℚ)

/-- Sample host for the cart total: exact sums. -/
def sampleCartHost : CartHost :=
  { parseFloat := sampleParseFloat, roundSum := fun r => .fin r }

/-- A cart with two priced items. -/
def pricedCart : List JSValue :=
  [.obj [("cartId", .num (.fin 7)), ("price", .str "40"), ("quantity", .num (.fin 2))],
   .obj [("cartId", .num (.fin 8)), ("price", .num (.fin 5)), ("quantity", .num (.fin 1))]]

/-- A cart item whose price does not parse. -/
def unpricedItem : JSValue :=
  .obj [("cartId", .num (.fin 9)), ("price", .str "n/a"), ("quantity", .num (.fin 3))]

/-- A cart item whose price does not parse and which has no quantity. -/
def unquantifiedItem : JSValue :=
  .obj [("cartId", .num (.fin 10)), ("price", .str "n/a")]


/-! ## Theorems: the order list filter -/

theorem includes_iff (s t : String) : includes s t = true ↔ t.data <:+: s.data := by
  unfold includes
  rw [List.any_eq_true]
  constructor
  · rintro ⟨suf, hsuf, hpre⟩
    rw [List.mem_tails] at hsuf
    rw [ List.isPrefixOf_iff_prefix] at hpre
    exact List.infix_iff_prefix_suffix.mpr ⟨suf, hpre, hsuf⟩
  · intro h
    obtain ⟨suf, hpre, hsuf⟩ := List.infix_iff_prefix_suffix.mp h
    exact ⟨suf, (List.mem_tails _ _).mpr hsuf, List.isPrefixOf_iff_prefix.mpr hpre⟩

theorem includes_eq_decide (s t : String) : includes s t = decide (t.data <:+: s.data) := by
  by_cases h : t.data <:+: s.data
  · simp [h, (includes_iff s t).mpr h]
  · have : includes s t = false := by
      cases hb : includes s t
      · rfl
      · exact absurd ((includes_iff s t).mp hb) h
    simp [h, this]

theorem strictEqStr_eq_decide (v : JSValue) (s : String) :
    v.strictEqStr s = decide (v = .str s) := by
  cases v <;> simp [JSValue.strictEqStr]

theorem getOwn_str_not_nullish {v : JSValue} {k s : String} (h : v.getOwn k = .str s) :
    v.isNullish = false := by
  cases v <;>
    simp_all [JSValue.getOwn, JSValue.isNullish, JSValue.ownEnumerable, JSValue.lookupField]

theorem orderMatches_summary (host : Host) (term status : String) (order : JSValue)
    (h : IsOrderSummary order) :
    orderMatches host term status order =
      .ok (decide (SelectedBySpec host term status order)) := by
  obtain ⟨id, line, hid, hline⟩ := h
  have hn := getOwn_str_not_nullish hid
  simp only [orderMatches, JSValue.getProp, hn, hid, hline, JSValue.callToLowerCase,
    bind, Except.bind, pure, Except.pure, strictEqStr_eq_decide, includes_eq_decide]
  by_cases h1 : (host.toLowerCase term).data <:+: (host.toLowerCase id).data
  · simp [h1, SelectedBySpec, textOf, hid, hline]
  · simp [h1, SelectedBySpec, textOf, hid, hline]

theorem filteredOrders_of_ok (host : Host) (term status : String) :
    ∀ (orders : List JSValue),
      (∀ o ∈ orders, ∃ b, orderMatches host term status o = .ok b) →
      filteredOrders host orders term status = .ok (orders.filter (keeps host term status)) := by
  intro orders
  induction orders with
  | nil => intro _; rfl
  | cons o rest ih =>
      intro h
      obtain ⟨b, hb⟩ := h o (List.mem_cons_self _ _)
      have hrest := ih (fun x hx => h x (List.mem_cons_of_mem _ hx))
      cases b <;>
        simp [filteredOrders, hb, hrest, keeps, bind, Except.bind, pure, Except.pure,
          List.filter_cons]

theorem filteredOrders_inv (host : Host) (term status : String) :
    ∀ (orders out : List JSValue),
      filteredOrders host orders term status = .ok out →
      (∀ o ∈ orders, ∃ b, orderMatches host term status o = .ok b) ∧
        out = orders.filter (keeps host term status) := by
  intro orders
  induction orders with
  | nil =>
      intro out h
      simp [filteredOrders, pure, Except.pure] at h
      simp [h]
  | cons o rest ih =>
      intro out h
      simp only [filteredOrders, bind, Except.bind, pure, Except.pure] at h
      cases hb : orderMatches host term status o with
      | error e => simp [hb] at h
      | ok b =>
          cases hr : filteredOrders host rest term status with
          | error e => simp [hb, hr] at h
          | ok kept =>
              obtain ⟨hall, hkept⟩ := ih kept hr
              simp only [hb, hr, Except.ok.injEq] at h
              refine ⟨?_, ?_⟩
              · intro x hx
                rcases List.mem_cons.mp hx with rfl | hx
                · exact ⟨b, hb⟩
                · exact hall x hx
              · cases b <;> simp [← h, hkept, keeps, hb, List.filter_cons]

theorem keeps_summary (host : Host) (term status : String) (order : JSValue)
    (h : IsOrderSummary order) :
    keeps host term status order = decide (SelectedBySpec host term status order) := by
  unfold keeps
  rw [orderMatches_summary host term status order h]
  by_cases hs : SelectedBySpec host term status order <;> simp [hs]

theorem filteredOrders_summaries (host : Host) (orders : List JSValue) (term status : String)
    (h : ∀ o ∈ orders, IsOrderSummary o) :
    filteredOrders host orders term status =
      .ok (orders.filter (fun o => decide (SelectedBySpec host term status o))) := by
  rw [filteredOrders_of_ok host term status orders
    (fun o ho => ⟨_, orderMatches_summary host term status o (h o ho)⟩)]
  congr 1
  apply List.filter_congr
  intro o ho
  exact keeps_summary host term status o (h o ho)

theorem filteredOrders_refilter (host : Host) (orders out : List JSValue) (term status : String)
    (h : filteredOrders host orders term status = .ok out) :
    filteredOrders host out term status = .ok out := by
  obtain ⟨hall, hout⟩ := filteredOrders_inv host term status orders out h
  have hk : ∀ o ∈ out, keeps host term status o = true := by
    intro o ho
    rw [hout] at ho
    exact (List.mem_filter.mp ho).2
  have hok : ∀ o ∈ out, ∃ b, orderMatches host term status o = .ok b := by
    intro o ho
    rw [hout] at ho
    exact hall o (List.mem_filter.mp ho).1
  rw [filteredOrders_of_ok host term status out hok]
  congr 1
  exact List.filter_eq_self.mpr hk

theorem sampleOrders_summaries : ∀ o ∈ sampleOrders, IsOrderSummary o := by
  intro o ho
  simp only [sampleOrders, List.mem_cons, List.mem_singleton, List.not_mem_nil, or_false] at ho
  rcases ho with rfl | rfl | rfl <;> exact ⟨_, _, rfl, rfl⟩

/-- C1: on every list of order summaries, for every term and status selector, the list
filter returns exactly the orders that the rule of the specification selects (lower cased
identifier or lower cased address line contains the lower cased term, and the selector is
`all` or equals the status), in the order of the input. -/
theorem filteredOrders_selects_spec (host : Host) (orders : List JSValue)
    (term status : String) (h : ∀ o ∈ orders, IsOrderSummary o) :
    filteredOrders host orders term status =
      .ok (orders.filter (fun o => decide (SelectedBySpec host term status o))) :=
  filteredOrders_summaries host orders term status h

theorem filteredOrders_selects_spec_witness :
    (∀ o ∈ sampleOrders, IsOrderSummary o) ∧
      filteredOrders sampleHost sampleOrders "hill" "Pending" =
        .ok (sampleOrders.filter
          (fun o => decide (SelectedBySpec sampleHost "hill" "Pending" o))) ∧
      filteredOrders sampleHost sampleOrders "hill" "Pending" =
        .ok [.obj [("order_id", .str "ORD-A1"), ("address_line", .str "12 Hill Road"),
            ("order_status", .str "Pending")],
          .obj [("order_id", .str "ORD-C3"), ("address_line", .str "3 Hill Top"),
            ("order_status", .str "Pending")]] :=
  ⟨sampleOrders_summaries,
    filteredOrders_selects_spec sampleHost sampleOrders "hill" "Pending" sampleOrders_summaries,
    rfl⟩

/-- C4: with the empty term and the selector `all`, the list filter returns every list of
order summaries unchanged, same orders in the same order.  The host fact used is that the
empty string is its own lower case. -/
theorem filteredOrders_empty_all (host : Host) (orders : List JSValue)
    (hlower : host.toLowerCase "" = "") (h : ∀ o ∈ orders, IsOrderSummary o) :
    filteredOrders host orders "" "all" = .ok orders := by
  rw [filteredOrders_summaries host orders "" "all" h]
  congr 1
  apply List.filter_eq_self.mpr
  intro o _
  simp [SelectedBySpec, hlower]

theorem filteredOrders_empty_all_witness :
    sampleHost.toLowerCase "" = "" ∧ (∀ o ∈ sampleOrders, IsOrderSummary o) ∧
      filteredOrders sampleHost sampleOrders "" "all" = .ok sampleOrders :=
  ⟨rfl, sampleOrders_summaries,
    filteredOrders_empty_all sampleHost sampleOrders rfl sampleOrders_summaries⟩

/-- C5: the list filter is idempotent.  Whenever it returns a list, filtering that list
again with the same term and status returns it unchanged; and on order summaries it does
return a list. -/
theorem filteredOrders_idempotent (host : Host) (orders : List JSValue) (term status : String) :
    (∀ out, filteredOrders host orders term status = .ok out →
        filteredOrders host out term status = .ok out) ∧
      ((∀ o ∈ orders, IsOrderSummary o) →
        ∃ out, filteredOrders host orders term status = .ok out ∧
          filteredOrders host out term status = .ok out) := by
  refine ⟨fun out h => filteredOrders_refilter host orders out term status h, fun h => ?_⟩
  have hs := filteredOrders_summaries host orders term status h
  exact ⟨_, hs, filteredOrders_refilter host orders _ term status hs⟩

theorem filteredOrders_idempotent_witness :
    ∃ out, filteredOrders sampleHost sampleOrders "hill" "all" = .ok out ∧
      filteredOrders sampleHost out "hill" "all" = .ok out :=
  (filteredOrders_idempotent sampleHost sampleOrders "hill" "all").2 sampleOrders_summaries

/-- C6: the list filter preserves order and is a function of its inputs.  Every list it
returns is a sublist of the input (each kept order is an input order, relative order is
kept, nothing is duplicated or altered); on order summaries it does return a list; and two
evaluations on the same inputs give the same result. -/
theorem filteredOrders_sublist (host : Host) (orders : List JSValue) (term status : String) :
    (∀ out, filteredOrders host orders term status = .ok out → out.Sublist orders) ∧
      ((∀ o ∈ orders, IsOrderSummary o) →
        ∃ out, filteredOrders host orders term status = .ok out ∧ out.Sublist orders) ∧
      (∀ r₁ r₂, filteredOrders host orders term status = r₁ →
        filteredOrders host orders term status = r₂ → r₁ = r₂) := by
  refine ⟨fun out h => ?_, fun h => ?_, fun r₁ r₂ h₁ h₂ => h₁.symm.trans h₂⟩
  · rw [(filteredOrders_inv host term status orders out h).2]
    exact List.filter_sublist _
  · exact ⟨_, filteredOrders_summaries host orders term status h, List.filter_sublist _⟩

theorem filteredOrders_sublist_witness :
    ∃ out, filteredOrders sampleHost sampleOrders "hill" "all" = .ok out ∧
      out.Sublist sampleOrders :=
  (filteredOrders_sublist sampleHost sampleOrders "hill" "all").2.1 sampleOrders_summaries

/-! ## Theorems: conversions -/

theorem toStr_printable (host : Host) (v : JSValue) :
    v.printable = true → ∃ s, v.toStr host = .ok s := by
  apply @JSValue.rec
    (fun v => v.printable = true → ∃ s, v.toStr host = .ok s)
    (fun xs => printableItems xs = true → ∃ s, JSValue.joinItems host xs = .ok s)
    (fun _ => True)
    (fun _ => True)
  · intro _; exact ⟨_, rfl⟩
  · intro _; exact ⟨_, rfl⟩
  · intro b _; cases b <;> exact ⟨_, rfl⟩
  · intro n _; exact ⟨_, rfl⟩
  · intro s _; exact ⟨_, rfl⟩
  · intro items ih h
    simp only [JSValue.printable] at h
    simpa [JSValue.toStr] using ih h
  · intro fields _ h
    simp only [JSValue.printable, Bool.not_eq_true'] at h
    simp [JSValue.toStr, h]
  · intro _; exact ⟨_, rfl⟩
  · intro x rest ihx ihrest h
    simp only [printableItems, Bool.and_eq_true] at h
    obtain ⟨b, hb⟩ := ihrest h.2
    obtain ⟨a, ha⟩ := ihx h.1
    by_cases hn : x.isNullish = true
    · simp [JSValue.joinItems, hn, hb]
    · simp [JSValue.joinItems, hn, hb, ha]
  · trivial
  · intros; trivial
  · intros; trivial

theorem toNumber_printable (host : Host) (v : JSValue) (h : v.printable = true) :
    ∃ n, v.toNumber host = .ok n := by
  obtain ⟨s, hs⟩ := toStr_printable host v h
  cases v with
  | bool b => cases b <;> exact ⟨_, rfl⟩
  | arr items => exact ⟨host.stringToNumber s, by simp [JSValue.toNumber, hs, Except.map]⟩
  | obj fields => exact ⟨host.stringToNumber s, by simp [JSValue.toNumber, hs, Except.map]⟩
  | _ => exact ⟨_, rfl⟩

/-! ## Theorems: objects -/

theorem lookupField_setField_same (fields : List (String × JSValue)) (key : String)
    (v : JSValue) :
    JSValue.lookupField (JSValue.setField fields key v) key = some v := by
  induction fields with
  | nil => simp [JSValue.setField, JSValue.lookupField]
  | cons p rest ih =>
      obtain ⟨k, w⟩ := p
      by_cases hk : k = key
      · simp [JSValue.setField, JSValue.lookupField, hk]
      · simp [JSValue.setField, JSValue.lookupField, hk, ih]

theorem lookupField_setField_other (fields : List (String × JSValue)) (key other : String)
    (v : JSValue) (h : other ≠ key) :
    JSValue.lookupField (JSValue.setField fields key v) other =
      JSValue.lookupField fields other := by
  induction fields with
  | nil => simp [JSValue.setField, JSValue.lookupField, Ne.symm h]
  | cons p rest ih =>
      obtain ⟨k, w⟩ := p
      by_cases hk : k = key
      · subst hk
        simp [JSValue.setField, JSValue.lookupField, Ne.symm h]
      · by_cases hk2 : k = other
        · subst hk2
          simp [JSValue.setField, JSValue.lookupField, hk]
        · simp [JSValue.setField, JSValue.lookupField, hk, hk2, ih]

theorem getOwn_obj (fields : List (String × JSValue)) (key : String) :
    (JSValue.obj fields).getOwn key = (JSValue.lookupField fields key).getD .undefined := rfl

theorem truthy_not_nullish {v : JSValue} (h : v.truthy = true) : v.isNullish = false := by
  cases v <;> simp_all [JSValue.truthy, JSValue.isNullish]

theorem defaulted_orElse (raw dflt : JSValue) : Defaulted raw dflt (raw.orElse dflt) := by
  constructor <;> intro h <;> simp [JSValue.orElse, h]

theorem orElse_num (n : JSNum) (d : ℚ) :
    (JSValue.num n).orElse (.num (.fin d)) = .num (if n.isFalsy then .fin d else n) := by
  cases hn : n.isFalsy <;> simp [JSValue.orElse, JSValue.truthy, hn]

/-! ## Theorems: line items and tracking events -/

theorem normalizeItem_inv (host : Host) (raw out : JSValue)
    (h : normalizeItem host raw = .ok out) : ItemNormalized host raw out := by
  simp only [normalizeItem, JSValue.getProp, bind, Except.bind, pure, Except.pure] at h
  by_cases hn : raw.isNullish = true
  · simp [hn] at h
  · simp only [hn] at h
    cases hp : (raw.getOwn "price").toNumber host with
    | error e => simp [hp] at h
    | ok p =>
        cases hq : (raw.getOwn "quantity").toNumber host with
        | error e => simp [hp, hq] at h
        | ok q =>
            simp only [hp, hq, Bool.false_eq_true, if_false, Except.ok.injEq] at h
            subst h
            refine ⟨⟨p, hp, ?_⟩, ⟨q, hq, ?_⟩, ?_, ?_, ?_, ?_⟩
            · rw [getOwn_obj]
              simp [lookupField_setField_other, lookupField_setField_same, orElse_num]
            · rw [getOwn_obj]
              simp [lookupField_setField_other, lookupField_setField_same, orElse_num]
            · rw [getOwn_obj]
              simp only [lookupField_setField_other, lookupField_setField_same, ne_eq,
                String.reduceEq, not_false_eq_true, Option.getD_some]
              exact defaulted_orElse _ _
            · rw [getOwn_obj]
              simp only [lookupField_setField_other, lookupField_setField_same, ne_eq,
                String.reduceEq, not_false_eq_true, Option.getD_some]
              exact defaulted_orElse _ _
            · rw [getOwn_obj]
              simp only [lookupField_setField_other, lookupField_setField_same, ne_eq,
                String.reduceEq, not_false_eq_true, Option.getD_some]
              exact defaulted_orElse _ _
            · intro key hkey
              simp only [itemKeys, List.mem_cons, List.mem_singleton, List.not_mem_nil,
                or_false, not_or] at hkey
              obtain ⟨h1, h2, h3, h4, h5⟩ := hkey
              simp only [JSValue.ownEnumerable]
              rw [lookupField_setField_other _ _ _ _ h5, lookupField_setField_other _ _ _ _ h4,
                lookupField_setField_other _ _ _ _ h3, lookupField_setField_other _ _ _ _ h2,
                lookupField_setField_other _ _ _ _ h1]

theorem normalizeItem_ok (host : Host) (raw : JSValue) (h : itemOK raw = true) :
    ∃ out, normalizeItem host raw = .ok out := by
  simp only [itemOK, Bool.and_eq_true, Bool.not_eq_true'] at h
  obtain ⟨⟨hn, hp⟩, hq⟩ := h
  obtain ⟨p, hp⟩ := toNumber_printable host _ hp
  obtain ⟨q, hq⟩ := toNumber_printable host _ hq
  simp [normalizeItem, JSValue.getProp, hn, hp, hq, bind, Except.bind, pure, Except.pure]

theorem normalizeItems_inv (host : Host) :
    ∀ (raws outs : List JSValue), normalizeItems host raws = .ok outs →
      List.Forall₂ (ItemNormalized host) raws outs := by
  intro raws
  induction raws with
  | nil =>
      intro outs h
      simp only [normalizeItems, pure, Except.pure, Except.ok.injEq] at h
      subst h
      exact List.Forall₂.nil
  | cons raw rest ih =>
      intro outs h
      simp only [normalizeItems, bind, Except.bind, pure, Except.pure] at h
      cases h1 : normalizeItem host raw with
      | error e => simp [h1] at h
      | ok first =>
          cases h2 : normalizeItems host rest with
          | error e => simp [h1, h2] at h
          | ok others =>
              simp only [h1, h2, Except.ok.injEq] at h
              subst h
              exact List.Forall₂.cons (normalizeItem_inv host raw first h1) (ih others h2)

theorem normalizeItems_ok (host : Host) :
    ∀ (raws : List JSValue), (∀ x ∈ raws, itemOK x = true) →
      ∃ outs, normalizeItems host raws = .ok outs := by
  intro raws
  induction raws with
  | nil => intro _; exact ⟨[], rfl⟩
  | cons raw rest ih =>
      intro h
      obtain ⟨first, h1⟩ := normalizeItem_ok host raw (h raw (List.mem_cons_self _ _))
      obtain ⟨others, h2⟩ := ih (fun x hx => h x (List.mem_cons_of_mem _ hx))
      exact ⟨first :: others, by
        simp [normalizeItems, h1, h2, bind, Except.bind, pure, Except.pure]⟩

theorem orNow_mono (host : Host) (raw : JSValue) (k : Nat) : k ≤ (orNow host raw k).2 := by
  unfold orNow
  split <;> simp

theorem normalizeTrack_inv (host : Host) (k : Nat) (raw out : JSValue) (k1 : Nat)
    (h : normalizeTrack host k raw = .ok (out, k1)) :
    k ≤ k1 ∧ TrackNormalized host k k1 raw out := by
  simp only [normalizeTrack, JSValue.getProp, bind, Except.bind, pure, Except.pure] at h
  by_cases hn : raw.isNullish = true
  · simp [hn] at h
  · simp only [hn, Bool.false_eq_true, if_false, Except.ok.injEq, Prod.mk.injEq] at h
    obtain ⟨ho, hk⟩ := h
    subst ho
    refine ⟨hk ▸ orNow_mono host _ k, ?_, ?_, ?_, ?_, ?_⟩
    · rw [getOwn_obj]
      simp only [lookupField_setField_other, lookupField_setField_same, ne_eq,
        String.reduceEq, not_false_eq_true, Option.getD_some]
      exact defaulted_orElse _ _
    · intro ht
      rw [getOwn_obj]
      simp [lookupField_setField_other, lookupField_setField_same, orNow, ht]
    · intro ht
      refine ⟨k, le_refl k, ?_, ?_⟩
      · rw [← hk]
        simp [orNow, ht]
      · rw [getOwn_obj]
        simp [lookupField_setField_other, lookupField_setField_same, orNow, ht]
    · rw [getOwn_obj]
      simp only [lookupField_setField_other, lookupField_setField_same, ne_eq,
        String.reduceEq, not_false_eq_true, Option.getD_some]
      exact defaulted_orElse _ _
    · intro key hkey
      simp only [trackKeys, List.mem_cons, List.mem_singleton, List.not_mem_nil,
        or_false, not_or] at hkey
      obtain ⟨h1, h2, h3⟩ := hkey
      simp only [JSValue.ownEnumerable]
      rw [lookupField_setField_other _ _ _ _ h3, lookupField_setField_other _ _ _ _ h2,
        lookupField_setField_other _ _ _ _ h1]

theorem TrackNormalized.widen {host : Host} {lo hi lo2 hi2 : Nat} {raw out : JSValue}
    (h : TrackNormalized host lo hi raw out) (hlo : lo2 ≤ lo) (hhi : hi ≤ hi2) :
    TrackNormalized host lo2 hi2 raw out := by
  obtain ⟨h1, h2, h3, h4, h5⟩ := h
  refine ⟨h1, h2, fun ht => ?_, h4, h5⟩
  obtain ⟨j, hj1, hj2, hj3⟩ := h3 ht
  exact ⟨j, le_trans hlo hj1, lt_of_lt_of_le hj2 hhi, hj3⟩

theorem normalizeTracking_inv (host : Host) :
    ∀ (raws : List JSValue) (k : Nat) (outs : List JSValue) (k2 : Nat),
      normalizeTracking host k raws = .ok (outs, k2) →
      k ≤ k2 ∧ List.Forall₂ (TrackNormalized host k k2) raws outs := by
  intro raws
  induction raws with
  | nil =>
      intro k outs k2 h
      simp only [normalizeTracking, pure, Except.pure, Except.ok.injEq, Prod.mk.injEq] at h
      obtain ⟨h1, h2⟩ := h
      subst h1 h2
      exact ⟨le_refl _, List.Forall₂.nil⟩
  | cons raw rest ih =>
      intro k outs k2 h
      simp only [normalizeTracking, bind, Except.bind, pure, Except.pure] at h
      cases h1 : normalizeTrack host k raw with
      | error e => simp [h1] at h
      | ok first =>
          obtain ⟨out, k1⟩ := first
          cases h2 : normalizeTracking host k1 rest with
          | error e => simp [h1, h2] at h
          | ok others =>
              obtain ⟨outs2, k3⟩ := others
              simp only [h1, h2, Except.ok.injEq, Prod.mk.injEq] at h
              obtain ⟨ho, hk⟩ := h
              subst ho hk
              obtain ⟨hle1, hfirst⟩ := normalizeTrack_inv host k raw out k1 h1
              obtain ⟨hle2, hrest⟩ := ih k1 outs2 k3 h2
              refine ⟨le_trans hle1 hle2, List.Forall₂.cons (hfirst.widen (le_refl _) hle2) ?_⟩
              exact hrest.imp (fun _ _ hx => hx.widen hle1 (le_refl _))

theorem normalizeTracking_ok (host : Host) :
    ∀ (raws : List JSValue) (k : Nat), (∀ x ∈ raws, trackOK x = true) →
      ∃ r, normalizeTracking host k raws = .ok r := by
  intro raws
  induction raws with
  | nil => intro k _; exact ⟨([], k), rfl⟩
  | cons raw rest ih =>
      intro k h
      have hn : raw.isNullish = false := by
        simpa [trackOK] using h raw (List.mem_cons_self _ _)
      have h1 : ∃ first, normalizeTrack host k raw = .ok first := by
        simp [normalizeTrack, JSValue.getProp, hn, bind, Except.bind, pure, Except.pure]
      obtain ⟨first, h1⟩ := h1
      obtain ⟨others, h2⟩ := ih first.2 (fun x hx => h x (List.mem_cons_of_mem _ hx))
      exact ⟨(first.1 :: others.1, others.2), by
        simp [normalizeTracking, h1, h2, bind, Except.bind, pure, Except.pure]⟩

/-! ## Theorems: the order detail normalizer -/

theorem orElse_obj_getOwn (v : JSValue) (key : String) (hk : key ≠ "length") :
    (v.orElse (.obj [])).getOwn key = v.getOwn key := by
  cases ht : v.truthy
  · cases v with
    | str s =>
        have hs : s = "" := by simpa [JSValue.truthy] using ht
        subst hs
        simp [JSValue.orElse, JSValue.truthy, JSValue.getOwn, JSValue.ownEnumerable,
          JSValue.lookupField, JSValue.indexed, hk]
    | arr items => simp [JSValue.truthy] at ht
    | obj fields => simp [JSValue.truthy] at ht
    | _ =>
        simp [JSValue.orElse, ht, JSValue.getOwn, JSValue.ownEnumerable, JSValue.lookupField]
  · simp [JSValue.orElse, ht]

theorem defaulted_orNow (host : Host) (raw : JSValue) (k : Nat) :
    Defaulted raw (.str (host.clock k)) (orNow host raw k).1 := by
  constructor <;> intro h <;> simp [orNow, h]

theorem normalizeOrderDetails_inv (host : Host) (orderId : String) (payload : JSValue)
    (k : Nat) (o : JSValue) (k2 : Nat)
    (h : normalizeOrderDetails host orderId payload k = .ok (o, k2)) :
    ∃ rawItems items rawTracking tracking,
      payload.isNullish = false ∧
      asArray ((payload.getOwn "items").orElse (.arr [])) = .ok rawItems ∧
      normalizeItems host rawItems = .ok items ∧
      asArray ((payload.getOwn "tracking").orElse (.arr [])) = .ok rawTracking ∧
      normalizeTracking host
        (orNow host (((payload.getOwn "order").orElse (.obj [])).getOwn "created_at") k).2
        rawTracking = .ok (tracking, k2) ∧
      o = .obj [
        ("order_id",
          (((payload.getOwn "order").orElse (.obj [])).getOwn "order_id").orElse (.str orderId)),
        ("total_amount",
          (((payload.getOwn "order").orElse (.obj [])).getOwn "total_amount").orElse
            (.num (.fin 0))),
        ("payment_method",
          (((payload.getOwn "order").orElse (.obj [])).getOwn "payment_method").orElse
            (.str "Not specified")),
        ("payment_status",
          (((payload.getOwn "order").orElse (.obj [])).getOwn "payment_status").orElse
            (.str "Pending")),
        ("order_status",
          (((payload.getOwn "order").orElse (.obj [])).getOwn "order_status").orElse
            (.str "Pending")),
        ("created_at",
          (orNow host (((payload.getOwn "order").orElse (.obj [])).getOwn "created_at") k).1),
        ("address", normalizedAddress ((payload.getOwn "order").orElse (.obj []))),
        ("items", .arr items),
        ("tracking", .arr tracking)] := by
  simp only [normalizeOrderDetails, JSValue.getProp, bind, Except.bind, pure, Except.pure] at h
  by_cases hn : payload.isNullish = true
  · simp [hn] at h
  · simp only [hn, Bool.false_eq_true, if_false] at h
    cases h1 : asArray ((payload.getOwn "items").orElse (.arr [])) with
    | error e => simp [h1] at h
    | ok rawItems =>
        cases h2 : normalizeItems host rawItems with
        | error e => simp [h1, h2] at h
        | ok items =>
            cases h3 : asArray ((payload.getOwn "tracking").orElse (.arr [])) with
            | error e => simp [h1, h2, h3] at h
            | ok rawTracking =>
                cases h4 : normalizeTracking host
                    (orNow host
                      (((payload.getOwn "order").orElse (.obj [])).getOwn "created_at") k).2
                    rawTracking with
                | error e => simp [h1, h2, h3, h4] at h
                | ok tracking =>
                    obtain ⟨outs, k3⟩ := tracking
                    simp only [h1, h2, h3, h4, Except.ok.injEq, Prod.mk.injEq] at h
                    obtain ⟨ho, hk⟩ := h
                    subst hk
                    exact ⟨rawItems, items, rawTracking, outs, by simpa using hn, rfl, h2,
                      rfl, h4, ho.symm⟩

theorem listOK_asArray (entryOK : JSValue → Bool) (v : JSValue) (h : listOK entryOK v = true) :
    ∃ items, asArray (v.orElse (.arr [])) = .ok items ∧ ∀ x ∈ items, entryOK x = true := by
  unfold listOK at h
  cases hv : v.orElse (.arr []) with
  | arr items =>
      rw [hv] at h
      exact ⟨items, rfl, by simpa using h⟩
  | _ => rw [hv] at h; simp at h

theorem normalizeOrderDetails_ok (host : Host) (orderId : String) (payload : JSValue) (k : Nat)
    (h : payloadOK payload = true) :
    ∃ o k2, normalizeOrderDetails host orderId payload k = .ok (o, k2) := by
  simp only [payloadOK, Bool.and_eq_true, Bool.not_eq_true'] at h
  obtain ⟨⟨hn, hi⟩, ht⟩ := h
  obtain ⟨rawItems, h1, hitems⟩ := listOK_asArray _ _ hi
  obtain ⟨rawTracking, h3, htracks⟩ := listOK_asArray _ _ ht
  obtain ⟨items, h2⟩ := normalizeItems_ok host rawItems hitems
  obtain ⟨tracking, h4⟩ := normalizeTracking_ok host rawTracking
    (orNow host (((payload.getOwn "order").orElse (.obj [])).getOwn "created_at") k).2 htracks
  cases h0 : normalizeOrderDetails host orderId payload k with
  | ok r => exact ⟨r.1, r.2, rfl⟩
  | error e =>
      simp [normalizeOrderDetails, JSValue.getProp, hn, h1, h2, h3, h4, bind, Except.bind,
        pure, Except.pure] at h0

theorem nonNull_of_defaulted {raw dflt out : JSValue} (h : Defaulted raw dflt out)
    (hd : dflt.isNullish = false) : out.isNullish = false := by
  cases ht : raw.truthy
  · rw [h.2 ht]; exact hd
  · rw [h.1 ht]; exact truthy_not_nullish ht

theorem forall₂_right_mem {α β : Type} {R : α → β → Prop} {l₁ : List α} {l₂ : List β}
    (h : List.Forall₂ R l₁ l₂) : ∀ b ∈ l₂, ∃ a, a ∈ l₁ ∧ R a b := by
  induction h with
  | nil => intro b hb; simp at hb
  | cons hab _ ih =>
      intro b hb
      rcases List.mem_cons.mp hb with rfl | hb
      · exact ⟨_, List.mem_cons_self _ _, hab⟩
      · obtain ⟨a, ha, hr⟩ := ih b hb
        exact ⟨a, List.mem_cons_of_mem _ ha, hr⟩

theorem itemNormalized_nonNull {host : Host} {raw out : JSValue}
    (h : ItemNormalized host raw out) : ∀ key ∈ itemKeys, (out.getOwn key).isNullish = false := by
  obtain ⟨⟨p, _, hp⟩, ⟨q, _, hq⟩, h3, h4, h5, _⟩ := h
  intro key hkey
  simp only [itemKeys, List.mem_cons, List.mem_singleton, List.not_mem_nil, or_false] at hkey
  rcases hkey with rfl | rfl | rfl | rfl | rfl
  · rw [hp]; rfl
  · rw [hq]; rfl
  · exact nonNull_of_defaulted h3 rfl
  · exact nonNull_of_defaulted h4 rfl
  · exact nonNull_of_defaulted h5 rfl

theorem trackNormalized_nonNull {host : Host} {lo hi : Nat} {raw out : JSValue}
    (h : TrackNormalized host lo hi raw out) :
    ∀ key ∈ trackKeys, (out.getOwn key).isNullish = false := by
  obtain ⟨h1, h2, h3, h4, _⟩ := h
  intro key hkey
  simp only [trackKeys, List.mem_cons, List.mem_singleton, List.not_mem_nil, or_false] at hkey
  rcases hkey with rfl | rfl | rfl
  · exact nonNull_of_defaulted h1 rfl
  · cases ht : (raw.getOwn "update_time").truthy
    · obtain ⟨j, _, _, hj⟩ := h3 ht
      rw [hj]; rfl
    · rw [h2 ht]; exact truthy_not_nullish ht
  · exact nonNull_of_defaulted h4 rfl

theorem truthy_getOwn_not_nullish {v : JSValue} {key : String}
    (h : (v.getOwn key).truthy = true) : v.isNullish = false := by
  cases v <;> simp_all [JSValue.getOwn, JSValue.isNullish, JSValue.ownEnumerable,
    JSValue.lookupField, JSValue.truthy]

/-! ## Theorems: the claims on the order detail page -/

/-- C2: the normalized order has every order level field and every address field with its
documented default.  For every normalized order that the success branch produces, each of
`total_amount` (0), `order_status` and `payment_status` (`Pending`), `payment_method`
(`Not specified`), `created_at` (the clock reading), `order_id` (the route parameter),
`address.line` (`Not specified`), `address.phone` (`Not provided`) and
`address.city / state / country / zip_code` (empty string) is the raw field when that is
truthy and the default when the order object or the field is missing or falsy; and a
normalized order is produced for every payload with well formed item and tracking lists. -/
theorem normalizeOrderDetails_defaults (host : Host) (orderId : String) (payload : JSValue)
    (k : Nat) :
    (∀ o k2, normalizeOrderDetails host orderId payload k = .ok (o, k2) →
      (∀ p ∈ orderFieldDefaults host orderId k,
        Defaulted (rawOrderField payload p.1) p.2 (o.getOwn p.1)) ∧
      (∀ p ∈ addressFieldDefaults,
        Defaulted (rawOrderField payload p.2.1) p.2.2 ((o.getOwn "address").getOwn p.1))) ∧
    (payloadOK payload = true →
      ∃ o k2, normalizeOrderDetails host orderId payload k = .ok (o, k2)) := by
  refine ⟨fun o k2 h => ?_, normalizeOrderDetails_ok host orderId payload k⟩
  obtain ⟨rawItems, items, rawTracking, tracking, _, _, _, _, _, ho⟩ :=
    normalizeOrderDetails_inv host orderId payload k o k2 h
  subst ho
  constructor
  · intro p hp
    simp only [orderFieldDefaults, List.mem_cons, List.mem_singleton, List.not_mem_nil,
      or_false] at hp
    rcases hp with rfl | rfl | rfl | rfl | rfl | rfl <;>
      simp only [getOwn_obj, JSValue.lookupField, String.reduceEq, if_false, if_true,
        Option.getD_some, rawOrderField] <;>
      rw [← orElse_obj_getOwn (payload.getOwn "order") _ (by decide)] <;>
      first
        | exact defaulted_orElse _ _
        | exact defaulted_orNow host _ k
  · intro p hp
    simp only [addressFieldDefaults, List.mem_cons, List.mem_singleton, List.not_mem_nil,
      or_false] at hp
    rcases hp with rfl | rfl | rfl | rfl | rfl | rfl <;>
      simp only [getOwn_obj, JSValue.lookupField, String.reduceEq, if_false, if_true,
        Option.getD_some, rawOrderField, normalizedAddress] <;>
      rw [← orElse_obj_getOwn (payload.getOwn "order") _ (by decide)] <;>
      exact defaulted_orElse _ _

theorem normalizeOrderDetails_defaults_witness :
    payloadOK samplePayload = true ∧
      ∃ o k2, normalizeOrderDetails sampleHost "ORD-A1" samplePayload 0 = .ok (o, k2) ∧
        o.getOwn "order_status" = .str "Shipped" ∧
        o.getOwn "total_amount" = .num (.fin 0) ∧
        (o.getOwn "address").getOwn "line" = .str "Not specified" := by
  refine ⟨rfl, ?_⟩
  obtain ⟨o, k2, h⟩ :=
    (normalizeOrderDetails_defaults sampleHost "ORD-A1" samplePayload 0).2 rfl
  obtain ⟨hf, ha⟩ := (normalizeOrderDetails_defaults sampleHost "ORD-A1" samplePayload 0).1 o k2 h
  refine ⟨o, k2, h, ?_, ?_, ?_⟩
  · exact (hf ("order_status", .str "Pending") (by simp [orderFieldDefaults])).1 rfl
  · exact (hf ("total_amount", .num (.fin 0)) (by simp [orderFieldDefaults])).2 rfl
  · exact (ha ("line", "address_line", .str "Not specified")
      (by simp [addressFieldDefaults])).2 rfl

/-- C3, as stated, fails: a successful response whose items list has a `null` entry makes
the normalizer raise, and the `catch` block puts the page in its error state although the
fetch itself succeeded. -/
theorem fetchOrderDetails_null_item_error :
    normalizeOrderDetails sampleHost "ORD-A1" nullItemPayload 0 = .error .typeError ∧
      (fetchOrderDetails sampleHost "ORD-A1" 0 (.resolved nullItemResult)
        DetailsPageState.initial).error =
        .str "An error occurred while loading order details" ∧
      (fetchOrderDetails sampleHost "ORD-A1" 0 (.resolved nullItemResult)
        DetailsPageState.initial).order = .null :=
  ⟨rfl, rfl, rfl⟩

/-- C3, amended: for every successful result whose payload is not `null` or `undefined`,
whose items and tracking are each missing or an array without `null` / `undefined`
entries, and whose item prices and quantities are printable, normalization returns an
order without raising, and the fetch stores that order, clears `loading` and leaves the
error cell as it was. -/
theorem fetchOrderDetails_wellformed (host : Host) (orderId : String) (k : Nat)
    (result : JSValue) (s : DetailsPageState)
    (hs : (result.getOwn "success").truthy = true)
    (hp : payloadOK (result.getOwn "order") = true) :
    ∃ o k2, normalizeOrderDetails host orderId (result.getOwn "order") k = .ok (o, k2) ∧
      fetchOrderDetails host orderId k (.resolved result) s =
        { s with order := o, loading := false } := by
  obtain ⟨o, k2, h⟩ := normalizeOrderDetails_ok host orderId (result.getOwn "order") k hp
  refine ⟨o, k2, h, ?_⟩
  simp [fetchOrderDetails, JSValue.getProp, truthy_getOwn_not_nullish hs, hs, h]

theorem fetchOrderDetails_wellformed_witness :
    (sampleResult.getOwn "success").truthy = true ∧
      payloadOK (sampleResult.getOwn "order") = true ∧
      (∃ o k2, normalizeOrderDetails sampleHost "ORD-A1" (sampleResult.getOwn "order") 0 =
          .ok (o, k2) ∧
        fetchOrderDetails sampleHost "ORD-A1" 0 (.resolved sampleResult)
          DetailsPageState.initial =
          { DetailsPageState.initial with order := o, loading := false }) ∧
      (fetchOrderDetails sampleHost "ORD-A1" 0 (.resolved sampleResult)
        DetailsPageState.initial).order = sampleNormalized :=
  ⟨rfl, rfl,
    fetchOrderDetails_wellformed sampleHost "ORD-A1" 0 sampleResult DetailsPageState.initial
      rfl rfl,
    rfl⟩

/-- C7, as stated, fails: a raw quantity of 0 is present and numeric, its numeric coercion
is 0, yet the normalized quantity is 1. -/
theorem normalizeItems_zero_quantity :
    ∃ out, normalizeItems sampleHost [zeroQuantityItem] = .ok [out] ∧
      out.getOwn "quantity" = .num (.fin 1) ∧
      ¬ QuantityAsSpecified sampleHost zeroQuantityItem out := by
  refine ⟨_, rfl, rfl, ?_⟩
  rintro ⟨q, hq, hout⟩
  have hq0 : q = .fin 0 := by
    have : Except.ok (JSNum.fin 0) = (Except.ok q : Except JSError JSNum) := hq
    injection this with h
    exact h.symm
  subst hq0
  have h1 : JSValue.num (.fin 1) = JSValue.num (if JSNum.fin 0 = JSNum.nan then .fin 1 else .fin 0) :=
    hout
  simp at h1

/-- C7, amended: for every raw items list whose entries are not `null` or `undefined` and
have a printable price and quantity, the normalized list has the same length and order,
and each normalized item has price equal to the numeric coercion of the raw price unless
that is `NaN` or a zero, then 0; quantity equal to the numeric coercion of the raw quantity
unless that is `NaN` or a zero, then 1; `productName`, `description` and `images` kept
when truthy and defaulted otherwise; and every other raw field carried over unchanged. -/
theorem normalizeItems_spec (host : Host) (raws : List JSValue)
    (h : ∀ x ∈ raws, itemOK x = true) :
    ∃ outs, normalizeItems host raws = .ok outs ∧
      List.Forall₂ (ItemNormalized host) raws outs := by
  obtain ⟨outs, hok⟩ := normalizeItems_ok host raws h
  exact ⟨outs, hok, normalizeItems_inv host raws outs hok⟩

theorem normalizeItems_spec_witness :
    (∀ x ∈ sampleItems, itemOK x = true) ∧
      (∃ outs, normalizeItems sampleHost sampleItems = .ok outs ∧
        List.Forall₂ (ItemNormalized sampleHost) sampleItems outs) ∧
      normalizeItems sampleHost sampleItems =
        .ok [.obj [("productName", .str "Desk lamp"), ("price", .num (.fin 40)),
            ("quantity", .num (.fin 2)), ("sku", .str "DL-1"),
            ("description", .str "No description available"), ("images", .arr [])],
          .obj [("price", .num (.fin 0)), ("quantity", .num (.fin 1)),
            ("productName", .str "Unnamed Product"),
            ("description", .str "No description available"), ("images", .arr [])]] :=
  ⟨by decide, normalizeItems_spec sampleHost sampleItems (by decide), rfl⟩

/-- C8: for every raw tracking list whose entries are events (not `null` or `undefined`),
the normalized list has the same length and order, and each event has `status` defaulting
to `Pending`, `update_time` defaulting to a reading of the clock taken during the map,
and `notes` defaulting to `Status update`, each of the three decided by its own raw value
alone, with every other raw field carried over unchanged. -/
theorem normalizeTracking_spec (host : Host) (k : Nat) (raws : List JSValue)
    (h : ∀ x ∈ raws, x.isNullish = false) :
    ∃ outs k2, normalizeTracking host k raws = .ok (outs, k2) ∧
      List.Forall₂ (TrackNormalized host k k2) raws outs := by
  obtain ⟨r, hok⟩ := normalizeTracking_ok host raws k (fun x hx => by simp [trackOK, h x hx])
  exact ⟨r.1, r.2, hok, (normalizeTracking_inv host raws k r.1 r.2 hok).2⟩

theorem normalizeTracking_spec_witness :
    (∀ x ∈ sampleTracking, x.isNullish = false) ∧
      (∃ outs k2, normalizeTracking sampleHost 0 sampleTracking = .ok (outs, k2) ∧
        List.Forall₂ (TrackNormalized sampleHost 0 k2) sampleTracking outs) ∧
      normalizeTracking sampleHost 0 sampleTracking =
        .ok ([.obj [("status", .str "Shipped"),
              ("update_time", .str "2024-02-01T10:00:00.000Z"),
              ("notes", .str "Left the warehouse"), ("courier", .str "BlueDart")],
            .obj [("status", .str "Delivered"),
              ("update_time", .str "2024-01-01T00:00:00.000Z"),
              ("notes", .str "Status update")]], 1) :=
  ⟨by decide, normalizeTracking_spec sampleHost 0 sampleTracking (by decide), rfl⟩

/-- C9, as stated, fails for the order list page: `fetchOrders` stores the list returned by
`getOrders` as received, so an order without address line is held in page state with
`address_line` `null`, and computing `filteredOrders` for a term that the identifier does
not contain raises. -/
theorem fetchOrders_keeps_null_address :
    ∃ order,
      (fetchOrders (.resolved noAddressResult) OrdersPageState.initial).orders = .arr [order] ∧
      order.getOwn "address_line" = .null ∧
      ({ fetchOrders (.resolved noAddressResult) OrdersPageState.initial with
          searchTerm := "hill" }).filtered sampleHost = .error .typeError :=
  ⟨_, rfl, rfl, rfl⟩

/-- C9, amended: every field of the normalized order detail that the detail page reads has
a default applied.  In every order that the success branch of `fetchOrderDetails`
produces, `order_id`, `total_amount`, `payment_method`, `payment_status`, `order_status`,
`created_at`, `address` and the six address fields are neither `null` nor `undefined`,
`items` and `tracking` are arrays, and in every item `price`, `quantity`, `productName`,
`description`, `images` and in every tracking event `status`, `update_time`, `notes` are
neither `null` nor `undefined`; and such an order is produced for every payload with well
formed item and tracking lists. -/
theorem normalizeOrderDetails_nonNull (host : Host) (orderId : String) (payload : JSValue)
    (k : Nat) :
    (∀ o k2, normalizeOrderDetails host orderId payload k = .ok (o, k2) →
      (∀ key ∈ orderKeys, (o.getOwn key).isNullish = false) ∧
      (∀ key ∈ addressKeys, ((o.getOwn "address").getOwn key).isNullish = false) ∧
      (∃ items, o.getOwn "items" = .arr items ∧
        ∀ item ∈ items, ∀ key ∈ itemKeys, (item.getOwn key).isNullish = false) ∧
      (∃ tracking, o.getOwn "tracking" = .arr tracking ∧
        ∀ track ∈ tracking, ∀ key ∈ trackKeys, (track.getOwn key).isNullish = false)) ∧
    (payloadOK payload = true →
      ∃ o k2, normalizeOrderDetails host orderId payload k = .ok (o, k2)) := by
  refine ⟨fun o k2 h => ?_, normalizeOrderDetails_ok host orderId payload k⟩
  obtain ⟨rawItems, items, rawTracking, tracking, _, _, hitems, _, htracking, ho⟩ :=
    normalizeOrderDetails_inv host orderId payload k o k2 h
  subst ho
  refine ⟨?_, ?_, ⟨items, rfl, ?_⟩, ⟨tracking, rfl, ?_⟩⟩
  · intro key hkey
    simp only [orderKeys, List.mem_cons, List.mem_singleton, List.not_mem_nil,
      or_false] at hkey
    rcases hkey with rfl | rfl | rfl | rfl | rfl | rfl | rfl <;>
      simp only [getOwn_obj, JSValue.lookupField, String.reduceEq, if_false, if_true,
        Option.getD_some] <;>
      first
        | exact nonNull_of_defaulted (defaulted_orElse _ _) rfl
        | exact nonNull_of_defaulted (defaulted_orNow host _ k) rfl
        | rfl
  · intro key hkey
    simp only [addressKeys, List.mem_cons, List.mem_singleton, List.not_mem_nil,
      or_false] at hkey
    rcases hkey with rfl | rfl | rfl | rfl | rfl | rfl <;>
      simp only [getOwn_obj, JSValue.lookupField, String.reduceEq, if_false, if_true,
        Option.getD_some, normalizedAddress] <;>
      exact nonNull_of_defaulted (defaulted_orElse _ _) rfl
  · intro item hitem
    obtain ⟨raw, _, hr⟩ := forall₂_right_mem (normalizeItems_inv host rawItems items hitems)
      item hitem
    exact itemNormalized_nonNull hr
  · intro track htrack
    obtain ⟨raw, _, hr⟩ := forall₂_right_mem
      (normalizeTracking_inv host rawTracking _ tracking k2 htracking).2 track htrack
    exact trackNormalized_nonNull hr

theorem normalizeOrderDetails_nonNull_witness :
    payloadOK samplePayload = true ∧
      normalizeOrderDetails sampleHost "ORD-A1" samplePayload 0 = .ok (sampleNormalized, 2) ∧
      (∀ key ∈ orderKeys, (sampleNormalized.getOwn key).isNullish = false) ∧
      (∀ key ∈ addressKeys,
        ((sampleNormalized.getOwn "address").getOwn key).isNullish = false) ∧
      (∃ items, sampleNormalized.getOwn "items" = .arr items ∧
        ∀ item ∈ items, ∀ key ∈ itemKeys, (item.getOwn key).isNullish = false) ∧
      (∃ tracking, sampleNormalized.getOwn "tracking" = .arr tracking ∧
        ∀ track ∈ tracking, ∀ key ∈ trackKeys, (track.getOwn key).isNullish = false) :=
  ⟨rfl, rfl,
    (normalizeOrderDetails_nonNull sampleHost "ORD-A1" samplePayload 0).1 sampleNormalized 2
      rfl⟩

/-- C10: a confirmed cancel whose `cancelOrder` call reports success sets `order_status`
of the order held by the page (whatever its status, in particular `Pending`) to
`Cancelled` and changes no other field of that order (identifier, amount, payment fields,
creation time, address, items, tracking); of the other state cells only the message
changes, and the page holds no other order. -/
theorem handleCancelOrder_success (result : JSValue) (s : DetailsPageState)
    (fields : List (String × JSValue))
    (hs : (result.getOwn "success").truthy = true)
    (ho : s.order = .obj fields) :
    ((handleCancelOrder true (.resolved result) s).order.getOwn "order_status" =
        .str "Cancelled") ∧
    (∀ key, key ≠ "order_status" →
      (handleCancelOrder true (.resolved result) s).order.getOwn key = s.order.getOwn key) ∧
    (handleCancelOrder true (.resolved result) s).loading = s.loading ∧
    (handleCancelOrder true (.resolved result) s).error = s.error ∧
    (handleCancelOrder true (.resolved result) s).activeTab = s.activeTab ∧
    (handleCancelOrder true (.resolved result) s).message =
      .obj [("type", .str "success"), ("text", .str "Order cancelled successfully")] := by
  have hstep : handleCancelOrder true (.resolved result) s =
      { s with
        message := .obj [("type", .str "success"),
          ("text", .str "Order cancelled successfully")],
        order := .obj (JSValue.setField fields "order_status" (.str "Cancelled")) } := by
    simp [handleCancelOrder, JSValue.getProp, truthy_getOwn_not_nullish hs, hs, ho,
      JSValue.ownEnumerable]
  rw [hstep]
  refine ⟨?_, ?_, rfl, rfl, rfl, rfl⟩
  · simp [getOwn_obj, lookupField_setField_same]
  · intro key hkey
    simp [ho, getOwn_obj, lookupField_setField_other _ _ _ _ hkey]

theorem handleCancelOrder_success_witness :
    pendingState.order.getOwn "order_status" = .str "Pending" ∧
    ((handleCancelOrder true (.resolved (.obj [("success", .bool true)]))
        pendingState).order.getOwn "order_status" = .str "Cancelled") ∧
      (handleCancelOrder true (.resolved (.obj [("success", .bool true)]))
        pendingState).order.getOwn "order_id" = .str "ORD-A1" :=
  have h := handleCancelOrder_success (.obj [("success", .bool true)]) pendingState _
    rfl rfl
  ⟨rfl, h.1, (h.2.1 "order_id" (by decide)).trans rfl⟩


/-! ## Theorems: more on the order list filter -/

theorem selectedBySpec_all_iff (host : Host) (term : String) (order : JSValue) :
    SelectedBySpec host term "all" order ↔
      (OccursIn host term (textOf order "order_id") ∨
        OccursIn host term (textOf order "address_line")) := by
  simp [SelectedBySpec, OccursIn]

theorem orderMatches_congr_term (host : Host) (t₁ t₂ status : String) (order : JSValue)
    (h : host.toLowerCase t₁ = host.toLowerCase t₂) :
    orderMatches host t₁ status order = orderMatches host t₂ status order := by
  simp only [orderMatches, h]

theorem filteredOrders_congr_term (host : Host) (t₁ t₂ status : String)
    (h : host.toLowerCase t₁ = host.toLowerCase t₂) :
    ∀ orders : List JSValue,
      filteredOrders host orders t₁ status = filteredOrders host orders t₂ status := by
  intro orders
  induction orders with
  | nil => rfl
  | cons o rest ih =>
      simp only [filteredOrders, orderMatches_congr_term host t₁ t₂ status o h, ih]

/-- C16: search by address.  In every list of order summaries in which the term occurs,
case insensitively, in the address line of exactly one order and in the identifier of no
order, the list filter with that term and the selector `all` returns the list that holds
exactly that order. -/
theorem filteredOrders_unique_address (host : Host) (before after : List JSValue)
    (order : JSValue) (term : String)
    (hall : ∀ o ∈ before ++ order :: after, IsOrderSummary o)
    (hline : OccursIn host term (textOf order "address_line"))
    (hothers : ∀ o ∈ before ++ after, ¬ OccursIn host term (textOf o "address_line"))
    (hids : ∀ o ∈ before ++ order :: after, ¬ OccursIn host term (textOf o "order_id")) :
    filteredOrders host (before ++ order :: after) term "all" = .ok [order] := by
  rw [filteredOrders_summaries host _ term "all" hall]
  congr 1
  have hb : ∀ o ∈ before, ¬ SelectedBySpec host term "all" o := by
    intro o ho hsel
    rcases (selectedBySpec_all_iff host term o).mp hsel with h | h
    · exact hids o (List.mem_append_left _ ho) h
    · exact hothers o (List.mem_append_left _ ho) h
  have ha : ∀ o ∈ after, ¬ SelectedBySpec host term "all" o := by
    intro o ho hsel
    rcases (selectedBySpec_all_iff host term o).mp hsel with h | h
    · exact hids o (List.mem_append_right _ (List.mem_cons_of_mem _ ho)) h
    · exact hothers o (List.mem_append_right _ ho) h
  have ho : SelectedBySpec host term "all" order :=
    (selectedBySpec_all_iff host term order).mpr (Or.inr hline)
  rw [List.filter_append, List.filter_cons]
  have h1 : before.filter (fun o => decide (SelectedBySpec host term "all" o)) = [] :=
    List.filter_eq_nil_iff.mpr (fun o hm => by simpa using hb o hm)
  have h2 : after.filter (fun o => decide (SelectedBySpec host term "all" o)) = [] :=
    List.filter_eq_nil_iff.mpr (fun o hm => by simpa using ha o hm)
  simp [h1, h2, ho]

theorem occursIn_iff_includes (host : Host) (term text : String) :
    OccursIn host term text ↔
      includes (host.toLowerCase text) (host.toLowerCase term) = true :=
  (includes_iff _ _).symm

theorem filteredOrders_unique_address_witness :
    filteredOrders sampleHost sampleOrders "LAKE" "all" =
      .ok [.obj [("order_id", .str "ORD-B2"), ("address_line", .str "7 Lake View"),
        ("order_status", .str "Shipped")]] :=
  filteredOrders_unique_address sampleHost
    [.obj [("order_id", .str "ORD-A1"), ("address_line", .str "12 Hill Road"),
      ("order_status", .str "Pending")]]
    [.obj [("order_id", .str "ORD-C3"), ("address_line", .str "3 Hill Top"),
      ("order_status", .str "Pending")]]
    (.obj [("order_id", .str "ORD-B2"), ("address_line", .str "7 Lake View"),
      ("order_status", .str "Shipped")])
    "LAKE"
    sampleOrders_summaries
    ((occursIn_iff_includes _ _ _).mpr rfl)
    (by
      intro o ho
      simp only [List.cons_append, List.nil_append, List.mem_cons, List.mem_singleton,
        List.not_mem_nil, or_false] at ho
      rcases ho with rfl | rfl <;> rw [occursIn_iff_includes] <;> decide)
    (by
      intro o ho
      simp only [List.cons_append, List.nil_append, List.mem_cons, List.mem_singleton,
        List.not_mem_nil, or_false] at ho
      rcases ho with rfl | rfl | rfl <;> rw [occursIn_iff_includes] <;> decide)

/-- C19: the search does not depend on letter case.  Two terms with the same lower case
form give the same result on every list and status; and two order summaries whose
identifiers and address lines have the same lower case forms, and whose status is the
same, are selected or rejected alike. -/
theorem filteredOrders_case_insensitive (host : Host) :
    (∀ (orders : List JSValue) (status t₁ t₂ : String), SameUpToCase host t₁ t₂ →
      filteredOrders host orders t₁ status = filteredOrders host orders t₂ status) ∧
    (∀ (term status : String) (o₁ o₂ : JSValue), IsOrderSummary o₁ → IsOrderSummary o₂ →
      SameUpToCase host (textOf o₁ "order_id") (textOf o₂ "order_id") →
      SameUpToCase host (textOf o₁ "address_line") (textOf o₂ "address_line") →
      o₁.getOwn "order_status" = o₂.getOwn "order_status" →
      orderMatches host term status o₁ = orderMatches host term status o₂) := by
  refine ⟨fun orders status t₁ t₂ h => filteredOrders_congr_term host t₁ t₂ status h orders,
    fun term status o₁ o₂ h₁ h₂ hid hline hstatus => ?_⟩
  rw [orderMatches_summary host term status o₁ h₁, orderMatches_summary host term status o₂ h₂]
  unfold SameUpToCase at hid hline
  simp only [SelectedBySpec, hid, hline, hstatus]

theorem filteredOrders_case_insensitive_witness :
    SameUpToCase sampleHost "HiLL" "hill" ∧
      filteredOrders sampleHost sampleOrders "HiLL" "Pending" =
        filteredOrders sampleHost sampleOrders "hill" "Pending" ∧
      orderMatches sampleHost "hill" "all"
          (.obj [("order_id", .str "ORD-A1"), ("address_line", .str "12 Hill Road")]) =
        orderMatches sampleHost "hill" "all"
          (.obj [("order_id", .str "ord-a1"), ("address_line", .str "12 HILL ROAD")]) :=
  ⟨rfl, (filteredOrders_case_insensitive sampleHost).1 sampleOrders "Pending" "HiLL" "hill" rfl,
    (filteredOrders_case_insensitive sampleHost).2 "hill" "all" _ _ ⟨_, _, rfl, rfl⟩
      ⟨_, _, rfl, rfl⟩ rfl rfl rfl⟩

/-! ## Theorems: cancelling an order, the failure cases -/

/-- C11: the order held by the detail page is changed by a successful cancel only.  When
the user declines the confirmation the state is unchanged; when `cancelOrder` reports
failure the order is unchanged and only the message is set, to an error with text
`result.message` or `Failed to cancel order`; and whenever the order after the handler
differs from the order before, the user confirmed and the call reported success. -/
theorem handleCancelOrder_only_success (s : DetailsPageState) :
    (∀ outcome, handleCancelOrder false outcome s = s) ∧
    (∀ result : JSValue, result.isNullish = false →
      (result.getOwn "success").truthy = false →
      handleCancelOrder true (.resolved result) s =
        { s with message := .obj [("type", .str "error"),
            ("text", (result.getOwn "message").orElse (.str "Failed to cancel order"))] }) ∧
    (∀ confirmed outcome, (handleCancelOrder confirmed outcome s).order ≠ s.order →
      confirmed = true ∧
        ∃ result, outcome = .resolved result ∧ (result.getOwn "success").truthy = true) := by
  refine ⟨fun outcome => rfl, fun result hn hs => ?_, fun confirmed outcome h => ?_⟩
  · simp [handleCancelOrder, JSValue.getProp, hn, hs]
  · cases confirmed with
    | false => exact absurd rfl h
    | true =>
        refine ⟨rfl, ?_⟩
        cases outcome with
        | rejected => exact absurd rfl h
        | resolved result =>
            refine ⟨result, rfl, ?_⟩
            by_cases hn : result.isNullish = true
            · exact absurd (by simp [handleCancelOrder, JSValue.getProp, hn]) h
            · cases hs : (result.getOwn "success").truthy with
              | true => rfl
              | false =>
                  exact absurd (by simp [handleCancelOrder, JSValue.getProp, hn, hs]) h

theorem handleCancelOrder_only_success_witness :
    handleCancelOrder true
        (.resolved (.obj [("success", .bool false), ("message", .str "Already shipped")]))
        pendingState =
      { pendingState with message := .obj [("type", .str "error"),
          ("text", .str "Already shipped")] } :=
  (handleCancelOrder_only_success pendingState).2.1
    (.obj [("success", .bool false), ("message", .str "Already shipped")]) rfl rfl


/-! ## Theorems: the fetch effects as state machines -/

theorem fetchOrderDetails_loading (host : Host) (orderId : String) (k : Nat)
    (outcome : Outcome) (s : DetailsPageState) :
    (fetchOrderDetails host orderId k outcome s).loading = false := rfl

theorem truthy_orElse (a b : JSValue) (hb : b.truthy = true) : (a.orElse b).truthy = true := by
  cases ha : a.truthy <;> simp [JSValue.orElse, ha, hb]

theorem fetchOrderDetails_fails (host : Host) (orderId : String) (k : Nat)
    (outcome : Outcome) (s : DetailsPageState)
    (h : detailsFetchFails host orderId k outcome = true) :
    (fetchOrderDetails host orderId k outcome s).error.truthy = true ∧
      (fetchOrderDetails host orderId k outcome s).order = s.order := by
  cases outcome with
  | rejected => exact ⟨rfl, rfl⟩
  | resolved result =>
      cases hn : result.isNullish with
      | true =>
          simp only [fetchOrderDetails, JSValue.getProp, hn, if_true]
          exact ⟨rfl, trivial⟩
      | false =>
          cases hs : (result.getOwn "success").truthy with
          | false =>
              simp only [fetchOrderDetails, JSValue.getProp, hn, hs, Bool.false_eq_true, if_false]
              exact ⟨truthy_orElse _ _ rfl, trivial⟩
          | true =>
              cases hnorm : normalizeOrderDetails host orderId (result.getOwn "order") k with
              | error e =>
                  simp only [fetchOrderDetails, JSValue.getProp, hn, hs, hnorm,
                    Bool.false_eq_true, if_false, if_true]
                  exact ⟨rfl, trivial⟩
              | ok r =>
                  simp [detailsFetchFails, hn, hs, hnorm] at h

theorem fetchOrderDetails_succeeds (host : Host) (orderId : String) (k : Nat)
    (outcome : Outcome) (s : DetailsPageState)
    (h : detailsFetchFails host orderId k outcome = false) :
    (fetchOrderDetails host orderId k outcome s).error = s.error ∧
      ∃ result o k2, outcome = .resolved result ∧
        normalizeOrderDetails host orderId (result.getOwn "order") k = .ok (o, k2) ∧
        (fetchOrderDetails host orderId k outcome s).order = o := by
  cases outcome with
  | rejected => simp [detailsFetchFails] at h
  | resolved result =>
      simp only [detailsFetchFails, Bool.or_eq_false_iff, Bool.not_eq_false'] at h
      obtain ⟨⟨hn, hs⟩, hnorm⟩ := h
      cases hr : normalizeOrderDetails host orderId (result.getOwn "order") k with
      | error e => simp [hr] at hnorm
      | ok r =>
          obtain ⟨o, k2⟩ := r
          have hstep : fetchOrderDetails host orderId k (.resolved result) s =
              { s with order := o, loading := false } := by
            simp only [fetchOrderDetails, JSValue.getProp, hn, hs, hr, Bool.false_eq_true,
              if_false, if_true]
          rw [hstep]
          exact ⟨rfl, result, o, k2, rfl, hr, rfl⟩

theorem normalizeOrderDetails_truthy (host : Host) (orderId : String) (payload : JSValue)
    (k : Nat) (o : JSValue) (k2 : Nat)
    (h : normalizeOrderDetails host orderId payload k = .ok (o, k2)) : o.truthy = true := by
  obtain ⟨_, _, _, _, _, _, _, _, _, ho⟩ := normalizeOrderDetails_inv host orderId payload k o k2 h
  rw [ho]
  rfl

theorem afterFetches_error (host : Host) :
    ∀ (fetches : List DetailsFetch) (s : DetailsPageState),
      (s.afterFetches host fetches).error.truthy = true ↔
        (s.error.truthy = true ∨
          ∃ f ∈ fetches, detailsFetchFails host f.orderId f.clockReads f.outcome = true) := by
  intro fetches
  induction fetches with
  | nil => intro s; simp [DetailsPageState.afterFetches]
  | cons f rest ih =>
      intro s
      have hstep : s.afterFetches host (f :: rest) =
          (fetchOrderDetails host f.orderId f.clockReads f.outcome s).afterFetches host rest := rfl
      rw [hstep, ih]
      cases hf : detailsFetchFails host f.orderId f.clockReads f.outcome with
      | true =>
          have h1 := (fetchOrderDetails_fails host f.orderId f.clockReads f.outcome s hf).1
          simp [h1, hf]
      | false =>
          have h1 := (fetchOrderDetails_succeeds host f.orderId f.clockReads f.outcome s hf).1
          simp [h1, hf]

theorem fetchOrders_loading (outcome : Outcome) (s : OrdersPageState) :
    (fetchOrders outcome s).loading = false := rfl

theorem fetchOrders_success (result : JSValue) (s : OrdersPageState)
    (hs : (result.getOwn "success").truthy = true) :
    fetchOrders (.resolved result) s =
      { s with orders := result.getOwn "orders", loading := false } := by
  simp only [fetchOrders, JSValue.getProp, truthy_getOwn_not_nullish hs, hs,
    Bool.false_eq_true, if_false, if_true]

theorem fetchOrders_throws (outcome : Outcome) (s : OrdersPageState)
    (h : ordersFetchThrows outcome = true) :
    fetchOrders outcome s =
      { s with error := .str "Failed to fetch orders. Please try again later.",
               loading := false } := by
  cases outcome with
  | rejected => rfl
  | resolved result =>
      have hn : result.isNullish = true := h
      simp only [fetchOrders, JSValue.getProp, hn, if_true]

theorem fetchOrders_failure (result : JSValue) (s : OrdersPageState)
    (hn : result.isNullish = false) (hs : (result.getOwn "success").truthy = false) :
    (fetchOrders (.resolved result) s).orders = s.orders ∧
      (fetchOrders (.resolved result) s).error = result.getOwn "message" := by
  cases hr : (result.getOwn "redirectToLogin").truthy <;>
    simp [fetchOrders, JSValue.getProp, hn, hs, hr]

/-- C12, evaluated at the failing input: when `getOrders` reports failure without a
message, `fetchOrders` stores `undefined` in the error cell and the list page renders its
ready view; `fetchOrderDetails` on the same result falls back to a fixed message and the
detail page renders its error view. -/
theorem fetchOrders_missing_message :
    (fetchOrders (.resolved failureWithoutMessage) OrdersPageState.initial).error =
        .undefined ∧
      (fetchOrders (.resolved failureWithoutMessage) OrdersPageState.initial).loading =
        false ∧
      (fetchOrders (.resolved failureWithoutMessage) OrdersPageState.initial).view sampleHost =
        .ok .ready ∧
      (fetchOrderDetails sampleHost "ORD-A1" 0 (.resolved failureWithoutMessage)
        DetailsPageState.initial).error = .str "Failed to load order details" ∧
      (fetchOrderDetails sampleHost "ORD-A1" 0 (.resolved failureWithoutMessage)
        DetailsPageState.initial).view = .errorView :=
  ⟨rfl, rfl, rfl, rfl, rfl⟩

/-- C13, as stated, fails: the error cell is never cleared.  After a fetch that rejects
and a refetch for another order that succeeds, the order is stored and `loading` is false,
yet the error is still set and the page renders its error view although the most recent
fetch succeeded. -/
theorem afterFetches_stale_error :
    detailsFetchFails sampleHost "ORD-A1" 0 (.resolved sampleResult) = false ∧
      (DetailsPageState.initial.afterFetches sampleHost rejectedThenLoaded).order =
        sampleNormalized ∧
      (DetailsPageState.initial.afterFetches sampleHost rejectedThenLoaded).loading = false ∧
      (DetailsPageState.initial.afterFetches sampleHost rejectedThenLoaded).error.truthy =
        true ∧
      (DetailsPageState.initial.afterFetches sampleHost rejectedThenLoaded).view =
        .errorView :=
  ⟨rfl, rfl, rfl, rfl, rfl⟩

/-- C13, amended: every fetch ends with `loading` false, and a fetch started from a state
whose error is not set ends in exactly one of error (error set) or ready (fetched data
stored, error not set).  In `OrderDetailsPage` the error is set and the order is as before
when the fetch fails (rejection, unreadable result, `success` false, or an exception while
normalizing); otherwise the error stays unset and the normalized order is stored.  In
`OrdersPage` a successful fetch stores `result.orders` and leaves the error unset, and when
`result.orders` is a list of order summaries the list that the page filters is computed
from it; a thrown exception sets the error and keeps the orders, and a result with
`success` false and a non-empty message sets the error and keeps the orders. -/
theorem fetch_from_clean_state (host : Host) :
    (∀ (orderId : String) (k : Nat) (outcome : Outcome) (s : DetailsPageState),
      s.error.truthy = false →
      (fetchOrderDetails host orderId k outcome s).loading = false ∧
      (detailsFetchFails host orderId k outcome = true →
        (fetchOrderDetails host orderId k outcome s).error.truthy = true ∧
        (fetchOrderDetails host orderId k outcome s).order = s.order) ∧
      (detailsFetchFails host orderId k outcome = false →
        (fetchOrderDetails host orderId k outcome s).error.truthy = false ∧
        (∃ result o k2, outcome = .resolved result ∧
          normalizeOrderDetails host orderId (result.getOwn "order") k = .ok (o, k2) ∧
          (fetchOrderDetails host orderId k outcome s).order = o))) ∧
    (∀ (outcome : Outcome) (s : OrdersPageState), s.error.truthy = false →
      (fetchOrders outcome s).loading = false ∧
      (∀ result, outcome = .resolved result → (result.getOwn "success").truthy = true →
        (fetchOrders outcome s).orders = result.getOwn "orders" ∧
        (fetchOrders outcome s).error.truthy = false) ∧
      (∀ result list, outcome = .resolved result →
        (result.getOwn "success").truthy = true → result.getOwn "orders" = .arr list →
        (∀ o ∈ list, IsOrderSummary o) →
        (fetchOrders outcome s).filtered host =
          .ok (list.filter
            (fun o => decide (SelectedBySpec host s.searchTerm s.filterStatus o)))) ∧
      (ordersFetchThrows outcome = true →
        (fetchOrders outcome s).error.truthy = true ∧
        (fetchOrders outcome s).orders = s.orders) ∧
      (∀ result, outcome = .resolved result → result.isNullish = false →
        (result.getOwn "success").truthy = false → (result.getOwn "message").truthy = true →
        (fetchOrders outcome s).error.truthy = true ∧
        (fetchOrders outcome s).orders = s.orders)) := by
  constructor
  · intro orderId k outcome s hclean
    refine ⟨rfl, fun hf => fetchOrderDetails_fails host orderId k outcome s hf, fun hf => ?_⟩
    obtain ⟨he, result, o, k2, hout, hnorm, ho⟩ :=
      fetchOrderDetails_succeeds host orderId k outcome s hf
    exact ⟨by rw [he]; exact hclean, ⟨result, o, k2, hout, hnorm, ho⟩⟩
  · intro outcome s hclean
    refine ⟨rfl, fun result hout hs => ?_, fun result list hout hs hlist hsum => ?_,
      fun ht => ?_, fun result hout hn hs hm => ?_⟩
    · subst hout
      rw [fetchOrders_success result s hs]
      exact ⟨rfl, hclean⟩
    · subst hout
      rw [fetchOrders_success result s hs]
      simp only [OrdersPageState.filtered, hlist]
      exact filteredOrders_summaries host list s.searchTerm s.filterStatus hsum
    · rw [fetchOrders_throws outcome s ht]
      exact ⟨rfl, rfl⟩
    · subst hout
      obtain ⟨ho, he⟩ := fetchOrders_failure result s hn hs
      exact ⟨by rw [he]; exact hm, ho⟩

theorem fetch_from_clean_state_witness :
    DetailsPageState.initial.error.truthy = false ∧
      detailsFetchFails sampleHost "ORD-A1" 0 (.resolved sampleResult) = false ∧
      (fetchOrderDetails sampleHost "ORD-A1" 0 (.resolved sampleResult)
        DetailsPageState.initial).error.truthy = false ∧
      (fetchOrderDetails sampleHost "ORD-A1" 0 (.resolved sampleResult)
        DetailsPageState.initial).order = sampleNormalized ∧
      detailsFetchFails sampleHost "ORD-A1" 0 .rejected = true ∧
      (fetchOrderDetails sampleHost "ORD-A1" 0 .rejected
        DetailsPageState.initial).error.truthy = true ∧
      (fetchOrderDetails sampleHost "ORD-A1" 0 .rejected DetailsPageState.initial).order =
        DetailsPageState.initial.order :=
  ⟨rfl, rfl,
    (((fetch_from_clean_state sampleHost).1 "ORD-A1" 0 (.resolved sampleResult)
      DetailsPageState.initial rfl).2.2 rfl).1,
    rfl, rfl,
    (((fetch_from_clean_state sampleHost).1 "ORD-A1" 0 .rejected
      DetailsPageState.initial rfl).2.1 rfl).1,
    (((fetch_from_clean_state sampleHost).1 "ORD-A1" 0 .rejected
      DetailsPageState.initial rfl).2.1 rfl).2⟩

/-! ## Theorems: local events -/

/-- C17: local events leave the fetched data alone and request no backend call.  In
`OrdersPage`, typing a search term, choosing a status and toggling an order keep `orders`,
`loading` and `error` and request no effect, and the filtered view after the event is the
list filter applied to the stored list with the new term or status; in `OrderDetailsPage`,
choosing a tab keeps `order`, `loading` and `error` and requests no effect. -/
theorem local_events_keep_data (host : Host) :
    (∀ (event : OrdersPageEvent) (s : OrdersPageState),
      (s.handle event).1.orders = s.orders ∧ (s.handle event).1.loading = s.loading ∧
        (s.handle event).1.error = s.error ∧ (s.handle event).2 = []) ∧
    (∀ (s : OrdersPageState) (orders : List JSValue) (value : String),
      s.orders = .arr orders →
      (s.handle (.searchTyped value)).1.filtered host =
          filteredOrders host orders value s.filterStatus ∧
        (s.handle (.filterChosen value)).1.filtered host =
          filteredOrders host orders s.searchTerm value ∧
        (s.handle (.expandToggled value)).1.filtered host = s.filtered host) ∧
    (∀ (tab : String) (s : DetailsPageState),
      (s.handleTab tab).1.order = s.order ∧ (s.handleTab tab).1.loading = s.loading ∧
        (s.handleTab tab).1.error = s.error ∧ (s.handleTab tab).2 = []) := by
  refine ⟨fun event s => ?_, fun s orders value h => ?_, fun tab s => ⟨rfl, rfl, rfl, rfl⟩⟩
  · cases event <;> exact ⟨rfl, rfl, rfl, rfl⟩
  · simp [OrdersPageState.handle, OrdersPageState.filtered, toggleOrderExpand, h]

theorem local_events_keep_data_witness :
    ({ OrdersPageState.initial with orders := .arr sampleOrders }.handle
        (.searchTyped "lake")).1.filtered sampleHost =
      filteredOrders sampleHost sampleOrders "lake" "all" :=
  ((local_events_keep_data sampleHost).2.1
    { OrdersPageState.initial with orders := .arr sampleOrders } sampleOrders "lake" rfl).1


/-! ## Theorems: line totals -/

theorem lineTotal_of_numbers (host : Host) (arith : NumHost) (item : JSValue) (p q : JSNum)
    (hp : item.getOwn "price" = .num p) (hq : item.getOwn "quantity" = .num q) :
    lineTotal host arith item = .ok (JSNum.mul arith p q) := by
  have hn : item.isNullish = false := by
    cases item <;> simp_all [JSValue.getOwn, JSValue.isNullish, JSValue.ownEnumerable,
      JSValue.lookupField]
  simp [lineTotal, JSValue.getProp, hn, hp, hq, JSValue.toNumber, bind, Except.bind, pure,
    Except.pure]

theorem mul_ten_two (arith : NumHost) (h : arith.round 20 = .fin 20) :
    JSNum.mul arith (.fin 10) (.fin 2) = .fin 20 := by
  have h2 : (10 : ℚ) * 2 = 20 := by norm_num
  simp [JSNum.mul, JSNum.isNaN, JSNum.isInfinite, JSNum.isZero, h2, h]

theorem mul_five_one (arith : NumHost) (h : arith.round 5 = .fin 5) :
    JSNum.mul arith (.fin 5) (.fin 1) = .fin 5 := by
  simp [JSNum.mul, JSNum.isNaN, JSNum.isInfinite, JSNum.isZero, h]

/-- C15: the line total of a normalized line item is its price times its quantity, computed
when the row is rendered.  For every item that the normalizer returns, price and quantity
are numbers, `item.price * item.quantity` is their product and nothing else, the cell
shows `formatCurrency` of that product, and every
field of the item is one of the five fields the normalizer writes or a raw field carried
over, so no total is stored; a normalized item exists for every well formed raw item; and
for the items `[{price: 10, quantity: 2}, {price: 5, quantity: 1}]` the line totals are 20
and 5 (on every host whose rounding keeps the doubles 20 and 5). -/
theorem lineTotal_normalized (host : Host) (arith : NumHost) :
    (∀ raw out : JSValue, normalizeItem host raw = .ok out →
      ∃ p q, out.getOwn "price" = .num p ∧ out.getOwn "quantity" = .num q ∧
        lineTotal host arith out = .ok (JSNum.mul arith p q) ∧
        lineTotalShown host arith out =
          formatCurrency host arith (.num (JSNum.mul arith p q)) ∧
        ∀ key v, JSValue.lookupField out.ownEnumerable key = some v →
          key ∈ itemKeys ∨ JSValue.lookupField raw.ownEnumerable key = some v) ∧
    (∀ raw : JSValue, itemOK raw = true → ∃ out, normalizeItem host raw = .ok out) ∧
    (arith.round 20 = .fin 20 → arith.round 5 = .fin 5 →
      ∃ first second, normalizeItems host exampleItems = .ok [first, second] ∧
        lineTotal host arith first = .ok (.fin 20) ∧
        lineTotal host arith second = .ok (.fin 5)) := by
  refine ⟨fun raw out h => ?_, fun raw h => normalizeItem_ok host raw h, fun h20 h5 => ?_⟩
  · obtain ⟨⟨p, _, hp⟩, ⟨q, _, hq⟩, _, _, _, hkeys⟩ := normalizeItem_inv host raw out h
    have ht := lineTotal_of_numbers host arith out _ _ hp hq
    refine ⟨_, _, hp, hq, ht, ?_, fun key v hv => ?_⟩
    · simp only [lineTotalShown, ht, bind, Except.bind]
    by_cases hk : key ∈ itemKeys
    · exact Or.inl hk
    · exact Or.inr (by rw [← hkeys key hk]; exact hv)
  · refine ⟨.obj [("price", .num (.fin 10)), ("quantity", .num (.fin 2)),
        ("productName", .str "Unnamed Product"),
        ("description", .str "No description available"), ("images", .arr [])],
      .obj [("price", .num (.fin 5)), ("quantity", .num (.fin 1)),
        ("productName", .str "Unnamed Product"),
        ("description", .str "No description available"), ("images", .arr [])],
      rfl, ?_, ?_⟩
    · refine Eq.trans (lineTotal_of_numbers host arith _ (.fin 10) (.fin 2) ?_ ?_)
        (congrArg Except.ok (mul_ten_two arith h20)) <;> rfl
    · refine Eq.trans (lineTotal_of_numbers host arith _ (.fin 5) (.fin 1) ?_ ?_)
        (congrArg Except.ok (mul_five_one arith h5)) <;> rfl

theorem lineTotal_normalized_witness :
    sampleArith.round 20 = .fin 20 ∧ sampleArith.round 5 = .fin 5 ∧
      (∃ first second, normalizeItems sampleHost exampleItems = .ok [first, second] ∧
        lineTotal sampleHost sampleArith first = .ok (.fin 20) ∧
        lineTotal sampleHost sampleArith second = .ok (.fin 5)) ∧
      formatCurrency sampleHost sampleArith (.num (.fin 20)) = .ok "₹20.00" ∧
      formatCurrency sampleHost sampleArith (.num (.fin 5)) = .ok "₹5.00" :=
  ⟨rfl, rfl, (lineTotal_normalized sampleHost sampleArith).2.2 rfl rfl, rfl, rfl⟩


/-! ## Theorems: the product card -/

theorem lookupField_foldl_setField (value : String → JSValue) (key : String) :
    ∀ (entries acc : List (String × JSValue)),
      JSValue.lookupField
          (entries.foldl (fun acc entry => JSValue.setField acc entry.1 (value entry.1)) acc)
          key =
        if (JSValue.lookupField entries key).isSome then some (value key)
        else JSValue.lookupField acc key := by
  intro entries
  induction entries with
  | nil => intro acc; simp [JSValue.lookupField]
  | cons entry rest ih =>
      intro acc
      obtain ⟨k, v⟩ := entry
      simp only [List.foldl_cons, ih]
      by_cases hk : k = key
      · subst hk
        simp [JSValue.lookupField, lookupField_setField_same]
      · have h2 : key ≠ k := fun h => hk h.symm
        simp [JSValue.lookupField, hk, lookupField_setField_other _ _ _ _ h2]

theorem lookupField_mergeFields (base extra : List (String × JSValue)) (key : String) :
    JSValue.lookupField (mergeFields base extra) key =
      (JSValue.lookupField extra key).orElse (fun _ => JSValue.lookupField base key) := by
  unfold mergeFields
  rw [lookupField_foldl_setField
    (fun k => (JSValue.lookupField extra k).getD .undefined) key extra base]
  cases h : JSValue.lookupField extra key <;> simp

/-- C18, evaluated at the failing input: for a product whose price is explicitly `null`,
the spread overrides the default, `safeProduct.price` is `null` and the price text raises;
a product without a price gets the default 0 and renders. -/
theorem safeProduct_null_price :
    (safeProduct nullPriceProduct).getOwn "price" = .null ∧
      productPriceText sampleArith nullPriceProduct = .error .typeError ∧
      (safeProduct (.obj [("productId", .str "p-17")])).getOwn "price" = .num (.fin 0) ∧
      productPriceText sampleArith (.obj [("productId", .str "p-17")]) = .ok "₹0.00" :=
  ⟨rfl, rfl, rfl, rfl⟩


/-! ## Theorems: the order page -/

theorem findFirst_records (key : String) :
    ∀ list : List JSValue, (∀ a ∈ list, IsRecord a) →
      findFirst (fun addr => (addr.getProp key).map JSValue.truthy) list =
        .ok ((list.find? (fun addr => (addr.getOwn key).truthy)).getD .undefined) := by
  intro list
  induction list with
  | nil => intro _; rfl
  | cons a rest ih =>
      intro h
      obtain ⟨fields, rfl⟩ := h a (List.mem_cons_self _ _)
      have hrest := ih (fun x hx => h x (List.mem_cons_of_mem _ hx))
      have htest : ((JSValue.obj fields).getProp key).map JSValue.truthy =
          .ok ((JSValue.obj fields).getOwn key).truthy := rfl
      rw [findFirst, htest]
      cases ht : ((JSValue.obj fields).getOwn key).truthy
      · simp only [hrest, List.find?_cons, ht]
      · simp only [List.find?_cons, ht, Option.getD_some]

theorem truthy_of_record {v : JSValue} (h : IsRecord v) : v.truthy = true := by
  obtain ⟨fields, rfl⟩ := h
  rfl

theorem getOwn_arr_zero (first : JSValue) (rest : List JSValue) :
    (JSValue.arr (first :: rest)).getOwn "0" = first := by
  have h0 : toString 0 = "0" := by decide
  simp [JSValue.getOwn, JSValue.ownEnumerable, JSValue.indexed, JSValue.lookupField, h0]

theorem getOwn_arr_nil (key : String) (hk : key ≠ "length") :
    (JSValue.arr []).getOwn key = .undefined := by
  simp [JSValue.getOwn, JSValue.ownEnumerable, JSValue.indexed, JSValue.lookupField, hk]

theorem length_strictEq_zero (items : List JSValue) :
    ((JSValue.arr items).getOwn "length").strictEq (.num (.fin 0)) = items.isEmpty := by
  cases items with
  | nil => rfl
  | cons x rest =>
      have hne : ((List.length rest : ℚ) + 1) ≠ 0 := by positivity
      simp [JSValue.getOwn, JSValue.strictEq, JSNum.strictEq, JSNum.isNaN, JSNum.isZero, hne]

theorem getProp_arr (items : List JSValue) (key : String) :
    (JSValue.arr items).getProp key = .ok ((JSValue.arr items).getOwn key) := rfl

theorem orElse_of_truthy {a : JSValue} (b : JSValue) (h : a.truthy = true) :
    a.orElse b = a := by
  simp [JSValue.orElse, h]

theorem orElse_undefined (b : JSValue) : JSValue.undefined.orElse b = b := rfl

theorem selection_eq_default (addresses : List JSValue) (h : ∀ a ∈ addresses, IsRecord a) :
    ((((addresses.find? (fun addr => (addr.getOwn "is_default").truthy)).getD
        .undefined).orElse ((JSValue.arr addresses).getOwn "0")).orElse .null) =
      defaultSelection addresses := by
  unfold defaultSelection
  cases hf : addresses.find? (fun addr => (addr.getOwn "is_default").truthy) with
  | some a =>
      have ha : a.truthy = true := truthy_of_record (h a (List.mem_of_find?_eq_some hf))
      simp only [Option.getD_some, orElse_of_truthy _ ha]
  | none =>
      cases addresses with
      | nil =>
          simp only [Option.getD_none, orElse_undefined,
            getOwn_arr_nil "0" (by decide)]
      | cons first rest =>
          have hfirst : first.truthy = true :=
            truthy_of_record (h first (List.mem_cons_self _ _))
          simp only [Option.getD_none, orElse_undefined, getOwn_arr_zero,
            orElse_of_truthy _ hfirst]

/-- C20: default address selection on mount of the order page.  For a signed-in user with
a non-empty cart and every list of address records, the effect selects the first address
whose `is_default` is set if there is one, otherwise the first address, otherwise `null`,
and clears `loading`; with an empty cart it selects nothing, sets the error
`Your cart is empty`, clears `loading` and navigates to the cart. -/
theorem orderPageEffect_default_address (user : JSValue) (items addresses : List JSValue)
    (s : OrderPageState) (huser : user.truthy = true) :
    (items ≠ [] → (∀ a ∈ addresses, IsRecord a) →
      orderPageEffect user (.arr items) (.arr addresses) s =
        .ok ({ s with selectedAddress := defaultSelection addresses, loading := false }, [])) ∧
    (orderPageEffect user (.arr []) (.arr addresses) s =
      .ok ({ s with error := .str "Your cart is empty", loading := false },
        [.navigate "/cart"])) := by
  constructor
  · intro hitems hrec
    have hlen : ((JSValue.arr items).getOwn "length").strictEq (.num (.fin 0)) = false := by
      rw [length_strictEq_zero]
      cases items with
      | nil => exact absurd rfl hitems
      | cons x rest => rfl
    simp only [orderPageEffect, huser, getProp_arr, hlen, asArray,
      findFirst_records "is_default" addresses hrec, selection_eq_default addresses hrec,
      bind, Except.bind, pure, Except.pure, Bool.not_true, Bool.false_eq_true, if_false]
  · have hlen : ((JSValue.arr []).getOwn "length").strictEq (.num (.fin 0)) = true := rfl
    simp only [orderPageEffect, huser, getProp_arr, hlen, bind, Except.bind, pure,
      Except.pure, Bool.not_true, Bool.false_eq_true, if_false, if_true]

theorem orderPageEffect_default_address_witness :
    sampleUser.truthy = true ∧
      orderPageEffect sampleUser sampleCart (.arr sampleAddresses) OrderPageState.initial =
        .ok ({ OrderPageState.initial with
          selectedAddress :=
            .obj [("address_id", .num (.fin 2)), ("is_default", .num (.fin 1))],
          loading := false }, []) :=
  ⟨rfl,
    (orderPageEffect_default_address sampleUser
      [.obj [("cartId", .num (.fin 7)), ("price", .str "40"), ("quantity", .num (.fin 2))]]
      sampleAddresses OrderPageState.initial rfl).1 (by simp)
      (by
        intro a ha
        simp only [sampleAddresses, List.mem_cons, List.mem_singleton, List.not_mem_nil,
          or_false] at ha
        rcases ha with rfl | rfl | rfl <;> exact ⟨_, rfl⟩)⟩

/-! ## Theorems: action failures -/

theorem handleDeleteAddress_timer (hookYields : Bool) (addresses addressId : JSValue)
    (outcome : Outcome) (s : OrderPageState) :
    ∃ before, (handleDeleteAddress hookYields addresses addressId outcome s).2 =
      before ++ [.clearMessageAfter 3000] := by
  unfold handleDeleteAddress
  cases hookYields with
  | false => exact ⟨[], rfl⟩
  | true =>
      simp only [Bool.not_true, Bool.false_eq_true, if_false]
      cases outcome with
      | rejected => exact ⟨[_], rfl⟩
      | resolved result =>
          simp only
          split
          · exact ⟨[_], rfl⟩
          · split
            · split
              · split
                · exact ⟨[_], rfl⟩
                · exact ⟨[_], rfl⟩
              · exact ⟨[_], rfl⟩
            · exact ⟨[_], rfl⟩

theorem handleDeleteAddress_fails (hookYields : Bool) (addresses addressId : JSValue)
    (outcome : Outcome) (s : OrderPageState) (h : deleteFails hookYields outcome = true) :
    (handleDeleteAddress hookYields addresses addressId outcome s).1.message.getOwn "type" =
      .str "error" := by
  cases hookYields with
  | false => rfl
  | true =>
      cases outcome with
      | rejected => rfl
      | resolved result =>
          cases hn : result.isNullish with
          | true => simp [handleDeleteAddress, JSValue.getProp, hn]; rfl
          | false =>
              have hs : (result.getOwn "success").truthy = false := by
                simpa [deleteFails, hn] using h
              simp [handleDeleteAddress, JSValue.getProp, hn, hs]
              rfl

/-- C14, as stated, fails: a failing `cancelOrder` and a failing `createOrder` each set an
inline error message, but neither handler schedules the message to be cleared. -/
theorem action_failure_without_timer :
    (handleCancelOrderRun "ORD-A1" true (.resolved failureWithoutMessage)
        pendingState).1.message =
        inlineMessage "error" (.str "Failed to cancel order") ∧
      (handleCancelOrderRun "ORD-A1" true (.resolved failureWithoutMessage)
        pendingState).2.any Effect.isClearMessage = false ∧
      (handlePlaceOrder sampleHost sampleArith (.str "rzp_test_key") true sampleUser
        (.resolved failureWithoutMessage) readyOrderPage).1.message =
        inlineMessage "error" (.str "Failed to place order") ∧
      (handlePlaceOrder sampleHost sampleArith (.str "rzp_test_key") true sampleUser
        (.resolved failureWithoutMessage) readyOrderPage).2.any Effect.isClearMessage =
        false :=
  ⟨rfl, rfl, rfl, rfl⟩

/-- C14, amended: every action failure is shown as an inline error message.  A failing
`cancelOrder` sets the message to an error with text `result.message` or
`Failed to cancel order` and `handleCancelOrder` sets no timer; a failing `createOrder`
sets it to an error with text `result.message` or `Failed to place order`; a failing
`verifyPayment` sets it to an error with text `verifyResult.message`; a failing address
deletion sets it to an error, and `handleDeleteAddress` always ends by scheduling the
message to be cleared after 3000 ms. -/
theorem action_failure_message :
    (∀ (orderId : String) (result : JSValue) (s : DetailsPageState),
      result.isNullish = false → (result.getOwn "success").truthy = false →
      (handleCancelOrderRun orderId true (.resolved result) s).1.message =
          inlineMessage "error"
            ((result.getOwn "message").orElse (.str "Failed to cancel order")) ∧
        (handleCancelOrderRun orderId true (.resolved result) s).2.any
          Effect.isClearMessage = false) ∧
    (∀ (host : Host) (arith : NumHost) (razorpayKey : JSValue) (widgetLoaded : Bool)
        (user result : JSValue) (s : OrderPageState),
      s.selectedAddress.truthy = true → result.isNullish = false →
      (result.getOwn "success").truthy = false →
      (handlePlaceOrder host arith razorpayKey widgetLoaded user (.resolved result)
          s).1.message =
        inlineMessage "error"
          ((result.getOwn "message").orElse (.str "Failed to place order"))) ∧
    (∀ (result response verifyResult argument : JSValue) (s : OrderPageState),
      verifyArgument result response = .ok argument → verifyResult.isNullish = false →
      (verifyResult.getOwn "success").truthy = false →
      (paymentHandler result response (.resolved verifyResult) s).1.message =
        inlineMessage "error" (verifyResult.getOwn "message")) ∧
    (∀ (hookYields : Bool) (addresses addressId : JSValue) (outcome : Outcome)
        (s : OrderPageState),
      deleteFails hookYields outcome = true →
      (handleDeleteAddress hookYields addresses addressId outcome s).1.message.getOwn
          "type" = .str "error" ∧
        ∃ before, (handleDeleteAddress hookYields addresses addressId outcome s).2 =
          before ++ [.clearMessageAfter 3000]) := by
  refine ⟨fun orderId result s hn hs => ?_, fun host arith key loaded user result s ha hn hs => ?_,
    fun result response verifyResult argument s harg hn hs => ?_,
    fun hookYields addresses addressId outcome s h =>
      ⟨handleDeleteAddress_fails hookYields addresses addressId outcome s h,
        handleDeleteAddress_timer hookYields addresses addressId outcome s⟩⟩
  · constructor
    · simp [handleCancelOrderRun, handleCancelOrder, JSValue.getProp, hn, hs, inlineMessage]
    · rfl
  · simp [handlePlaceOrder, JSValue.getProp, ha, hn, hs]
  · simp [paymentHandler, harg, JSValue.getProp, hn, hs]

theorem action_failure_message_witness :
    deleteFails true (.resolved failureWithoutMessage) = true ∧
      (handleDeleteAddress true (.arr sampleAddresses) (.num (.fin 2))
        (.resolved failureWithoutMessage) readyOrderPage).1.message.getOwn "type" =
        .str "error" ∧
      (handleDeleteAddress true (.arr sampleAddresses) (.num (.fin 2))
        (.resolved failureWithoutMessage) readyOrderPage).2 =
        [.backendCall "deleteAddress" (.num (.fin 2)), .clearMessageAfter 3000] :=
  ⟨rfl,
    (action_failure_message.2.2.2 true (.arr sampleAddresses) (.num (.fin 2))
      (.resolved failureWithoutMessage) readyOrderPage rfl).1,
    rfl⟩


/-! ## Theorems: normalizing twice -/

theorem setField_same (fields : List (String × JSValue)) (key : String) (v : JSValue)
    (h : JSValue.lookupField fields key = some v) : JSValue.setField fields key v = fields := by
  induction fields with
  | nil => simp [JSValue.lookupField] at h
  | cons entry rest ih =>
      obtain ⟨k, w⟩ := entry
      by_cases hk : k = key
      · subst hk
        simp only [JSValue.lookupField, if_true, Option.some.injEq] at h
        subst h
        simp [JSValue.setField]
      · simp only [JSValue.lookupField, hk, if_false] at h
        simp [JSValue.setField, hk, ih h]

theorem orElse_idem (a d : JSValue) : (a.orElse d).orElse d = a.orElse d := by
  cases ha : a.truthy
  · cases hd : d.truthy <;> simp [JSValue.orElse, ha, hd]
  · simp [JSValue.orElse, ha]

theorem normalizeItem_fixed (host : Host) (fields : List (String × JSValue)) (p q : JSNum)
    (name description images : JSValue)
    (hp : JSValue.lookupField fields "price" = some (.num p))
    (hp2 : (JSValue.num p).orElse (.num (.fin 0)) = .num p)
    (hq : JSValue.lookupField fields "quantity" = some (.num q))
    (hq2 : (JSValue.num q).orElse (.num (.fin 1)) = .num q)
    (hn : JSValue.lookupField fields "productName" = some name)
    (hn2 : name.orElse (.str "Unnamed Product") = name)
    (hd : JSValue.lookupField fields "description" = some description)
    (hd2 : description.orElse (.str "No description available") = description)
    (hi : JSValue.lookupField fields "images" = some images)
    (hi2 : images.orElse (.arr []) = images) :
    normalizeItem host (.obj fields) = .ok (.obj fields) := by
  simp only [normalizeItem, JSValue.getProp, JSValue.isNullish, getOwn_obj, hp, hq, hn, hd, hi,
    Option.getD_some, JSValue.toNumber, JSValue.ownEnumerable, hp2, hq2, hn2, hd2, hi2,
    bind, Except.bind, pure, Except.pure, Bool.false_eq_true, if_false]
  rw [setField_same fields "price" _ hp, setField_same fields "quantity" _ hq,
    setField_same fields "productName" _ hn, setField_same fields "description" _ hd,
    setField_same fields "images" _ hi]

theorem normalizeItem_idem (host : Host) (raw out : JSValue)
    (h : normalizeItem host raw = .ok out) : normalizeItem host out = .ok out := by
  simp only [normalizeItem, JSValue.getProp, bind, Except.bind, pure, Except.pure] at h
  by_cases hn : raw.isNullish = true
  · simp [hn] at h
  · simp only [hn] at h
    cases hp : (raw.getOwn "price").toNumber host with
    | error e => simp [hp] at h
    | ok p =>
        cases hq : (raw.getOwn "quantity").toNumber host with
        | error e => simp [hp, hq] at h
        | ok q =>
            simp only [hp, hq, Bool.false_eq_true, if_false, Except.ok.injEq] at h
            subst h
            refine normalizeItem_fixed host _ (if p.isFalsy then .fin 0 else p)
              (if q.isFalsy then .fin 1 else q)
              ((raw.getOwn "productName").orElse (.str "Unnamed Product"))
              ((raw.getOwn "description").orElse (.str "No description available"))
              ((raw.getOwn "images").orElse (.arr [])) ?_ ?_ ?_ ?_ ?_ ?_ ?_ ?_ ?_ ?_
            · simp [lookupField_setField_other, lookupField_setField_same, orElse_num]
            · rw [← orElse_num]; exact orElse_idem _ _
            · simp [lookupField_setField_other, lookupField_setField_same, orElse_num]
            · rw [← orElse_num]; exact orElse_idem _ _
            · simp only [lookupField_setField_other, lookupField_setField_same, ne_eq,
                String.reduceEq, not_false_eq_true]
            · exact orElse_idem _ _
            · simp only [lookupField_setField_other, lookupField_setField_same, ne_eq,
                String.reduceEq, not_false_eq_true]
            · exact orElse_idem _ _
            · simp only [lookupField_setField_other, lookupField_setField_same, ne_eq,
                String.reduceEq, not_false_eq_true]
            · exact orElse_idem _ _

theorem normalizeItems_idem (host : Host) :
    ∀ raws outs, normalizeItems host raws = .ok outs → normalizeItems host outs = .ok outs := by
  intro raws
  induction raws with
  | nil =>
      intro outs h
      simp only [normalizeItems, pure, Except.pure, Except.ok.injEq] at h
      subst h
      rfl
  | cons raw rest ih =>
      intro outs h
      simp only [normalizeItems, bind, Except.bind, pure, Except.pure] at h
      cases h1 : normalizeItem host raw with
      | error e => simp [h1] at h
      | ok first =>
          cases h2 : normalizeItems host rest with
          | error e => simp [h1, h2] at h
          | ok others =>
              simp only [h1, h2, Except.ok.injEq] at h
              subst h
              simp only [normalizeItems, bind, Except.bind, pure, Except.pure,
                normalizeItem_idem host raw first h1, ih others h2]

theorem orNow_fixed (host : Host) (raw : JSValue) (k k' : Nat)
    (hclock : host.clock k = host.clock k') :
    (orNow host (orNow host raw k).1 k').1 = (orNow host raw k).1 := by
  cases hr : raw.truthy
  · simp only [orNow, hr, Bool.false_eq_true, if_false, hclock]
    split <;> rfl
  · simp [orNow, hr]

theorem normalizeTrack_fixed (host : Host) (k : Nat) (fields : List (String × JSValue))
    (status time notes : JSValue)
    (hs : JSValue.lookupField fields "status" = some status)
    (hs2 : status.orElse (.str "Pending") = status)
    (ht : JSValue.lookupField fields "update_time" = some time)
    (ht2 : (orNow host time k).1 = time)
    (hn : JSValue.lookupField fields "notes" = some notes)
    (hn2 : notes.orElse (.str "Status update") = notes) :
    normalizeTrack host k (.obj fields) = .ok (.obj fields, (orNow host time k).2) := by
  simp only [normalizeTrack, JSValue.getProp, JSValue.isNullish, getOwn_obj, hs, ht, hn,
    Option.getD_some, JSValue.ownEnumerable, hs2, ht2, hn2,
    bind, Except.bind, pure, Except.pure, Bool.false_eq_true, if_false]
  rw [setField_same fields "status" _ hs, setField_same fields "update_time" _ ht,
    setField_same fields "notes" _ hn]

theorem normalizeTrack_idem (host : Host) (k k' k1 : Nat) (raw out : JSValue)
    (hclock : host.clock k = host.clock k')
    (h : normalizeTrack host k raw = .ok (out, k1)) :
    ∃ k2, normalizeTrack host k' out = .ok (out, k2) := by
  simp only [normalizeTrack, JSValue.getProp, bind, Except.bind, pure, Except.pure] at h
  by_cases hn : raw.isNullish = true
  · simp [hn] at h
  · simp only [hn, Bool.false_eq_true, if_false, Except.ok.injEq, Prod.mk.injEq] at h
    obtain ⟨h, -⟩ := h
    subst h
    refine ⟨_, normalizeTrack_fixed host k' _ ((raw.getOwn "status").orElse (.str "Pending"))
      (orNow host (raw.getOwn "update_time") k).1
      ((raw.getOwn "notes").orElse (.str "Status update")) ?_ ?_ ?_ ?_ ?_ ?_⟩
    · simp only [lookupField_setField_other, lookupField_setField_same, ne_eq,
        String.reduceEq, not_false_eq_true]
    · exact orElse_idem _ _
    · simp only [lookupField_setField_other, lookupField_setField_same, ne_eq,
        String.reduceEq, not_false_eq_true]
    · exact orNow_fixed host _ k k' hclock
    · simp only [lookupField_setField_other, lookupField_setField_same, ne_eq,
        String.reduceEq, not_false_eq_true]
    · exact orElse_idem _ _

theorem normalizeTracking_idem (host : Host) (hclock : ∀ i j, host.clock i = host.clock j) :
    ∀ raws k k' outs k1, normalizeTracking host k raws = .ok (outs, k1) →
      ∃ k2, normalizeTracking host k' outs = .ok (outs, k2) := by
  intro raws
  induction raws with
  | nil =>
      intro k k' outs k1 h
      simp only [normalizeTracking, pure, Except.pure, Except.ok.injEq, Prod.mk.injEq] at h
      obtain ⟨h, -⟩ := h
      subst h
      exact ⟨k', rfl⟩
  | cons raw rest ih =>
      intro k k' outs k1 h
      simp only [normalizeTracking, bind, Except.bind, pure, Except.pure] at h
      cases h1 : normalizeTrack host k raw with
      | error e => simp [h1] at h
      | ok first =>
          obtain ⟨o, j⟩ := first
          cases h2 : normalizeTracking host j rest with
          | error e => simp [h1, h2] at h
          | ok others =>
              obtain ⟨os, j2⟩ := others
              simp only [h1, h2, Except.ok.injEq, Prod.mk.injEq] at h
              obtain ⟨h, -⟩ := h
              subst h
              obtain ⟨m, hm⟩ := normalizeTrack_idem host k k' j raw o (hclock k k') h1
              obtain ⟨m2, hm2⟩ := ih j m os j2 h2
              exact ⟨m2, by
                simp only [normalizeTracking, bind, Except.bind, pure, Except.pure, hm, hm2]⟩

/-- C26: normalizing is idempotent. A line item that the item callback returned is returned
unchanged when the callback is applied to it again, and so is a whole list of items; with a
clock that returns the same value at every read, a tracking event that the tracking callback
returned is returned unchanged by a second application, and so is a whole list of events. -/
theorem normalization_idempotent (host : Host) :
    (∀ raw out, normalizeItem host raw = .ok out → normalizeItem host out = .ok out) ∧
    (∀ raws outs, normalizeItems host raws = .ok outs → normalizeItems host outs = .ok outs) ∧
    ((∀ i j, host.clock i = host.clock j) →
      (∀ k k' raw out k1, normalizeTrack host k raw = .ok (out, k1) →
        ∃ k2, normalizeTrack host k' out = .ok (out, k2)) ∧
      (∀ k k' raws outs k1, normalizeTracking host k raws = .ok (outs, k1) →
        ∃ k2, normalizeTracking host k' outs = .ok (outs, k2))) :=
  ⟨normalizeItem_idem host, normalizeItems_idem host, fun hclock =>
    ⟨fun k k' raw out k1 h => normalizeTrack_idem host k k' k1 raw out (hclock k k') h,
      fun k k' raws outs k1 h => normalizeTracking_idem host hclock raws k k' outs k1 h⟩⟩

theorem normalization_idempotent_witness :
    (∀ i j, frozenHost.clock i = frozenHost.clock j) ∧
    normalizeItems frozenHost sampleItems = .ok sampleItemsNormalized ∧
    normalizeItems frozenHost sampleItemsNormalized = .ok sampleItemsNormalized ∧
    normalizeTracking frozenHost 0 sampleTracking = .ok (sampleTrackingNormalized, 1) ∧
    (∃ k2, normalizeTracking frozenHost 1 sampleTrackingNormalized =
      .ok (sampleTrackingNormalized, k2)) :=
  ⟨fun _ _ => rfl, rfl,
    (normalization_idempotent frozenHost).2.1 sampleItems sampleItemsNormalized rfl, rfl,
    ((normalization_idempotent frozenHost).2.2 (fun _ _ => rfl)).2 0 1 sampleTracking
      sampleTrackingNormalized 1 rfl⟩


/-! ## Theorems: line totals are numbers -/

theorem not_falsy_number (n : JSNum) (h : n.isFalsy = false) :
    n.isNaN = false ∧ n.isZero = false := by
  cases n <;> simp_all [JSNum.isFalsy, JSNum.isNaN, JSNum.isZero]

theorem mul_not_nan (arith : NumHost) (hround : ∀ x, arith.round x ≠ .nan) (p q : JSNum)
    (hp : p.isNaN = false) (hq : q.isNaN = false) (hq0 : q.isZero = false)
    (h : p.isZero = false ∨ q.isInfinite = false) : (JSNum.mul arith p q).isNaN = false := by
  have hr : ∀ x, (arith.round x).isNaN = false := fun x => by
    cases hx : arith.round x <;> simp [JSNum.isNaN]
    exact hround x hx
  cases p <;> cases q <;>
    simp_all [JSNum.mul, JSNum.isNaN, JSNum.isInfinite, JSNum.isZero, JSNum.isNegative] <;>
    (repeat' split) <;> (try split_ifs at *) <;> simp_all [JSNum.isNaN]

/-- C25, as stated, fails: a raw line item with price 0 and an infinite quantity is
normalized to price 0 and quantity `Infinity` (a truthy number, so the default 1 is not
taken), and the line total `0 * Infinity` is `NaN`. -/
theorem lineTotal_infinite_quantity :
    ∃ out, normalizeItem sampleHost infiniteQuantityItem = .ok out ∧
      out.getOwn "price" = .num (.fin 0) ∧ out.getOwn "quantity" = .num .posInf ∧
      lineTotal sampleHost sampleArith out = .ok .nan :=
  ⟨_, rfl, rfl, rfl, rfl⟩

/-- C25, amended: for every raw line item that the item callback accepts (and it accepts
every well formed one), the normalized quantity is a number that is neither a zero nor
`NaN`, and it is 1 when the raw quantity is 0, `null`, or a string whose numeric value is 0
or `NaN`; the normalized price is a number that is not `NaN`, and it is 0 when the raw price
is a string whose numeric value is `NaN`; the line total is the product of the two, and on
a host whose rounding never returns `NaN` the product is not `NaN` unless the price is a
zero and the quantity is infinite. -/
theorem lineTotal_number (host : Host) (arith : NumHost) :
    (∀ raw out : JSValue, normalizeItem host raw = .ok out →
      ∃ p q, out.getOwn "price" = .num p ∧ out.getOwn "quantity" = .num q ∧
        q.isZero = false ∧ q.isNaN = false ∧ p.isNaN = false ∧
        ((raw.getOwn "quantity" = .num (.fin 0) ∨ raw.getOwn "quantity" = .null ∨
            ∃ s, raw.getOwn "quantity" = .str s ∧ (host.stringToNumber s).isFalsy = true) →
          q = .fin 1) ∧
        ((∃ s, raw.getOwn "price" = .str s ∧ host.stringToNumber s = .nan) → p = .fin 0) ∧
        lineTotal host arith out = .ok (JSNum.mul arith p q) ∧
        ((∀ x, arith.round x ≠ .nan) → (p.isZero = false ∨ q.isInfinite = false) →
          (JSNum.mul arith p q).isNaN = false)) ∧
    (∀ raw : JSValue, itemOK raw = true → ∃ out, normalizeItem host raw = .ok out) := by
  refine ⟨fun raw out h => ?_, fun raw h => normalizeItem_ok host raw h⟩
  obtain ⟨⟨p, hp, hpo⟩, ⟨q, hq, hqo⟩, -⟩ := normalizeItem_inv host raw out h
  have hq2 : (if q.isFalsy then JSNum.fin 1 else q).isFalsy = false := by
    cases hf : q.isFalsy
    · simpa using hf
    · simp [JSNum.isFalsy]
  have hp2 : (if p.isFalsy then JSNum.fin 0 else p).isNaN = false := by
    cases hf : p.isFalsy
    · simpa using (not_falsy_number p hf).1
    · simp [JSNum.isNaN]
  obtain ⟨hqn, hqz⟩ := not_falsy_number _ hq2
  refine ⟨_, _, hpo, hqo, hqz, hqn, hp2, ?_, ?_,
    lineTotal_of_numbers host arith out _ _ hpo hqo,
    fun hround hpq => mul_not_nan arith hround _ _ hp2 hqn hqz hpq⟩
  · rintro (h0 | h0 | ⟨s, h0, hs⟩) <;> rw [h0] at hq <;>
      simp only [JSValue.toNumber, Except.ok.injEq] at hq <;> subst hq
    · simp [JSNum.isFalsy]
    · simp [JSNum.isFalsy]
    · simp [hs]
  · rintro ⟨s, h0, hs⟩
    rw [h0] at hp
    simp only [JSValue.toNumber, Except.ok.injEq] at hp
    subst hp
    simp [hs, JSNum.isFalsy]

theorem lineTotal_number_witness :
    normalizeItem sampleHost blankQuantityItem =
      .ok (.obj [("productName", .str "Desk lamp"), ("price", .num (.fin 0)),
        ("quantity", .num (.fin 1)), ("description", .str "No description available"),
        ("images", .arr [])]) ∧
    (∃ p q,
      (JSValue.obj [("productName", .str "Desk lamp"), ("price", .num (.fin 0)),
        ("quantity", .num (.fin 1)), ("description", .str "No description available"),
        ("images", .arr [])]).getOwn "price" = .num p ∧
      (JSValue.obj [("productName", .str "Desk lamp"), ("price", .num (.fin 0)),
        ("quantity", .num (.fin 1)), ("description", .str "No description available"),
        ("images", .arr [])]).getOwn "quantity" = .num q ∧
      q.isZero = false ∧ q.isNaN = false ∧ p.isNaN = false ∧
      (JSNum.mul sampleArith p q).isNaN = false) ∧
    lineTotal sampleHost sampleArith
      (.obj [("productName", .str "Desk lamp"), ("price", .num (.fin 0)),
        ("quantity", .num (.fin 1)), ("description", .str "No description available"),
        ("images", .arr [])]) = .ok (.fin 0) := by
  refine ⟨rfl, ?_, rfl⟩
  obtain ⟨p, q, hp, hq, hqz, hqn, hpn, hq1, -, -, hmul⟩ :=
    (lineTotal_number sampleHost sampleArith).1 blankQuantityItem _ rfl
  have hone : q = .fin 1 := hq1 (Or.inr (Or.inr ⟨"", rfl, rfl⟩))
  refine ⟨p, q, hp, hq, hqz, hqn, hpn, hmul (fun x => by simp [sampleArith]) (Or.inr ?_)⟩
  rw [hone]
  rfl


/-! ## Theorems: availability of the cancel action -/

theorem cancelGuard_iff (order : JSValue) :
    cancelGuard order = true ↔
      (order.getOwn "order_status" = .str "Pending" ∨
        order.getOwn "order_status" = .str "Confirmed") := by
  simp [cancelGuard, strictEqStr_eq_decide]

theorem not_offered_of_guard (s : DetailsPageState) (h : cancelGuard s.order = false) :
    cancelOffered s = some false := by
  unfold cancelOffered
  split
  · rfl
  · simp [h]

theorem not_offered_of_cancelled (s : DetailsPageState)
    (h : s.order.getOwn "order_status" = .str "Cancelled") :
    cancelOffered s = some false := by
  apply not_offered_of_guard
  simp [cancelGuard, h, JSValue.strictEqStr]

theorem typedOrderDetail_truthy (order : JSValue) (h : typedOrderDetail order = true) :
    order.truthy = true := by
  cases order <;> simp_all [typedOrderDetail, JSValue.truthy]

theorem offered_of_typed (s : DetailsPageState) (hl : s.loading = false)
    (he : s.error.truthy = false) (ho : typedOrderDetail s.order = true)
    (hm : typedMessage s.message = true) :
    cancelOffered s = some (cancelGuard s.order) := by
  have ht := typedOrderDetail_truthy s.order ho
  cases hg : cancelGuard s.order <;> simp [cancelOffered, hl, he, ht, hg, ho, hm]

theorem offered_only_if (s : DetailsPageState) (h : cancelOffered s = some true) :
    s.loading = false ∧ s.error.truthy = false ∧ s.order.truthy = true ∧
      cancelGuard s.order = true := by
  unfold cancelOffered at h
  split at h
  · simp at h
  · rename_i hbranch
    simp only [Bool.or_eq_true, Bool.not_eq_true', not_or, Bool.not_eq_true,
      Bool.not_eq_false] at hbranch
    split at h
    · simp at h
    · rename_i hguard
      simp only [Bool.not_eq_true', Bool.not_eq_false] at hguard
      exact ⟨hbranch.1.1, hbranch.1.2, hbranch.2, hguard⟩

theorem handleCancelOrder_keeps_cancelled (confirmed : Bool) (outcome : Outcome)
    (s : DetailsPageState) (h : s.order.getOwn "order_status" = .str "Cancelled") :
    (handleCancelOrder confirmed outcome s).order.getOwn "order_status" = .str "Cancelled" := by
  unfold handleCancelOrder
  split
  · split
    · exact h
    · split
      · exact h
      · split
        · simp only [getOwn_obj, lookupField_setField_same, Option.getD_some]
        · exact h
  · exact h

theorem fetchOrderDetails_keeps_cancelled (host : Host) (f : DetailsFetch)
    (s : DetailsPageState) (h : s.order.getOwn "order_status" = .str "Cancelled")
    (hf : (DetailsEvent.refetched f).reportsCancelled host = true) :
    (fetchOrderDetails host f.orderId f.clockReads f.outcome s).order.getOwn "order_status" =
      .str "Cancelled" := by
  cases hfail : detailsFetchFails host f.orderId f.clockReads f.outcome with
  | true =>
      rw [(fetchOrderDetails_fails host f.orderId f.clockReads f.outcome s hfail).2]
      exact h
  | false =>
      obtain ⟨-, result, o, k2, hout, hnorm, ho⟩ :=
        fetchOrderDetails_succeeds host f.orderId f.clockReads f.outcome s hfail
      simp only [DetailsEvent.reportsCancelled, hfail, Bool.false_or] at hf
      simp only [hout, strictEqStr_eq_decide, decide_eq_true_eq] at hf
      obtain ⟨_, _, _, _, -, -, -, -, -, hobj⟩ :=
        normalizeOrderDetails_inv host f.orderId (result.getOwn "order") f.clockReads o k2 hnorm
      rw [ho, hobj]
      simp only [fetchedStatus] at hf
      simp only [getOwn_obj, JSValue.lookupField, String.reduceEq, if_false, if_true,
        Option.getD_some, hf]
      rfl

/-- C21, as stated, fails: the fetch effect replaces the order.  The page shows the
pending order `ORD-A1` and offers the cancel action; after a successful cancel the status
is `Cancelled` and the action is not offered; then the route changes to the confirmed
order `ORD-B2`, the fetch effect stores that order, the status in the state is `Confirmed`
and the cancel action is offered again. -/
theorem cancel_offered_after_refetch :
    cancelOffered pendingPage = some true ∧
    (handleCancelOrder true (.resolved (.obj [("success", .bool true)]))
        pendingPage).order.getOwn "order_status" = .str "Cancelled" ∧
    cancelOffered (handleCancelOrder true (.resolved (.obj [("success", .bool true)]))
        pendingPage) = some false ∧
    ((handleCancelOrder true (.resolved (.obj [("success", .bool true)]))
        pendingPage).run sampleHost routeChanged).order.getOwn "order_status" =
      .str "Confirmed" ∧
    cancelOffered ((handleCancelOrder true (.resolved (.obj [("success", .bool true)]))
        pendingPage).run sampleHost routeChanged) = some true :=
  ⟨rfl, rfl, rfl, rfl, rfl⟩

/-- C21, amended: the cancel action is offered only when the render reaches the order
markup and the `order_status` of the order is `Pending` or `Confirmed`; on a page that
shows an order of the documented types (not loading, no error, typed order and message) it
is offered exactly when the status is `Pending` or `Confirmed`; and it is not offered
whenever the status is neither.  After a successful cancel the status is `Cancelled` and
the action is not offered, in the state the handler leaves and in every state reached from
it by tab changes, further runs of the cancel handler (whatever the answer and the backend
reply), closing or replacing the message, and runs of the fetch effect that fail or return
the order as cancelled. -/
theorem cancel_availability (host : Host) :
    (∀ s : DetailsPageState, cancelOffered s = some true →
      s.loading = false ∧ s.error.truthy = false ∧ s.order.truthy = true ∧
      (s.order.getOwn "order_status" = .str "Pending" ∨
        s.order.getOwn "order_status" = .str "Confirmed")) ∧
    (∀ s : DetailsPageState, s.loading = false → s.error.truthy = false →
      typedOrderDetail s.order = true → typedMessage s.message = true →
      (cancelOffered s = some true ↔
        (s.order.getOwn "order_status" = .str "Pending" ∨
          s.order.getOwn "order_status" = .str "Confirmed")) ∧
      (cancelOffered s = some false ↔
        ¬ (s.order.getOwn "order_status" = .str "Pending" ∨
          s.order.getOwn "order_status" = .str "Confirmed"))) ∧
    (∀ s : DetailsPageState,
      ¬ (s.order.getOwn "order_status" = .str "Pending" ∨
        s.order.getOwn "order_status" = .str "Confirmed") →
      cancelOffered s = some false) ∧
    (∀ (s : DetailsPageState) (result : JSValue) (events : List DetailsEvent),
      (result.getOwn "success").truthy = true →
      (∀ e ∈ events, e.reportsCancelled host = true) →
      ((handleCancelOrder true (.resolved result) s).run host events).order.getOwn
          "order_status" = .str "Cancelled" ∧
        cancelOffered ((handleCancelOrder true (.resolved result) s).run host events) =
          some false) := by
  refine ⟨fun s h => ?_, fun s hl he ho hm => ?_, fun s h => ?_,
    fun s result events hs hev => ?_⟩
  · obtain ⟨h1, h2, h3, h4⟩ := offered_only_if s h
    exact ⟨h1, h2, h3, (cancelGuard_iff s.order).mp h4⟩
  · rw [offered_of_typed s hl he ho hm]
    cases hg : cancelGuard s.order
    · have hno : ¬ (s.order.getOwn "order_status" = .str "Pending" ∨
          s.order.getOwn "order_status" = .str "Confirmed") := fun hp => by
        rw [(cancelGuard_iff s.order).mpr hp] at hg
        exact Bool.noConfusion hg
      simp [hno]
    · have hyes := (cancelGuard_iff s.order).mp hg
      simp [hyes]
  · apply not_offered_of_guard
    cases hg : cancelGuard s.order
    · rfl
    · exact absurd ((cancelGuard_iff s.order).mp hg) h
  have hn : result.isNullish = false := truthy_getOwn_not_nullish hs
  have h0 : (handleCancelOrder true (.resolved result) s).order.getOwn "order_status" =
      .str "Cancelled" := by
    simp only [handleCancelOrder, JSValue.getProp, hn, hs, if_true, Bool.false_eq_true,
      if_false, getOwn_obj, lookupField_setField_same, Option.getD_some]
  have hrun : ∀ (events : List DetailsEvent) (st : DetailsPageState),
      st.order.getOwn "order_status" = .str "Cancelled" →
      (∀ e ∈ events, e.reportsCancelled host = true) →
      (st.run host events).order.getOwn "order_status" = .str "Cancelled" := by
    intro events
    induction events with
    | nil => intro st hst _; exact hst
    | cons e rest ih =>
        intro st hst hall
        have he := hall e (List.mem_cons_self e rest)
        refine ih (st.step host e) ?_ (fun x hx => hall x (List.mem_cons_of_mem e hx))
        cases e with
        | tabChosen tab => exact hst
        | cancelPressed confirmed outcome =>
            exact handleCancelOrder_keeps_cancelled confirmed outcome st hst
        | messageClosed => exact hst
        | linkCopied => exact hst
        | refetched f => exact fetchOrderDetails_keeps_cancelled host f st hst he
  have hfinal := hrun events _ h0 hev
  exact ⟨hfinal, not_offered_of_cancelled _ hfinal⟩

theorem cancel_availability_witness :
    pendingPage.loading = false ∧ pendingPage.error.truthy = false ∧
    typedOrderDetail pendingPage.order = true ∧ typedMessage pendingPage.message = true ∧
    pendingPage.order.getOwn "order_status" = .str "Pending" ∧
    cancelOffered pendingPage = some true ∧
    (∀ e ∈ eventsAfterCancel, e.reportsCancelled sampleHost = true) ∧
    ((handleCancelOrder true (.resolved (.obj [("success", .bool true)]))
        pendingPage).run sampleHost eventsAfterCancel).order.getOwn "order_status" =
      .str "Cancelled" ∧
    cancelOffered ((handleCancelOrder true (.resolved (.obj [("success", .bool true)]))
        pendingPage).run sampleHost eventsAfterCancel) = some false :=
  have h := (cancel_availability sampleHost).2.2.2 pendingPage
    (.obj [("success", .bool true)]) eventsAfterCancel rfl (by decide)
  ⟨rfl, rfl, rfl, rfl, rfl,
    ((cancel_availability sampleHost).2.1 pendingPage rfl rfl rfl rfl).1.mpr (Or.inl rfl),
    by decide, h.1, h.2⟩

/-! ## Theorems: placing an order -/

/-- C22: when no address is selected (`selectedAddress` is `null`, or any other falsy
value), `handlePlaceOrder` sets the error message `Please select or add an address`,
requests nothing but the timer that clears the message (no backend call, so no
`createOrder`, and no payment widget), and changes no other cell of the state:
`isPlacingOrder` stays as it was, false when it was false. -/
theorem handlePlaceOrder_no_address (host : Host) (arith : NumHost) (razorpayKey : JSValue)
    (widgetLoaded : Bool) (user : JSValue) (outcome : CallOutcome) (s : OrderPageState)
    (h : s.selectedAddress.truthy = false) :
    (handlePlaceOrder host arith razorpayKey widgetLoaded user outcome s).1 =
        { s with message := inlineMessage "error" (.str "Please select or add an address") } ∧
    (handlePlaceOrder host arith razorpayKey widgetLoaded user outcome s).2 =
        [.clearMessageAfter 3000] ∧
    (∀ e ∈ (handlePlaceOrder host arith razorpayKey widgetLoaded user outcome s).2,
        e.isBackendCall = false ∧ e.opensWidget = false) ∧
    (handlePlaceOrder host arith razorpayKey widgetLoaded user outcome s).1.isPlacingOrder =
        s.isPlacingOrder ∧
    (s.isPlacingOrder = false →
      (handlePlaceOrder host arith razorpayKey widgetLoaded user outcome s).1.isPlacingOrder =
        false) := by
  have hrun : handlePlaceOrder host arith razorpayKey widgetLoaded user outcome s =
      ({ s with message := inlineMessage "error" (.str "Please select or add an address") },
        [.clearMessageAfter 3000]) := by
    simp only [handlePlaceOrder, h, Bool.not_false, if_true]
  rw [hrun]
  refine ⟨rfl, rfl, ?_, rfl, fun h0 => h0⟩
  intro e he
  simp only [List.mem_singleton] at he
  subst he
  exact ⟨rfl, rfl⟩

theorem handlePlaceOrder_no_address_witness :
    OrderPageState.initial.selectedAddress = .null ∧
    OrderPageState.initial.isPlacingOrder = false ∧
    (handlePlaceOrder sampleHost sampleArith (.str "rzp_key") true sampleUser
        (.resolved createdResult) OrderPageState.initial).1.message =
      .obj [("type", .str "error"), ("text", .str "Please select or add an address")] ∧
    (handlePlaceOrder sampleHost sampleArith (.str "rzp_key") true sampleUser
        (.resolved createdResult) OrderPageState.initial).1.isPlacingOrder = false ∧
    (∀ e ∈ (handlePlaceOrder sampleHost sampleArith (.str "rzp_key") true sampleUser
        (.resolved createdResult) OrderPageState.initial).2,
      e.isBackendCall = false ∧ e.opensWidget = false) :=
  have h := handlePlaceOrder_no_address sampleHost sampleArith (.str "rzp_key") true
    sampleUser (.resolved createdResult) OrderPageState.initial rfl
  ⟨rfl, rfl, congrArg OrderPageState.message h.1, h.2.2.2.2 rfl, h.2.2.1⟩

theorem handlePlaceOrder_effects (host : Host) (arith : NumHost) (razorpayKey : JSValue)
    (widgetLoaded : Bool) (user : JSValue) (outcome : CallOutcome) (s : OrderPageState) :
    (∀ e ∈ (handlePlaceOrder host arith razorpayKey widgetLoaded user outcome s).2,
        e.isCallOf "verifyPayment" = false) ∧
      ((handlePlaceOrder host arith razorpayKey widgetLoaded user outcome s).2.countP
        Effect.opensWidget) ≤ 1 := by
  unfold handlePlaceOrder
  repeat' split
  all_goals simp [Effect.isCallOf, Effect.opensWidget, List.countP_cons]

theorem paymentOptions_ok (host : Host) (arith : NumHost) (razorpayKey user result : JSValue)
    (a : JSNum) (hres : result.isNullish = false)
    (horder : (result.getOwn "order").isNullish = false)
    (hamount : ((result.getOwn "order").getOwn "amount").toNumber host = .ok a)
    (huser : user.isNullish = false) :
    ∃ options, paymentOptions host arith razorpayKey user result = .ok options ∧
      options.getOwn "amount" = .num (JSNum.mul arith a (.fin 100)) ∧
      options.getOwn "currency" = (result.getOwn "order").getOwn "currency" ∧
      options.getOwn "order_id" = (result.getOwn "order").getOwn "razorpay_order_id" := by
  refine ⟨.obj [
    ("key", razorpayKey),
    ("amount", .num (JSNum.mul arith a (.fin 100))),
    ("currency", (result.getOwn "order").getOwn "currency"),
    ("name", .str "E-Shop"),
    ("description", .str "Order Payment"),
    ("order_id", (result.getOwn "order").getOwn "razorpay_order_id"),
    ("prefill", .obj [("name", user.getOwn "first_name"), ("email", user.getOwn "email"),
      ("contact", user.getOwn "phone")]),
    ("theme", .obj [("color", .str "#4F46E5")])], ?_, ?_, ?_, ?_⟩
  · have h100 : (JSValue.num (.fin 100)).toNumber host = .ok (.fin 100) := rfl
    simp only [paymentOptions, jsMultiply, JSValue.getProp, hres, horder, huser, hamount,
      h100, bind, Except.bind, pure, Except.pure, Bool.false_eq_true, if_false]
  · rfl
  · rfl
  · rfl

theorem handlePlaceOrder_refused (host : Host) (arith : NumHost) (razorpayKey : JSValue)
    (widgetLoaded : Bool) (user result : JSValue) (s : OrderPageState)
    (hsel : s.selectedAddress.truthy = true)
    (hsucc : (result.getOwn "success").truthy = false) :
    (handlePlaceOrder host arith razorpayKey widgetLoaded user (.resolved result) s).2 =
      [.backendCall "createOrder" (orderDataOf s)] := by
  cases hn : result.isNullish <;>
    simp [handlePlaceOrder, hsel, JSValue.getProp, hn, hsucc, orderDataOf]

theorem handlePlaceOrder_cod (host : Host) (arith : NumHost) (razorpayKey : JSValue)
    (widgetLoaded : Bool) (user result : JSValue) (s : OrderPageState)
    (hsel : s.selectedAddress.truthy = true)
    (hsucc : (result.getOwn "success").truthy = true) (hcod : s.paymentMethod = "COD") :
    (handlePlaceOrder host arith razorpayKey widgetLoaded user (.resolved result) s).2 =
      [.backendCall "createOrder" (orderDataOf s), .navigateAfter "/orders" 2000] := by
  have hn : result.isNullish = false := truthy_getOwn_not_nullish hsucc
  simp [handlePlaceOrder, hsel, JSValue.getProp, hn, hsucc, hcod, orderDataOf]

theorem handlePlaceOrder_widget (host : Host) (arith : NumHost) (razorpayKey : JSValue)
    (user result options : JSValue) (s : OrderPageState)
    (hsel : s.selectedAddress.truthy = true)
    (hsucc : (result.getOwn "success").truthy = true) (hcod : s.paymentMethod ≠ "COD")
    (hopt : paymentOptions host arith razorpayKey user result = .ok options) :
    (handlePlaceOrder host arith razorpayKey true user (.resolved result) s).2 =
      [.backendCall "createOrder" (orderDataOf s), .openPaymentWidget options] := by
  have hn : result.isNullish = false := truthy_getOwn_not_nullish hsucc
  simp [handlePlaceOrder, hsel, JSValue.getProp, hn, hsucc, hcod, hopt, orderDataOf]

theorem paymentHandler_calls (result response : JSValue) (outcome : Outcome)
    (s : OrderPageState) :
    ∀ e ∈ (paymentHandler result response outcome s).2, e.isBackendCall = true →
      ∃ argument, e = .backendCall "verifyPayment" argument ∧
        argument.getOwn "order_id" = (result.getOwn "order").getOwn "order_id" := by
  intro e he hcall
  cases harg : verifyArgument result response with
  | error err => simp [paymentHandler, harg] at he
  | ok argument =>
      have hid : argument.getOwn "order_id" = (result.getOwn "order").getOwn "order_id" := by
        simp only [verifyArgument, JSValue.getProp, bind, Except.bind, pure, Except.pure]
          at harg
        by_cases h1 : result.isNullish = true
        · simp [h1] at harg
        · by_cases h2 : (result.getOwn "order").isNullish = true
          · simp [h1, h2] at harg
          · by_cases h3 : response.isNullish = true
            · simp [h1, h2, h3] at harg
            · simp only [Bool.not_eq_true] at h1 h2 h3
              simp only [h1, h2, h3, Bool.false_eq_true, if_false, Except.ok.injEq] at harg
              subst harg
              rfl
      have hmem : e = .backendCall "verifyPayment" argument ∨
          e = .navigateAfter "/orders" 2000 := by
        simp only [paymentHandler, harg] at he
        repeat' split at he
        all_goals simp at he
        all_goals tauto
      rcases hmem with h | h
      · exact ⟨argument, h, hid⟩
      · subst h
        simp [Effect.isBackendCall] at hcall

theorem not_nullish_of_getOwn {v : JSValue} {key : String}
    (h : (v.getOwn key).isNullish = false) : v.isNullish = false := by
  cases v <;> simp_all [JSValue.getOwn, JSValue.isNullish, JSValue.ownEnumerable,
    JSValue.lookupField]

theorem paymentHandler_first_call (result response : JSValue) (outcome : Outcome)
    (s : OrderPageState) (horder : (result.getOwn "order").isNullish = false)
    (hresp : response.isNullish = false) :
    ∃ argument rest, (paymentHandler result response outcome s).2 =
        .backendCall "verifyPayment" argument :: rest ∧
      argument.getOwn "order_id" = (result.getOwn "order").getOwn "order_id" := by
  have hres : result.isNullish = false := not_nullish_of_getOwn horder
  have harg : verifyArgument result response = .ok (.obj [
      ("order_id", (result.getOwn "order").getOwn "order_id"),
      ("razorpay_order_id", response.getOwn "razorpay_order_id"),
      ("razorpay_payment_id", response.getOwn "razorpay_payment_id"),
      ("razorpay_signature", response.getOwn "razorpay_signature")]) := by
    simp only [verifyArgument, JSValue.getProp, hres, horder, hresp, bind, Except.bind, pure,
      Except.pure, Bool.false_eq_true, if_false]
  simp only [paymentHandler, harg]
  repeat' split
  all_goals exact ⟨_, _, rfl, rfl⟩

/-- C23: payment branching of `handlePlaceOrder` once an address is selected and
`createOrder` has resolved.  No run of the handler calls `verifyPayment`, and none opens
the widget more than once.  When the result reports failure the handler requests the
`createOrder` call and nothing else.  When it reports success and the payment method is
`COD`, the handler requests the call and the delayed navigation to `/orders`, nothing
else.  When it reports success with another payment method, the result carries an order,
its amount converts to the number `a`, a user is signed in and the widget script is
loaded, the handler requests the call and then opens the widget once, with `amount` the
product of `a` and 100, `currency` the currency of the order and `order_id` its
`razorpay_order_id`.  Every backend call made by the widget callback is `verifyPayment`
with `order_id` the identifier of the created order, and the callback makes that call
when the widget passes it a response. -/
theorem payment_branching (host : Host) (arith : NumHost) (razorpayKey user result : JSValue)
    (s : OrderPageState) (hsel : s.selectedAddress.truthy = true) :
    (∀ widgetLoaded outcome,
      (∀ e ∈ (handlePlaceOrder host arith razorpayKey widgetLoaded user outcome s).2,
          e.isCallOf "verifyPayment" = false) ∧
        ((handlePlaceOrder host arith razorpayKey widgetLoaded user outcome s).2.countP
          Effect.opensWidget) ≤ 1) ∧
    ((result.getOwn "success").truthy = false → ∀ widgetLoaded,
      (handlePlaceOrder host arith razorpayKey widgetLoaded user (.resolved result) s).2 =
        [.backendCall "createOrder" (orderDataOf s)]) ∧
    ((result.getOwn "success").truthy = true → s.paymentMethod = "COD" → ∀ widgetLoaded,
      (handlePlaceOrder host arith razorpayKey widgetLoaded user (.resolved result) s).2 =
        [.backendCall "createOrder" (orderDataOf s), .navigateAfter "/orders" 2000]) ∧
    ((result.getOwn "success").truthy = true → s.paymentMethod ≠ "COD" →
      (result.getOwn "order").isNullish = false → user.isNullish = false →
      ∀ a, ((result.getOwn "order").getOwn "amount").toNumber host = .ok a →
      ∃ options,
        (handlePlaceOrder host arith razorpayKey true user (.resolved result) s).2 =
          [.backendCall "createOrder" (orderDataOf s), .openPaymentWidget options] ∧
        options.getOwn "amount" = .num (JSNum.mul arith a (.fin 100)) ∧
        options.getOwn "currency" = (result.getOwn "order").getOwn "currency" ∧
        options.getOwn "order_id" = (result.getOwn "order").getOwn "razorpay_order_id") ∧
    (∀ response outcome (st : OrderPageState),
      ∀ e ∈ (paymentHandler result response outcome st).2, e.isBackendCall = true →
        ∃ argument, e = .backendCall "verifyPayment" argument ∧
          argument.getOwn "order_id" = (result.getOwn "order").getOwn "order_id") ∧
    ((result.getOwn "order").isNullish = false →
      ∀ response outcome (st : OrderPageState), response.isNullish = false →
        ∃ argument rest, (paymentHandler result response outcome st).2 =
            .backendCall "verifyPayment" argument :: rest ∧
          argument.getOwn "order_id" = (result.getOwn "order").getOwn "order_id") := by
  refine ⟨fun w o => handlePlaceOrder_effects host arith razorpayKey w user o s,
    fun hs w => handlePlaceOrder_refused host arith razorpayKey w user result s hsel hs,
    fun hs hc w => handlePlaceOrder_cod host arith razorpayKey w user result s hsel hs hc,
    fun hs hc ho hu a ha => ?_,
    fun response outcome st => paymentHandler_calls result response outcome st,
    fun ho response outcome st hr => paymentHandler_first_call result response outcome st ho hr⟩
  obtain ⟨options, hopt, h1, h2, h3⟩ := paymentOptions_ok host arith razorpayKey user result a
    (truthy_getOwn_not_nullish hs) ho ha hu
  exact ⟨options,
    handlePlaceOrder_widget host arith razorpayKey user result options s hsel hs hc hopt,
    h1, h2, h3⟩

theorem payment_branching_witness :
    readyOrderPage.selectedAddress.truthy = true ∧
    readyOrderPage.paymentMethod = "Razorpay" ∧
    (∃ options,
      (handlePlaceOrder sampleHost sampleArith (.str "rzp_key") true sampleUser
          (.resolved createdResult) readyOrderPage).2 =
        [.backendCall "createOrder" (.obj [("address_id", .num (.fin 2)),
            ("payment_method", .str "Razorpay")]),
          .openPaymentWidget options] ∧
      options.getOwn "amount" = .num (JSNum.mul sampleArith (.fin 499) (.fin 100)) ∧
      options.getOwn "currency" = .str "INR" ∧
      options.getOwn "order_id" = .str "order_R1") ∧
    JSNum.mul sampleArith (.fin 499) (.fin 100) = .fin 49900 ∧
    (handlePlaceOrder sampleHost sampleArith (.str "rzp_key") true sampleUser
        (.resolved createdResult) { readyOrderPage with paymentMethod := "COD" }).2 =
      [.backendCall "createOrder" (.obj [("address_id", .num (.fin 2)),
          ("payment_method", .str "COD")]),
        .navigateAfter "/orders" 2000] ∧
    (∃ argument rest,
      (paymentHandler createdResult widgetResponse (.resolved (.obj [("success", .bool true)]))
          readyOrderPage).2 = .backendCall "verifyPayment" argument :: rest ∧
        argument.getOwn "order_id" = .str "ORD-N1") := by
  have h := payment_branching sampleHost sampleArith (.str "rzp_key") sampleUser
    createdResult readyOrderPage rfl
  have hcod := payment_branching sampleHost sampleArith (.str "rzp_key") sampleUser
    createdResult { readyOrderPage with paymentMethod := "COD" } rfl
  refine ⟨rfl, rfl, h.2.2.2.1 rfl (by decide) rfl rfl (.fin 499) rfl, ?_,
    hcod.2.2.1 rfl rfl true, h.2.2.2.2.2 rfl widgetResponse _ readyOrderPage rfl⟩
  have h2 : (499 : ℚ) * 100 = 49900 := by norm_num
  simp [JSNum.mul, JSNum.isNaN, JSNum.isInfinite, JSNum.isZero, h2, sampleArith]


/-! ## Theorems: the status chips -/

theorem statusCount_summaries (orders : List JSValue) (status : String)
    (h : ∀ o ∈ orders, IsOrderSummary o) :
    statusCount orders status =
      .ok (orders.countP (fun o => decide (o.getOwn "order_status" = .str status))) := by
  induction orders with
  | nil => rfl
  | cons o rest ih =>
      obtain ⟨id, line, hid, -⟩ := h o (List.mem_cons_self _ _)
      have hn := getOwn_str_not_nullish hid
      have hrest := ih (fun x hx => h x (List.mem_cons_of_mem _ hx))
      simp only [statusCount, JSValue.getProp, hn, hrest, bind, Except.bind, pure, Except.pure,
        Bool.false_eq_true, if_false, strictEqStr_eq_decide, List.countP_cons]
      split <;> rfl

theorem filteredOrders_status_length (host : Host) (orders : List JSValue) (status : String)
    (hlower : host.toLowerCase "" = "") (hs : status ≠ "all")
    (h : ∀ o ∈ orders, IsOrderSummary o) :
    (filteredOrders host orders "" status).map List.length =
      .ok (orders.countP (fun o => decide (o.getOwn "order_status" = .str status))) := by
  rw [filteredOrders_summaries host orders "" status h]
  simp only [Except.map, List.countP_eq_length_filter]
  congr 2
  apply List.filter_congr
  intro o _
  simp [SelectedBySpec, hlower, hs]

theorem status_counts_le (orders : List JSValue) :
    orders.countP (fun o => decide (o.getOwn "order_status" = .str "Pending")) +
      orders.countP (fun o => decide (o.getOwn "order_status" = .str "Shipped")) +
      orders.countP (fun o => decide (o.getOwn "order_status" = .str "Delivered")) +
      orders.countP (fun o => decide (o.getOwn "order_status" = .str "Cancelled")) ≤
    orders.length := by
  induction orders with
  | nil => simp
  | cons o rest ih =>
      simp only [List.countP_cons, List.length_cons]
      by_cases h1 : o.getOwn "order_status" = .str "Pending"
      · simp [h1]; omega
      · by_cases h2 : o.getOwn "order_status" = .str "Shipped"
        · simp [h2]; omega
        · by_cases h3 : o.getOwn "order_status" = .str "Delivered"
          · simp [h3]; omega
          · by_cases h4 : o.getOwn "order_status" = .str "Cancelled"
            · simp [h4]; omega
            · simp [h1, h2, h3, h4]; omega

/-- C27: the counts on the status chips agree with the list filter.  On every list of
order summaries (with a host whose lower casing keeps the empty string), `statusFilters`
returns the five chips `all`, `Pending`, `Shipped`, `Delivered`, `Cancelled`; the count of
`all` is the length of the orders list; the count of each of the four statuses is the
length of what the list filter returns for the empty term and that status; and the four
counts sum to at most the count of `all`. -/
theorem statusFilters_agree (host : Host) (orders : List JSValue)
    (hlower : host.toLowerCase "" = "") (h : ∀ o ∈ orders, IsOrderSummary o) :
    ∃ pending shipped delivered cancelled,
      statusFilters orders = .ok [("all", orders.length), ("Pending", pending),
        ("Shipped", shipped), ("Delivered", delivered), ("Cancelled", cancelled)] ∧
      (filteredOrders host orders "" "Pending").map List.length = .ok pending ∧
      (filteredOrders host orders "" "Shipped").map List.length = .ok shipped ∧
      (filteredOrders host orders "" "Delivered").map List.length = .ok delivered ∧
      (filteredOrders host orders "" "Cancelled").map List.length = .ok cancelled ∧
      pending + shipped + delivered + cancelled ≤ orders.length := by
  refine ⟨_, _, _, _, ?_,
    filteredOrders_status_length host orders "Pending" hlower (by decide) h,
    filteredOrders_status_length host orders "Shipped" hlower (by decide) h,
    filteredOrders_status_length host orders "Delivered" hlower (by decide) h,
    filteredOrders_status_length host orders "Cancelled" hlower (by decide) h,
    status_counts_le orders⟩
  simp only [statusFilters, statusCount_summaries orders _ h, bind, Except.bind, pure,
    Except.pure]

theorem statusFilters_agree_witness :
    sampleHost.toLowerCase "" = "" ∧ (∀ o ∈ sampleOrders, IsOrderSummary o) ∧
    (∃ pending shipped delivered cancelled,
      statusFilters sampleOrders = .ok [("all", sampleOrders.length), ("Pending", pending),
        ("Shipped", shipped), ("Delivered", delivered), ("Cancelled", cancelled)] ∧
      (filteredOrders sampleHost sampleOrders "" "Pending").map List.length = .ok pending ∧
      (filteredOrders sampleHost sampleOrders "" "Shipped").map List.length = .ok shipped ∧
      (filteredOrders sampleHost sampleOrders "" "Delivered").map List.length =
        .ok delivered ∧
      (filteredOrders sampleHost sampleOrders "" "Cancelled").map List.length =
        .ok cancelled ∧
      pending + shipped + delivered + cancelled ≤ sampleOrders.length) ∧
    statusFilters sampleOrders =
      .ok [("all", 3), ("Pending", 2), ("Shipped", 1), ("Delivered", 0), ("Cancelled", 0)] :=
  ⟨rfl, sampleOrders_summaries,
    statusFilters_agree sampleHost sampleOrders rfl sampleOrders_summaries, rfl⟩


/-! ## Theorems: the cart total -/

theorem add_zero_any (cart : CartHost) (t a b : JSNum) (ht : t ≠ .negZero)
    (ha : a.isZero = true) (hb : b.isZero = true) : JSNum.add cart t a = JSNum.add cart t b := by
  cases t <;> cases a <;> cases b <;>
    simp_all [JSNum.add, JSNum.isNaN, JSNum.isInfinite, JSNum.isZero, JSNum.isNegative]

theorem add_ne_negZero (cart : CartHost) (hsum : ∀ r, r ≠ 0 → cart.roundSum r ≠ .negZero)
    (t x : JSNum) (ht : t ≠ .negZero) : JSNum.add cart t x ≠ .negZero := by
  cases t <;> cases x <;>
    simp_all [JSNum.add, JSNum.isNaN, JSNum.isInfinite, JSNum.isZero, JSNum.isNegative] <;>
    (repeat' split) <;> simp_all

theorem mul_orZero (arith : NumHost) (p q : JSNum) (hp : p.isNaN = false) :
    JSNum.mul arith (if p.isFalsy then .fin 0 else p) q = JSNum.mul arith p q ∨
      ((JSNum.mul arith (if p.isFalsy then .fin 0 else p) q).isZero = true ∧
        (JSNum.mul arith p q).isZero = true) := by
  cases p with
  | nan => simp [JSNum.isNaN] at hp
  | posInf => exact Or.inl rfl
  | negInf => exact Or.inl rfl
  | fin x =>
      left
      by_cases hx : x = 0
      · subst hx
        simp [JSNum.isFalsy]
      · simp [JSNum.isFalsy, hx]
  | negZero =>
      have hf : (if JSNum.negZero.isFalsy = true then JSNum.fin 0 else JSNum.negZero) =
          JSNum.fin 0 := rfl
      rw [hf]
      cases q with
      | nan => exact Or.inl rfl
      | posInf => left; simp [JSNum.mul, JSNum.isNaN, JSNum.isInfinite, JSNum.isZero]
      | negInf => left; simp [JSNum.mul, JSNum.isNaN, JSNum.isInfinite, JSNum.isZero]
      | negZero =>
          right
          simp [JSNum.mul, JSNum.isNaN, JSNum.isInfinite, JSNum.isZero, JSNum.isNegative]
      | fin y =>
          right
          by_cases hy : y < 0 <;>
            simp [JSNum.mul, JSNum.isNaN, JSNum.isInfinite, JSNum.isZero, JSNum.isNegative, hy]

theorem add_orZero (arith : NumHost) (cart : CartHost) (t p q : JSNum) (ht : t ≠ .negZero)
    (hp : p.isNaN = false) :
    JSNum.add cart t (JSNum.mul arith (if p.isFalsy then .fin 0 else p) q) =
      JSNum.add cart t (JSNum.mul arith p q) := by
  rcases mul_orZero arith p q hp with h | ⟨h1, h2⟩
  · rw [h]
  · exact add_zero_any cart t _ _ ht h1 h2

theorem add_zero_right (cart : CartHost) (t z : JSNum) (ht : t ≠ .negZero)
    (hz : z.isZero = true) : JSNum.add cart t z = t := by
  cases t <;> cases z <;>
    simp_all [JSNum.add, JSNum.isNaN, JSNum.isInfinite, JSNum.isZero, JSNum.isNegative]

theorem mul_zero_finite (arith : NumHost) (q : JSNum) (hn : q.isNaN = false)
    (hi : q.isInfinite = false) : (JSNum.mul arith (.fin 0) q).isZero = true := by
  cases q with
  | nan => simp [JSNum.isNaN] at hn
  | posInf => simp [JSNum.isInfinite] at hi
  | negInf => simp [JSNum.isInfinite] at hi
  | negZero =>
      simp [JSNum.mul, JSNum.isNaN, JSNum.isInfinite, JSNum.isZero, JSNum.isNegative]
  | fin y =>
      by_cases hy : y < 0 <;>
        simp [JSNum.mul, JSNum.isNaN, JSNum.isInfinite, JSNum.isZero, JSNum.isNegative, hy]

theorem cartLineValue_inv (host : Host) (arith : NumHost) (cart : CartHost)
    (item : JSValue) (v : JSNum) (h : cartLineValue host arith cart item = .ok v) :
    ∃ p q, item.isNullish = false ∧
      callParseFloat host cart (item.getOwn "price") = .ok p ∧
      (item.getOwn "quantity").toNumber host = .ok q ∧ v = JSNum.mul arith p q := by
  simp only [cartLineValue, JSValue.getProp, bind, Except.bind, pure, Except.pure] at h
  cases hn : item.isNullish with
  | true => simp [hn] at h
  | false =>
      simp only [hn, Bool.false_eq_true, if_false] at h
      cases hp : callParseFloat host cart (item.getOwn "price") with
      | error e => simp [hp] at h
      | ok p =>
          cases hq : (item.getOwn "quantity").toNumber host with
          | error e => simp [hp, hq] at h
          | ok q =>
              simp only [hp, hq, Except.ok.injEq] at h
              exact ⟨p, q, rfl, rfl, rfl, h.symm⟩

theorem totalStep_of_reads (host : Host) (arith : NumHost) (cart : CartHost)
    (t : JSNum) (item : JSValue) (p q : JSNum) (hn : item.isNullish = false)
    (hp : callParseFloat host cart (item.getOwn "price") = .ok p)
    (hq : (item.getOwn "quantity").toNumber host = .ok q) :
    totalStep host arith cart t item =
      .ok (JSNum.add cart t (JSNum.mul arith (if p.isFalsy then .fin 0 else p) q)) := by
  simp only [totalStep, JSValue.getProp, hn, hp, hq, bind, Except.bind, pure, Except.pure,
    Bool.false_eq_true, if_false]

theorem priceParses_reads (host : Host) (cart : CartHost) (item : JSValue) (p : JSNum)
    (hn : item.isNullish = false)
    (hp : callParseFloat host cart (item.getOwn "price") = .ok p)
    (h : priceParses host cart item = true) : p.isNaN = false := by
  simpa [priceParses, JSValue.getProp, hn, hp] using h

theorem reduceTotal_sum (host : Host) (arith : NumHost) (cart : CartHost)
    (hsum : ∀ r, r ≠ 0 → cart.roundSum r ≠ .negZero) :
    ∀ (items : List JSValue) (values : List JSNum) (t : JSNum), t ≠ .negZero →
      (∀ item ∈ items, priceParses host cart item = true) →
      cartLineValues host arith cart items = .ok values →
      reduceTotal host arith cart t items = .ok (values.foldl (JSNum.add cart) t) := by
  intro items
  induction items with
  | nil =>
      intro values t _ _ h
      simp only [cartLineValues, pure, Except.pure, Except.ok.injEq] at h
      subst h
      rfl
  | cons item rest ih =>
      intro values t ht hall h
      simp only [cartLineValues, bind, Except.bind, pure, Except.pure] at h
      cases h1 : cartLineValue host arith cart item with
      | error e => simp [h1] at h
      | ok v =>
          cases h2 : cartLineValues host arith cart rest with
          | error e => simp [h1, h2] at h
          | ok vs =>
              simp only [h1, h2, Except.ok.injEq] at h
              subst h
              obtain ⟨p, q, hn, hp, hq, hv⟩ := cartLineValue_inv host arith cart item v h1
              have hpn := priceParses_reads host cart item p hn hp
                (hall item (List.mem_cons_self _ _))
              have hstep := totalStep_of_reads host arith cart t item p q hn hp hq
              rw [add_orZero arith cart t p q ht hpn, ← hv] at hstep
              simp only [reduceTotal, hstep, bind, Except.bind, List.foldl_cons]
              exact ih vs _ (add_ne_negZero cart hsum t v ht)
                (fun x hx => hall x (List.mem_cons_of_mem _ hx)) h2

theorem cartLineValues_ok (host : Host) (arith : NumHost) (cart : CartHost) :
    ∀ items : List JSValue, (∀ item ∈ items, itemOK item = true) →
      ∃ values, cartLineValues host arith cart items = .ok values := by
  intro items
  induction items with
  | nil => intro _; exact ⟨[], rfl⟩
  | cons item rest ih =>
      intro h
      have hitem := h item (List.mem_cons_self _ _)
      simp only [itemOK, Bool.and_eq_true, Bool.not_eq_true'] at hitem
      obtain ⟨⟨hn, hprice⟩, hquantity⟩ := hitem
      obtain ⟨text, htext⟩ := toStr_printable host _ hprice
      obtain ⟨q, hq⟩ := toNumber_printable host _ hquantity
      obtain ⟨vs, hvs⟩ := ih (fun x hx => h x (List.mem_cons_of_mem _ hx))
      exact ⟨JSNum.mul arith (cart.parseFloat text) q :: vs, by
        simp only [cartLineValues, cartLineValue, callParseFloat, JSValue.getProp, hn, htext,
          hq, hvs, bind, Except.bind, pure, Except.pure, Bool.false_eq_true, if_false]⟩

theorem totalStep_inv (host : Host) (arith : NumHost) (cart : CartHost) (t t1 : JSNum)
    (item : JSValue) (h : totalStep host arith cart t item = .ok t1) :
    ∃ x, t1 = JSNum.add cart t x := by
  simp only [totalStep, JSValue.getProp, bind, Except.bind, pure, Except.pure] at h
  cases hn : item.isNullish with
  | true => simp [hn] at h
  | false =>
      simp only [hn, Bool.false_eq_true, if_false] at h
      cases hp : callParseFloat host cart (item.getOwn "price") with
      | error e => simp [hp] at h
      | ok p =>
          cases hq : (item.getOwn "quantity").toNumber host with
          | error e => simp [hp, hq] at h
          | ok q =>
              simp only [hp, hq, Except.ok.injEq] at h
              exact ⟨_, h.symm⟩

theorem totalStep_unparsed (host : Host) (arith : NumHost) (cart : CartHost) (t : JSNum)
    (item : JSValue) (hp : priceUnparsed host cart item = true)
    (hq : quantityFinite host item = true) :
    ∃ z, totalStep host arith cart t item = .ok (JSNum.add cart t z) ∧ z.isZero = true := by
  cases hn : item.isNullish with
  | true => simp [priceUnparsed, JSValue.getProp, hn] at hp
  | false =>
      cases hparse : callParseFloat host cart (item.getOwn "price") with
      | error e => simp [priceUnparsed, JSValue.getProp, hn, hparse] at hp
      | ok p =>
          cases hnum : (item.getOwn "quantity").toNumber host with
          | error e => simp [quantityFinite, hnum] at hq
          | ok q =>
              simp only [priceUnparsed, JSValue.getProp, hn, hparse, Bool.false_eq_true,
                if_false] at hp
              simp only [quantityFinite, hnum, Bool.and_eq_true, Bool.not_eq_true'] at hq
              have hf : p.isFalsy = true := by
                cases p <;> simp_all [JSNum.isNaN, JSNum.isFalsy]
              refine ⟨JSNum.mul arith (.fin 0) q, ?_, mul_zero_finite arith q hq.1 hq.2⟩
              rw [totalStep_of_reads host arith cart t item p q hn hparse hnum, hf]
              rfl

theorem reduceTotal_skip (host : Host) (arith : NumHost) (cart : CartHost)
    (hsum : ∀ r, r ≠ 0 → cart.roundSum r ≠ .negZero) (item : JSValue) (post : List JSValue)
    (hp : priceUnparsed host cart item = true) (hq : quantityFinite host item = true) :
    ∀ (pre : List JSValue) (t : JSNum), t ≠ .negZero →
      reduceTotal host arith cart t (pre ++ item :: post) =
        reduceTotal host arith cart t (pre ++ post) := by
  intro pre
  induction pre with
  | nil =>
      intro t ht
      obtain ⟨z, hz, hzero⟩ := totalStep_unparsed host arith cart t item hp hq
      simp only [List.nil_append, reduceTotal, hz, bind, Except.bind,
        add_zero_right cart t z ht hzero]
  | cons x rest ih =>
      intro t ht
      cases hx : totalStep host arith cart t x with
      | error e => simp only [List.cons_append, reduceTotal, hx, bind, Except.bind]
      | ok t1 =>
          obtain ⟨y, hy⟩ := totalStep_inv host arith cart t t1 x hx
          have ht1 : t1 ≠ .negZero := by
            rw [hy]
            exact add_ne_negZero cart hsum t y ht
          simp only [List.cons_append, reduceTotal, hx, bind, Except.bind]
          exact ih t1 ht1

/-- C24, as stated, fails: an item whose price does not parse and which has no quantity
does not contribute 0.  Its term is `(NaN || 0) * undefined`, which is `NaN`, and the
total of the cart that holds only this item is printed as `NaN`, while the total of the
empty cart is `0.00`. -/
theorem calculateTotal_missing_quantity :
    priceUnparsed sampleHost sampleCartHost unquantifiedItem = true ∧
    totalStep sampleHost sampleArith sampleCartHost (.fin 0) unquantifiedItem = .ok .nan ∧
    calculateTotal sampleHost sampleArith sampleCartHost (.arr [unquantifiedItem]) =
      .ok "NaN" ∧
    calculateTotal sampleHost sampleArith sampleCartHost (.arr []) = .ok "0.00" :=
  ⟨rfl, rfl, rfl, rfl⟩

/-- C24, amended: the cart total of `OrderPage`.  On a host whose addition does not round
a non-zero sum to `-0`: for every cart whose items all have a price that parses to a
number, `calculateTotal` returns the sum of the line totals of the items (the values
`parseFloat(price) * quantity`, added in cart order from 0) printed with two decimals; the
line totals exist for every cart of well formed items; and an item whose price does not
parse and whose quantity is a finite number adds a zero to the running total, so that the
total of the cart is the total of the cart without that item. -/
theorem calculateTotal_sum (host : Host) (arith : NumHost) (cart : CartHost)
    (hsum : ∀ r, r ≠ 0 → cart.roundSum r ≠ .negZero) :
    (∀ (items : List JSValue) (values : List JSNum),
      (∀ item ∈ items, priceParses host cart item = true) →
      cartLineValues host arith cart items = .ok values →
      calculateTotal host arith cart (.arr items) =
        .ok (arith.toFixed (sumOfLineTotals cart values) 2)) ∧
    (∀ items : List JSValue, (∀ item ∈ items, itemOK item = true) →
      ∃ values, cartLineValues host arith cart items = .ok values) ∧
    (∀ (total : JSNum) (item : JSValue), priceUnparsed host cart item = true →
      quantityFinite host item = true →
      ∃ zero, totalStep host arith cart total item = .ok (JSNum.add cart total zero) ∧
        zero.isZero = true) ∧
    (∀ (before after : List JSValue) (item : JSValue),
      priceUnparsed host cart item = true → quantityFinite host item = true →
      calculateTotal host arith cart (.arr (before ++ item :: after)) =
        calculateTotal host arith cart (.arr (before ++ after))) := by
  refine ⟨fun items values hall hvalues => ?_,
    cartLineValues_ok host arith cart,
    fun total item hp hq => totalStep_unparsed host arith cart total item hp hq,
    fun before after item hp hq => ?_⟩
  · simp only [calculateTotal, asArray, bind, Except.bind, pure, Except.pure,
      reduceTotal_sum host arith cart hsum items values (.fin 0) (by simp) hall hvalues,
      sumOfLineTotals]
  · simp only [calculateTotal, asArray, bind, Except.bind, pure, Except.pure,
      reduceTotal_skip host arith cart hsum item after hp hq before (.fin 0) (by simp)]

theorem calculateTotal_sum_witness :
    (∀ r : ℚ, r ≠ 0 → sampleCartHost.roundSum r ≠ .negZero) ∧
    (∀ item ∈ pricedCart, priceParses sampleHost sampleCartHost item = true) ∧
    cartLineValues sampleHost sampleArith sampleCartHost pricedCart =
      .ok [JSNum.mul sampleArith (.fin 40) (.fin 2), JSNum.mul sampleArith (.fin 5) (.fin 1)] ∧
    calculateTotal sampleHost sampleArith sampleCartHost (.arr pricedCart) = .ok "85.00" ∧
    priceUnparsed sampleHost sampleCartHost unpricedItem = true ∧
    quantityFinite sampleHost unpricedItem = true ∧
    calculateTotal sampleHost sampleArith sampleCartHost
        (.arr (pricedCart ++ unpricedItem :: [])) = .ok "85.00" := by
  have hsum : ∀ r : ℚ, r ≠ 0 → sampleCartHost.roundSum r ≠ .negZero := fun r _ => by
    simp [sampleCartHost]
  have hparses : ∀ item ∈ pricedCart, priceParses sampleHost sampleCartHost item = true := by
    intro item hitem
    simp only [pricedCart, List.mem_cons, List.mem_singleton, List.not_mem_nil, or_false]
      at hitem
    rcases hitem with rfl | rfl <;> rfl
  have hvalue : sumOfLineTotals sampleCartHost
      [JSNum.mul sampleArith (.fin 40) (.fin 2), JSNum.mul sampleArith (.fin 5) (.fin 1)] =
        .fin 85 := by
    have h1 : JSNum.mul sampleArith (.fin 40) (.fin 2) = .fin 80 := by
      have h : (40 : ℚ) * 2 = 80 := by norm_num
      simp [JSNum.mul, JSNum.isNaN, JSNum.isInfinite, JSNum.isZero, h, sampleArith]
    have h2 : JSNum.mul sampleArith (.fin 5) (.fin 1) = .fin 5 := by
      simp [JSNum.mul, JSNum.isNaN, JSNum.isInfinite, JSNum.isZero, sampleArith]
    have h3 : (80 : ℚ) + 5 = 85 := by norm_num
    simp [sumOfLineTotals, h1, h2, h3, JSNum.add, JSNum.isNaN, JSNum.isInfinite, JSNum.isZero,
      sampleCartHost]
  have htotal := (calculateTotal_sum sampleHost sampleArith sampleCartHost hsum).1
    pricedCart
    [JSNum.mul sampleArith (.fin 40) (.fin 2), JSNum.mul sampleArith (.fin 5) (.fin 1)]
    hparses rfl
  rw [hvalue] at htotal
  have hskip := (calculateTotal_sum sampleHost sampleArith sampleCartHost hsum).2.2.2
    pricedCart [] unpricedItem rfl rfl
  rw [List.append_nil, htotal] at hskip
  exact ⟨hsum, hparses, rfl, htotal, rfl, rfl, hskip⟩

end XeComm
